import Mathlib

/-!
# Speed-to-lead dashboard: a verification development

A shallow embedding of the server of `speed-to-lead-dashboard`
(`src/server/src/services/speedToLead.js`, `src/server/src/models/*.js`,
`src/server/src/routes/*.js`), of the `formatMinutes` helpers of its dashboard
(`src/dashboard/src/components/*.js`), and theorems about them.

JavaScript numbers are embedded as rationals `ℚ`, whole numbers as `Int`. The rounding
of an arithmetic result to the nearest IEEE double (ties to even; overflow and subnormal
numbers are outside the embedding) is `toDouble`; the definitions apply it where the
source subtracts, divides or multiplies numbers: `calculateSpeedToLead`,
`formatSpeedToLead` and the `formatMinutes` helpers, the contact rate of the reports, and
`Double.Lead.getPercentile`. `Lead.getPercentile` is the interpolation of
`_getPercentile` in exact arithmetic, `Double.Lead.getPercentile` the same function with
every operation rounded. The aggregates of SQL are exact.
-/

namespace SpeedToLead

/-! ## JavaScript values used by the service -/

/-- A JavaScript `Date`. Its time value is a whole number of milliseconds since the
epoch, or NaN ("Invalid Date"), which is `none` here. -/
structure JsDate where
  time : Option Int
deriving DecidableEq, Repr

/-- A JavaScript value that is not an object: what a path of a webhook payload holds
(`req.body` is parsed JSON, and a path that is missing reads `undefined`), and what may
be handed to `new Date`. Numbers are whole numbers; objects and arrays are outside the
embedding. -/
inductive JsVal where
  | undefined
  | null
  | bool (b : Bool)
  | num (n : Int)
  | str (s : String)
deriving DecidableEq, Repr

/-- JavaScript truthiness: what `if (v)`, `!v` and `v || w` test. -/
def JsVal.truthy : JsVal → Bool
  | .undefined => false
  | .null => false
  | .bool b => b
  | .num n => n != 0
  | .str s => s != ""

/-- The expression `a || b`. -/
def JsVal.or (a b : JsVal) : JsVal := if a.truthy then a else b

/-- An argument of `calculateSpeedToLead`, documented as `{Date|string}`: a `Date`
object, or any other value, which the function hands to `new Date`. -/
inductive DateArg where
  | date (d : JsDate)
  | value (v : JsVal)
deriving DecidableEq, Repr

/-- A number produced by the aggregator's arithmetic: NaN, or the integer that
`Math.round` returned. -/
inductive JsNum where
  | nan
  | num (v : Int)
deriving DecidableEq, Repr

/-- What the runtime and the storage engine decide and the sources do not: `Date.parse`
on strings (`none` for NaN) and the collation order that `ORDER BY name` uses. -/
structure Runtime where
  parse : String → Option Int
  nameLE : JsVal → JsVal → Bool

/-- The constructor call `new Date(v)` on a value that is not a `Date`; `parse` is the
runtime's `Date.parse` on strings (`none` for NaN). A string is parsed, a number
is the time value itself when within the range of a Date (±8.64e15 ms), `true`, `false`
and `null` convert to the numbers 1, 0 and 0, and `undefined` gives an Invalid Date. -/
def newDate (parse : String → Option Int) : JsVal → JsDate
  | .str s => ⟨parse s⟩
  | .num n => ⟨if -8640000000000000 ≤ n ∧ n ≤ 8640000000000000 then some n else none⟩
  | .bool b => ⟨some (if b then 1 else 0)⟩
  | .null => ⟨some 0⟩
  | .undefined => ⟨none⟩

/-- The expression `x instanceof Date ? x : new Date(x)`. -/
def toDate (parse : String → Option Int) : DateArg → JsDate
  | .date d => d
  | .value v => newDate parse v

/-- `Math.round` on a finite number: the integer `floor (x + 1/2)`, so that an exact
half goes up. -/
def Math.round (x : ℚ) : Int := ⌊x + 1 / 2⌋

/-! ### Double-precision arithmetic -/

/-- Fuelled search for `natLog2`. -/
def log2Fuel : Nat → Nat → Nat
  | 0, _ => 0
  | fuel + 1, n => if 2 ≤ n then log2Fuel fuel (n / 2) + 1 else 0

/-- The position of the leading binary digit of a positive whole number: the `e` with
`2^e ≤ n < 2^(e+1)`. -/
def natLog2 (n : Nat) : Nat := log2Fuel n n

/-- The binary exponent of a non-zero number: the `e` with `2^e ≤ |x| < 2^(e+1)`. -/
def binade (x : ℚ) : Int :=
  let e0 : Int := (natLog2 x.num.natAbs : Int) - (natLog2 x.den : Int)
  if (2 : ℚ) ^ e0 ≤ |x| then e0 else e0 - 1

/-- The spacing of the doubles in the binade of `x`: a double has 53 significant binary
digits. -/
def ulp (x : ℚ) : ℚ := (2 : ℚ) ^ (binade x - 52)

/-- The nearest whole number, a tie going to the even one. -/
def roundHalfEven (z : ℚ) : Int :=
  let f := ⌊z⌋
  let r := z - f
  if r < 1 / 2 then f else if 1 / 2 < r then f + 1 else if f % 2 = 0 then f else f + 1

/-- The double nearest to `x`, a tie going to the one whose last binary digit is even:
the rounding that every arithmetic operation of JavaScript applies to its exact result
(IEEE 754 binary64, round to nearest). Overflow and subnormal numbers are outside the
embedding: no quantity here is as large as 2^1024 or, unless zero, as small as 2^-1022. -/
def toDouble (x : ℚ) : ℚ :=
  if x = 0 then 0 else (roundHalfEven (x / ulp x) : ℚ) * ulp x

/-- The time value of the UTC instant `y-m-dTh:mi:s.000Z` (ECMAScript `Date.UTC` with a
one-based month), by the days-from-civil count of the proleptic Gregorian calendar. It
only serves to write down the instants of the scenarios. -/
def utcMillis (y m d h mi s : Int) : Int :=
  let y1 := if m ≤ 2 then y - 1 else y
  let era := y1 / 400
  let yoe := y1 - era * 400
  let mp := (m + 9) % 12
  let doy := (153 * mp + 2) / 5 + d - 1
  let doe := yoe * 365 + yoe / 4 - yoe / 100 + doy
  let days := era * 146097 + doe - 719468
  ((days * 24 + h) * 60 + mi) * 60000 + s * 1000

/-! ## `services/speedToLead.js` -/

/-- `calculateSpeedToLead(createdAt, contactedAt)`; `none` is the `null` it returns. -/
def calculateSpeedToLead (parse : String → Option Int) (createdAt contactedAt : DateArg) :
    Option Int :=
  let created := toDate parse createdAt
  let contacted := toDate parse contactedAt
  match created.time, contacted.time with
  | some c, some k =>
    -- `contacted < created` compares the two time values
    if k < c then none
    else
      let diffMs : ℚ := toDouble ((k : ℚ) - (c : ℚ))
      let diffMinutes : Int := Math.round (toDouble (diffMs / (1000 * 60)))
      some diffMinutes
  -- `isNaN(created.getTime()) || isNaN(contacted.getTime())`
  | _, _ => none

/-! ## Webhook payloads and the stored tables -/

/-- The body of a webhook request, as the two handlers read it: one field for each
path they access (`lead_id` is `payload.lead?.id`, `appointmentSetter_email` is
`payload.appointmentSetter?.email`, and so on); a path that is missing holds
`undefined`. -/
structure Payload where
  lead_id : JsVal := .undefined
  leadId : JsVal := .undefined
  id : JsVal := .undefined
  lead_createdAt : JsVal := .undefined
  createdAt : JsVal := .undefined
  lead_contactedAt : JsVal := .undefined
  contactedAt : JsVal := .undefined
  timestamp : JsVal := .undefined
  appointmentSetter_email : JsVal := .undefined
  appointmentSetter_name : JsVal := .undefined
  setter_email : JsVal := .undefined
  setter_name : JsVal := .undefined
  email : JsVal := .undefined
  name : JsVal := .undefined
deriving DecidableEq, Repr

/-- A row of `appointment_setters`. -/
structure SetterRow where
  id : Nat
  email : JsVal
  name : JsVal
deriving DecidableEq, Repr

/-- The `metadata` column of a lead: the payload spread into an object, with the
`_server` entry the handler adds. -/
structure Metadata where
  payload : Payload
  webhookReceivedAt : JsDate
  timestampSource : String
  payloadTimestamp : JsVal
deriving DecidableEq, Repr

/-- A row of `leads`. A column that is NULL is `none`; a date column that is not NULL
is read back as a `Date`. -/
structure LeadRow where
  id : Nat
  ghl_lead_id : JsVal
  appointment_setter_id : Option Nat
  created_at : JsDate
  first_contacted_at : Option JsDate := none
  speed_to_lead_minutes : Option Int := none
  status : String
  metadata : Option Metadata := none
deriving DecidableEq, Repr

/-- A row of `webhook_logs`. -/
structure LogRow where
  id : Nat
  endpoint : String
  payload : Payload
  processed : Bool := false
  error : Option String := none
deriving DecidableEq, Repr

/-- Modelled from the spec: the schema (`migrations/001_initial_schema.sql`) and the
storage engine behind `db.execute` are not among the sources. The store is the three
tables as lists of rows in insertion order; every statement succeeds, a column keeps the
value bound to it, and `WHERE col = ?` compares the stored value with the bound one
exactly. -/
structure Db where
  appointment_setters : List SetterRow := []
  leads : List LeadRow := []
  webhook_logs : List LogRow := []
deriving DecidableEq, Repr

/-- The `insertId` of an `INSERT` into a table whose rows have the given ids
(auto-increment: one more than every id in use). -/
def insertId (ids : List Nat) : Nat := ids.foldr max 0 + 1

/-! ## `models/WebhookLog.js` -/

/-- `WebhookLog.create(endpoint, payload)`: inserts the row and returns it. -/
def WebhookLog.create (endpoint : String) (payload : Payload) (db : Db) : LogRow × Db :=
  let row : LogRow := { id := insertId (db.webhook_logs.map (·.id)), endpoint := endpoint,
                        payload := payload }
  (row, { db with webhook_logs := db.webhook_logs ++ [row] })

/-- `WebhookLog.markProcessed(id)`. -/
def WebhookLog.markProcessed (id : Nat) (db : Db) : Db :=
  { db with webhook_logs := db.webhook_logs.map fun r =>
      if r.id = id then { r with processed := true } else r }

/-- `WebhookLog.markFailed(id, error)`. -/
def WebhookLog.markFailed (id : Nat) (error : String) (db : Db) : Db :=
  { db with webhook_logs := db.webhook_logs.map fun r =>
      if r.id = id then { r with processed := true, error := some error } else r }

/-! ## `models/AppointmentSetter.js` -/

/-- `AppointmentSetter.findOrCreate(email, name)`. -/
def AppointmentSetter.findOrCreate (email name : JsVal) (db : Db) : SetterRow × Db :=
  -- SELECT * FROM appointment_setters WHERE email = ?
  match db.appointment_setters.filter (fun a => a.email = email) with
  | existing0 :: _ =>
    -- update name if provided and different
    if name.truthy ∧ existing0.name ≠ name then
      ({ existing0 with name := name },
       { db with appointment_setters := db.appointment_setters.map fun a =>
           if a.id = existing0.id then { a with name := name } else a })
    else (existing0, db)
  | [] =>
    -- INSERT ... VALUES (email, name || email), then SELECT it by its insertId
    let row : SetterRow := { id := insertId (db.appointment_setters.map (·.id)),
                             email := email, name := name.or email }
    (row, { db with appointment_setters := db.appointment_setters ++ [row] })

/-- `AppointmentSetter.findAll()`: `SELECT * ... ORDER BY name ASC`. -/
def AppointmentSetter.findAll (rt : Runtime) (db : Db) : List SetterRow :=
  db.appointment_setters.insertionSort fun a b => rt.nameLE a.name b.name

/-- `AppointmentSetter.findById(id)`. -/
def AppointmentSetter.findById (id : Nat) (db : Db) : Option SetterRow :=
  (db.appointment_setters.filter (fun a => a.id = id)).head?

/-! ## `models/Lead.js` -/

/-- The object passed to `Lead.create`, with the defaults of its destructuring. -/
structure LeadData where
  ghl_lead_id : JsVal
  appointment_setter_id : Option Nat
  created_at : JsDate
  status : String := "created"
  metadata : Option Metadata := none
deriving DecidableEq, Repr

/-- `Lead._parseLead(lead)`: the row with its metadata text parsed back; the metadata is
kept structured here, so the row is returned as it is. -/
def Lead.parseLead (lead : LeadRow) : LeadRow := lead

/-- `Lead.findById(id)`. -/
def Lead.findById (id : Nat) (db : Db) : Option LeadRow :=
  match db.leads.filter (fun l => l.id = id) with
  | [] => none
  | lead0 :: _ => some (Lead.parseLead lead0)

/-- `Lead.findByGhlLeadId(ghlLeadId)`. -/
def Lead.findByGhlLeadId (ghlLeadId : JsVal) (db : Db) : Option LeadRow :=
  match db.leads.filter (fun l => l.ghl_lead_id = ghlLeadId) with
  | [] => none
  | lead0 :: _ => some (Lead.parseLead lead0)

/-- `Lead.create(leadData)`: inserts the row and reads it back by its `insertId`. -/
def Lead.create (leadData : LeadData) (db : Db) : Option LeadRow × Db :=
  let newId := insertId (db.leads.map (·.id))
  let row : LeadRow :=
    { id := newId, ghl_lead_id := leadData.ghl_lead_id,
      appointment_setter_id := leadData.appointment_setter_id,
      created_at := leadData.created_at, status := leadData.status,
      metadata := leadData.metadata }
  let db1 := { db with leads := db.leads ++ [row] }
  (Lead.findById newId db1, db1)

/-- `Lead.updateContact(ghlLeadId, contactedAt, speedToLeadMinutes)`: the `UPDATE` of
every row with that identifier, then the row read back. -/
def Lead.updateContact (ghlLeadId : JsVal) (contactedAt : JsDate)
    (speedToLeadMinutes : Option Int) (db : Db) : Option LeadRow × Db :=
  let db1 := { db with leads := db.leads.map fun l =>
    if l.ghl_lead_id = ghlLeadId then
      { l with first_contacted_at := some contactedAt,
               speed_to_lead_minutes := speedToLeadMinutes, status := "contacted" }
    else l }
  (Lead.findByGhlLeadId ghlLeadId db1, db1)

/-- A row of the join that `Lead.findAll` selects: `l.*` with `setter_name` and
`setter_email`. -/
structure LeadWithSetter where
  lead : LeadRow
  setter_name : JsVal
  setter_email : JsVal
deriving DecidableEq, Repr

/-- The order of two stored dates, by time value (a date without one comes first). -/
def JsDate.le (a b : JsDate) : Bool :=
  match a.time, b.time with
  | none, _ => true
  | some _, none => false
  | some x, some y => decide (x ≤ y)

/-- `Lead.findAll()` called with the default `filters = {}`, so that no optional clause
is added: `leads l JOIN appointment_setters a ON l.appointment_setter_id = a.id`,
`ORDER BY l.created_at DESC`. -/
def Lead.findAll (db : Db) : List LeadWithSetter :=
  let joined := db.leads.flatMap fun l =>
    (db.appointment_setters.filter fun a => l.appointment_setter_id = some a.id).map fun a =>
      ({ lead := Lead.parseLead l, setter_name := a.name, setter_email := a.email } :
        LeadWithSetter)
  joined.insertionSort fun x y => JsDate.le y.lead.created_at x.lead.created_at

/-- The row of aggregates that `getStatsBySetter` and `getOverallStats` select. -/
structure Stats where
  total_leads : Nat
  contacted_leads : Nat
  avg_speed_minutes : Option ℚ
  min_speed_minutes : Option Int
  max_speed_minutes : Option Int
deriving DecidableEq, Repr

/-- SQL `AVG` over the values that are not NULL: NULL when there is none. -/
def sqlAvg (xs : List Int) : Option ℚ :=
  if xs = [] then none else some ((xs.sum : ℚ) / (xs.length : ℚ))

/-- The aggregates `COUNT(*)`, `COUNT(first_contacted_at)`, `AVG`, `MIN` and `MAX` of
`speed_to_lead_minutes` over the selected rows. -/
def Lead.aggregate (rows : List LeadRow) : Stats :=
  let speeds := rows.filterMap (·.speed_to_lead_minutes)
  { total_leads := rows.length
    contacted_leads := (rows.filter fun l => l.first_contacted_at.isSome).length
    avg_speed_minutes := sqlAvg speeds
    min_speed_minutes := speeds.min?
    max_speed_minutes := speeds.max? }

/-- `Lead.getStatsBySetter(setterId)`: `WHERE appointment_setter_id = ?`. -/
def Lead.getStatsBySetter (setterId : Nat) (db : Db) : Stats :=
  Lead.aggregate (db.leads.filter fun l => l.appointment_setter_id = some setterId)

/-- `Lead.getOverallStats()`: `WHERE speed_to_lead_minutes IS NOT NULL`. -/
def Lead.getOverallStats (db : Db) : Stats :=
  Lead.aggregate (db.leads.filter fun l => l.speed_to_lead_minutes.isSome)

/-- An element read from a JavaScript array at a whole-number index: `undefined`
(`none`) outside `0 .. length - 1`. -/
def arrayAt (a : List Int) (i : Int) : Option Int :=
  if 0 ≤ i then a[i.toNat]? else none

/-- `Lead._getPercentile(sortedArray, percentile)` with the arithmetic carried out
exactly; `Double.Lead.getPercentile` rounds every operation to the nearest double. An
operand that is `undefined` makes the sum NaN, and `Math.round(NaN)` is NaN. -/
def Lead.getPercentile (sortedArray : List Int) (percentile : ℚ) : JsNum :=
  let index : ℚ := (percentile / 100) * ((sortedArray.length : ℚ) - 1)
  let lower : Int := ⌊index⌋
  let upper : Int := ⌈index⌉
  let weight : ℚ := index - lower
  match arrayAt sortedArray lower, arrayAt sortedArray upper with
  | some lo, some hi => .num (Math.round ((lo : ℚ) * (1 - weight) + (hi : ℚ) * weight))
  | _, _ => .nan

/-- The rows of `SELECT speed_to_lead_minutes FROM leads WHERE speed_to_lead_minutes IS
NOT NULL ORDER BY speed_to_lead_minutes`, mapped to their value. -/
def Lead.selectSpeeds (db : Db) : List Int :=
  (db.leads.filterMap (·.speed_to_lead_minutes)).insertionSort (· ≤ ·)

/-- The object `Lead.getPercentiles` returns; `none` is `null`. -/
structure Percentiles where
  p50 : Option JsNum
  p75 : Option JsNum
  p90 : Option JsNum
  p95 : Option JsNum
deriving DecidableEq, Repr

/-- `Lead.getPercentiles()`. -/
def Lead.getPercentiles (db : Db) : Percentiles :=
  let speeds := Lead.selectSpeeds db
  if speeds.length = 0 then
    { p50 := none, p75 := none, p90 := none, p95 := none }
  else
    { p50 := some (Lead.getPercentile speeds 50)
      p75 := some (Lead.getPercentile speeds 75)
      p90 := some (Lead.getPercentile speeds 90)
      p95 := some (Lead.getPercentile speeds 95) }

/-- `Lead._getPercentile(sortedArray, percentile)` in double-precision arithmetic: the
quotient, the products, the differences and the sum are each rounded to the nearest
double. The length and the elements are whole numbers, `Math.floor`, `Math.ceil` and
`Math.round` are exact. -/
def Double.Lead.getPercentile (sortedArray : List Int) (percentile : ℚ) : JsNum :=
  let index : ℚ := toDouble (toDouble (percentile / 100) * ((sortedArray.length : ℚ) - 1))
  let lower : Int := ⌊index⌋
  let upper : Int := ⌈index⌉
  let weight : ℚ := toDouble (index - lower)
  match arrayAt sortedArray lower, arrayAt sortedArray upper with
  | some lo, some hi =>
      .num (Math.round
        (toDouble (toDouble ((lo : ℚ) * toDouble (1 - weight)) + toDouble ((hi : ℚ) * weight))))
  | _, _ => .nan

/-- `Lead.getPercentiles()` with `_getPercentile` in double-precision arithmetic. -/
def Double.Lead.getPercentiles (db : Db) : Percentiles :=
  let speeds := SpeedToLead.Lead.selectSpeeds db
  if speeds.length = 0 then
    { p50 := none, p75 := none, p90 := none, p95 := none }
  else
    { p50 := some (Double.Lead.getPercentile speeds 50)
      p75 := some (Double.Lead.getPercentile speeds 75)
      p90 := some (Double.Lead.getPercentile speeds 90)
      p95 := some (Double.Lead.getPercentile speeds 95) }

/-! ## `routes/reports.js` -/

/-- The `stats` object of a report. The driver hands `COUNT` results over as numbers and
the `AVG` result as decimal text, so the average is `null` exactly when the aggregate is
NULL, while `x || null` turns a minimum or maximum of 0 into `null`. -/
structure StatsBlock where
  total_leads : Nat
  contacted_leads : Nat
  avg_speed_minutes : Option Int
  min_speed_minutes : Option Int
  max_speed_minutes : Option Int
  contact_rate : Int
deriving DecidableEq, Repr

/-- The expression `x || null` on a number column. -/
def orNull (x : Option Int) : Option Int :=
  match x with
  | some v => if v = 0 then none else some v
  | none => none

/-- The body of `GET /api/reports/overall`. -/
structure OverallReport where
  stats : StatsBlock
  total_setters : Nat
deriving DecidableEq, Repr

/-- The handler of `GET /api/reports/overall`. -/
def Reports.overall (rt : Runtime) (db : Db) : OverallReport :=
  let stats := Lead.getOverallStats db
  let setters := AppointmentSetter.findAll rt db
  -- "Get total leads count (including non-contacted)"
  let allLeads := Lead.findAll db
  { stats :=
      { total_leads := allLeads.length
        contacted_leads := stats.contacted_leads
        avg_speed_minutes := stats.avg_speed_minutes.map Math.round
        min_speed_minutes := orNull stats.min_speed_minutes
        max_speed_minutes := orNull stats.max_speed_minutes
        contact_rate :=
          if allLeads.length > 0 then
            Math.round (toDouble
              (toDouble ((stats.contacted_leads : ℚ) / (allLeads.length : ℚ)) * 100))
          else 0 }
    total_setters := setters.length }

/-- The `stats` object that `GET /api/reports/setters`, `GET /api/reports/setters/:id` and
`GET /api/stats/by-setter` each build, by the same expression, from the row that
`Lead.getStatsBySetter` returned. -/
def setterStatsBlock (stats : Stats) : StatsBlock :=
  { total_leads := stats.total_leads
    contacted_leads := stats.contacted_leads
    avg_speed_minutes := stats.avg_speed_minutes.map Math.round
    min_speed_minutes := orNull stats.min_speed_minutes
    max_speed_minutes := orNull stats.max_speed_minutes
    contact_rate :=
      if stats.total_leads > 0 then
        Math.round (toDouble
          (toDouble ((stats.contacted_leads : ℚ) / (stats.total_leads : ℚ)) * 100))
      else 0 }

/-- An entry of `GET /api/reports/setters`: the object `{ ...setter, stats }`. -/
structure SetterWithStats where
  id : Nat
  email : JsVal
  name : JsVal
  stats : StatsBlock
deriving DecidableEq, Repr

/-- The body of `GET /api/reports/setters`. -/
structure SettersReport where
  setters : List SetterWithStats
  count : Nat
deriving DecidableEq, Repr

/-- The handler of `GET /api/reports/setters`. -/
def Reports.setters (rt : Runtime) (db : Db) : SettersReport :=
  let setters := AppointmentSetter.findAll rt db
  let settersWithStats := setters.map fun setter =>
    let stats := Lead.getStatsBySetter setter.id db
    ({ id := setter.id, email := setter.email, name := setter.name,
       stats := setterStatsBlock stats } : SetterWithStats)
  { setters := settersWithStats, count := settersWithStats.length }

/-! ## `routes/stats.js` -/

/-- An entry of `GET /api/stats/by-setter`. -/
structure SetterStatsEntry where
  setter_id : Nat
  setter_name : JsVal
  setter_email : JsVal
  stats : StatsBlock
deriving DecidableEq, Repr

/-- The body of `GET /api/stats/by-setter`. -/
structure BySetterReport where
  stats_by_setter : List SetterStatsEntry
  count : Nat
deriving DecidableEq, Repr

/-- The expression `x.stats.avg_speed_minutes || Infinity` of the sort's comparator, with
`none` for `Infinity`: a mean that is `null` or 0 is falsy. -/
def speedOrInfinity (e : SetterStatsEntry) : Option Int :=
  match e.stats.avg_speed_minutes with
  | some v => if v = 0 then none else some v
  | none => none

/-- Whether the comparator `(a, b) => aSpeed - bSpeed` does not put `b` before `a`: its
result is negative or zero, the NaN of `Infinity - Infinity` counting as zero. -/
def compareBySpeed (a b : SetterStatsEntry) : Bool :=
  match speedOrInfinity a, speedOrInfinity b with
  | some x, some y => decide (x - y ≤ 0)
  | some _, none => true
  | none, some _ => false
  | none, none => true

/-- The handler of `GET /api/stats/by-setter`. `Array.prototype.sort` is a stable sort by
the comparator. -/
def StatsRoutes.bySetter (rt : Runtime) (db : Db) : BySetterReport :=
  let setters := AppointmentSetter.findAll rt db
  let statsBySetter := setters.map fun setter =>
    let stats := Lead.getStatsBySetter setter.id db
    ({ setter_id := setter.id, setter_name := setter.name, setter_email := setter.email,
       stats := setterStatsBlock stats } : SetterStatsEntry)
  let sorted := statsBySetter.insertionSort fun a b => compareBySpeed a b
  { stats_by_setter := sorted, count := sorted.length }

/-! ## `routes/webhooks.js` -/

/-- The JSON body of a webhook response: `{ message, lead }`,
`{ message, lead, speedToLeadMinutes }` or `{ error: { message, details } }`. -/
inductive Body where
  | lead (message : String) (lead : Option LeadRow)
  | contact (message : String) (lead : Option LeadRow) (speedToLeadMinutes : Option Int)
  | error (message details : String)
deriving DecidableEq, Repr

/-- The status and body a handler answers with. -/
structure Response where
  status : Nat
  body : Body
deriving DecidableEq, Repr

/-- The text of a value inside a template literal. -/
def JsVal.toJsString : JsVal → String
  | .undefined => "undefined"
  | .null => "null"
  | .bool b => if b then "true" else "false"
  | .num n => toString n
  | .str s => s

/-- The expression `payload.lead?.id || payload.leadId || payload.id`. -/
def Payload.leadIdOf (payload : Payload) : JsVal :=
  (payload.lead_id.or payload.leadId).or payload.id

/-- The expression
`payload.appointmentSetter?.email || payload.setter?.email || payload.email`. -/
def Payload.setterEmailOf (payload : Payload) : JsVal :=
  (payload.appointmentSetter_email.or payload.setter_email).or payload.email

/-- The expression `payload.appointmentSetter?.name || payload.setter?.name ||
payload.name || setterEmail`. -/
def Payload.setterNameOf (payload : Payload) : JsVal :=
  ((payload.appointmentSetter_name.or payload.setter_name).or payload.name).or
    payload.setterEmailOf

/-- The expression `payload.lead?.createdAt || payload.createdAt || payload.timestamp`. -/
def Payload.createdAtOf (payload : Payload) : JsVal :=
  (payload.lead_createdAt.or payload.createdAt).or payload.timestamp

/-- The expression
`payload.lead?.contactedAt || payload.contactedAt || payload.timestamp`. -/
def Payload.contactedAtOf (payload : Payload) : JsVal :=
  (payload.lead_contactedAt.or payload.contactedAt).or payload.timestamp

/-- The `try` block of `POST /webhook/lead-created`, after the log row was written:
the response, or the message of the error thrown, with the store as left behind. -/
def Webhooks.leadCreatedTry (rt : Runtime) (serverReceivedAt : JsDate) (payload : Payload)
    (webhookLog : LogRow) (db : Db) : Except String Response × Db :=
  let leadId := payload.leadIdOf
  let payloadCreatedAt := payload.createdAtOf
  let createdAt :=
    if payloadCreatedAt.truthy then newDate rt.parse payloadCreatedAt else serverReceivedAt
  let setterEmail := payload.setterEmailOf
  let setterName := payload.setterNameOf
  if !leadId.truthy then
    (.error "Missing required field: lead ID", db)
  else
    let (setter, leadStatus, db1) : Option SetterRow × String × Db :=
      if !setterEmail.truthy then (none, "unassigned", db)
      else
        let found := AppointmentSetter.findOrCreate setterEmail setterName db
        (some found.1, "created", found.2)
    match Lead.findByGhlLeadId leadId db1 with
    | some existingLead =>
      (.ok ⟨200, .lead "Lead already exists" (some existingLead)⟩,
       WebhookLog.markProcessed webhookLog.id db1)
    | none =>
      let enhancedMetadata : Metadata :=
        { payload := payload
          webhookReceivedAt := serverReceivedAt
          timestampSource := if payloadCreatedAt.truthy then "payload" else "server"
          payloadTimestamp := payloadCreatedAt.or .null }
      let created := Lead.create
        { ghl_lead_id := leadId
          appointment_setter_id := setter.map (·.id)
          created_at := createdAt
          status := leadStatus
          metadata := some enhancedMetadata } db1
      (.ok ⟨201, .lead "Lead created successfully" created.1⟩,
       WebhookLog.markProcessed webhookLog.id created.2)

/-- The handler of `POST /webhook/lead-created`; `serverReceivedAt` is the time value of
the `new Date()` taken on entry. -/
def Webhooks.leadCreated (rt : Runtime) (serverReceivedAt : Int) (payload : Payload)
    (db : Db) : Response × Db :=
  let logged := WebhookLog.create "/webhook/lead-created" payload db
  match Webhooks.leadCreatedTry rt ⟨some serverReceivedAt⟩ payload logged.1 logged.2 with
  | (.ok res, db1) => (res, db1)
  | (.error message, db1) =>
    (⟨400, .error "Failed to process webhook" message⟩,
     WebhookLog.markFailed logged.1.id message db1)

/-- The `try` block of `POST /webhook/lead-contacted`, after the log row was written. -/
def Webhooks.leadContactedTry (rt : Runtime) (serverReceivedAt : JsDate) (payload : Payload)
    (webhookLog : LogRow) (db : Db) : Except String Response × Db :=
  let leadId := payload.leadIdOf
  let payloadContactedAt := payload.contactedAtOf
  let contactedAt :=
    if payloadContactedAt.truthy then newDate rt.parse payloadContactedAt else serverReceivedAt
  if !leadId.truthy then
    (.error "Missing required field: lead ID", db)
  else
    match Lead.findByGhlLeadId leadId db with
    | none => (.error ("Lead not found: " ++ leadId.toJsString), db)
    | some lead =>
      -- a date column that is not NULL is a Date object, which is truthy
      if lead.first_contacted_at.isSome then
        (.ok ⟨200, .lead "Lead already marked as contacted" (some lead)⟩,
         WebhookLog.markProcessed webhookLog.id db)
      else
        let speedToLeadMinutes :=
          calculateSpeedToLead rt.parse (.date lead.created_at) (.date contactedAt)
        -- the log line calls `contactedAt.toISOString()`, which throws a RangeError on
        -- an Invalid Date
        if contactedAt.time.isNone then
          (.error "Invalid time value", db)
        else
          let updated := Lead.updateContact leadId contactedAt speedToLeadMinutes db
          (.ok ⟨200, .contact "Lead contact recorded successfully" updated.1
                  speedToLeadMinutes⟩,
           WebhookLog.markProcessed webhookLog.id updated.2)

/-- The handler of `POST /webhook/lead-contacted`. -/
def Webhooks.leadContacted (rt : Runtime) (serverReceivedAt : Int) (payload : Payload)
    (db : Db) : Response × Db :=
  let logged := WebhookLog.create "/webhook/lead-contacted" payload db
  match Webhooks.leadContactedTry rt ⟨some serverReceivedAt⟩ payload logged.1 logged.2 with
  | (.ok res, db1) => (res, db1)
  | (.error message, db1) =>
    (⟨400, .error "Failed to process webhook" message⟩,
     WebhookLog.markFailed logged.1.id message db1)

/-- A webhook request: the endpoint, the server time on entry and the payload. -/
inductive Event where
  | leadCreated (serverReceivedAt : Int) (payload : Payload)
  | leadContacted (serverReceivedAt : Int) (payload : Payload)
deriving DecidableEq, Repr

/-- The handler an event is routed to. -/
def Webhooks.handle (rt : Runtime) (e : Event) (db : Db) : Response × Db :=
  match e with
  | .leadCreated t payload => Webhooks.leadCreated rt t payload db
  | .leadContacted t payload => Webhooks.leadContacted rt t payload db

/-- The store after the events were processed one after the other. -/
def Webhooks.run (rt : Runtime) (events : List Event) (db : Db) : Db :=
  events.foldl (fun d e => (Webhooks.handle rt e d).2) db


/-! ## Requests against a store whose statements can fail

The handlers above run against a store in which every statement succeeds. What follows
embeds the same handlers statement by statement, so that a call of `db.execute` can be
rejected: the methods of the models rethrow the error, and it reaches the `catch` block of
the handler, or `errorHandler` through `asyncHandler`. -/

/-- An error as the `catch` blocks and `errorHandler` read it: its `message`, and the
`code` that an error rejected by `db.execute` carries (`none` for an `Error` that the
handler throws itself). -/
structure JsError where
  message : String
  code : Option String := none
deriving DecidableEq, Repr

/-- Which statements fail: the error with which the call of `db.execute` numbered `n`
(counted from 0 within the request) is rejected, if it is. -/
abbrev FaultPlan := Nat → Option JsError

/-- The store during a request, and the number of statements issued so far. -/
structure Session where
  db : Db
  issued : Nat := 0
deriving DecidableEq, Repr

deriving instance DecidableEq for Except

/-- A computation of a request: from the session to its result, or the error thrown, and
the session as it is left. -/
def Storage (α : Type) : Type := Session → Except JsError α × Session

/-- A computation that returns a value. -/
def Storage.pure {α : Type} (a : α) : Storage α := fun s => (.ok a, s)

/-- Sequencing with `await`: an error thrown by the first computation ends the sequence. -/
def Storage.bind {α β : Type} (m : Storage α) (f : α → Storage β) : Storage β := fun s =>
  match m s with
  | (.ok a, s1) => f a s1
  | (.error e, s1) => (.error e, s1)

instance : Monad Storage where
  pure := Storage.pure
  bind := Storage.bind

/-- The statement `throw error`. -/
def Storage.throw {α : Type} (e : JsError) : Storage α := fun s => (.error e, s)

/-- The call `await db.execute(...)`: the statement is rejected when the fault plan says
so, leaving the store as it was, and otherwise acts on the store. -/
def Storage.execute {α : Type} (fault : FaultPlan) (statement : Db → α × Db) : Storage α :=
  fun s =>
    match fault s.issued with
    | some e => (.error e, { s with issued := s.issued + 1 })
    | none => (.ok (statement s.db).1, { db := (statement s.db).2, issued := s.issued + 1 })

/-- `WebhookLog.create(endpoint, payload)`: the `INSERT`, then the `SELECT` that reads the
row back. -/
def Faulty.WebhookLog.create (fault : FaultPlan) (endpoint : String) (payload : Payload) :
    Storage LogRow := do
  let row ← Storage.execute fault fun db => SpeedToLead.WebhookLog.create endpoint payload db
  let log0 ← Storage.execute fault fun db => (row, db)
  return log0

/-- `WebhookLog.markProcessed(id)`: one `UPDATE`. -/
def Faulty.WebhookLog.markProcessed (fault : FaultPlan) (id : Nat) : Storage Unit :=
  Storage.execute fault fun db => ((), SpeedToLead.WebhookLog.markProcessed id db)

/-- `WebhookLog.markFailed(id, error)`: one `UPDATE`. -/
def Faulty.WebhookLog.markFailed (fault : FaultPlan) (id : Nat) (error : String) :
    Storage Unit :=
  Storage.execute fault fun db => ((), SpeedToLead.WebhookLog.markFailed id error db)

/-- `AppointmentSetter.findOrCreate(email, name)`: the `SELECT` by email, then the
`UPDATE` of the name, or the `INSERT` and the `SELECT` that reads the row back. -/
def Faulty.AppointmentSetter.findOrCreate (fault : FaultPlan) (email name : JsVal) :
    Storage SetterRow := do
  let existing ← Storage.execute fault fun db =>
    (db.appointment_setters.filter (fun a => a.email = email), db)
  match existing with
  | existing0 :: _ =>
    if name.truthy ∧ existing0.name ≠ name then do
      Storage.execute fault fun db =>
        ((), { db with appointment_setters := db.appointment_setters.map fun a =>
                 if a.id = existing0.id then { a with name := name } else a })
      return { existing0 with name := name }
    else return existing0
  | [] =>
    let row ← Storage.execute fault fun db =>
      let row : SetterRow := { id := insertId (db.appointment_setters.map (·.id)),
                               email := email, name := name.or email }
      (row, { db with appointment_setters := db.appointment_setters ++ [row] })
    let newSetter0 ← Storage.execute fault fun db => (row, db)
    return newSetter0

/-- `Lead.findByGhlLeadId(ghlLeadId)`: one `SELECT`. -/
def Faulty.Lead.findByGhlLeadId (fault : FaultPlan) (ghlLeadId : JsVal) :
    Storage (Option LeadRow) :=
  Storage.execute fault fun db => (SpeedToLead.Lead.findByGhlLeadId ghlLeadId db, db)

/-- `Lead.create(leadData)`: the `INSERT`, then `Lead.findById`, one `SELECT`. -/
def Faulty.Lead.create (fault : FaultPlan) (leadData : LeadData) :
    Storage (Option LeadRow) := do
  let newId ← Storage.execute fault fun db =>
    (insertId (db.leads.map (·.id)), (SpeedToLead.Lead.create leadData db).2)
  Storage.execute fault fun db => (SpeedToLead.Lead.findById newId db, db)

/-- `Lead.updateContact(ghlLeadId, contactedAt, speedToLeadMinutes)`: the `UPDATE`, then
`Lead.findByGhlLeadId`, one `SELECT`. -/
def Faulty.Lead.updateContact (fault : FaultPlan) (ghlLeadId : JsVal) (contactedAt : JsDate)
    (speedToLeadMinutes : Option Int) : Storage (Option LeadRow) := do
  Storage.execute fault fun db =>
    ((), (SpeedToLead.Lead.updateContact ghlLeadId contactedAt speedToLeadMinutes db).2)
  Faulty.Lead.findByGhlLeadId fault ghlLeadId

/-- The `try` block of `POST /webhook/lead-created` after `WebhookLog.create`, statement
by statement. -/
def Faulty.leadCreatedTry (rt : Runtime) (fault : FaultPlan) (serverReceivedAt : JsDate)
    (payload : Payload) (webhookLog : LogRow) : Storage Response := do
  let leadId := payload.leadIdOf
  let payloadCreatedAt := payload.createdAtOf
  let createdAt :=
    if payloadCreatedAt.truthy then newDate rt.parse payloadCreatedAt else serverReceivedAt
  let setterEmail := payload.setterEmailOf
  let setterName := payload.setterNameOf
  if !leadId.truthy then
    Storage.throw { message := "Missing required field: lead ID" }
  else
    let resolved : Option SetterRow × String ←
      if !setterEmail.truthy then pure (none, "unassigned")
      else do
        let found ← Faulty.AppointmentSetter.findOrCreate fault setterEmail setterName
        pure (some found, "created")
    let setter := resolved.1
    let leadStatus := resolved.2
    let existingLead ← Faulty.Lead.findByGhlLeadId fault leadId
    match existingLead with
    | some existingLead =>
      Faulty.WebhookLog.markProcessed fault webhookLog.id
      return ⟨200, .lead "Lead already exists" (some existingLead)⟩
    | none =>
      let enhancedMetadata : Metadata :=
        { payload := payload
          webhookReceivedAt := serverReceivedAt
          timestampSource := if payloadCreatedAt.truthy then "payload" else "server"
          payloadTimestamp := payloadCreatedAt.or .null }
      let lead ← Faulty.Lead.create fault
        { ghl_lead_id := leadId
          appointment_setter_id := setter.map (·.id)
          created_at := createdAt
          status := leadStatus
          metadata := some enhancedMetadata }
      Faulty.WebhookLog.markProcessed fault webhookLog.id
      return ⟨201, .lead "Lead created successfully" lead⟩

/-- The `try` block of `POST /webhook/lead-contacted` after `WebhookLog.create`, statement
by statement. -/
def Faulty.leadContactedTry (rt : Runtime) (fault : FaultPlan) (serverReceivedAt : JsDate)
    (payload : Payload) (webhookLog : LogRow) : Storage Response := do
  let leadId := payload.leadIdOf
  let payloadContactedAt := payload.contactedAtOf
  let contactedAt :=
    if payloadContactedAt.truthy then newDate rt.parse payloadContactedAt else serverReceivedAt
  if !leadId.truthy then
    Storage.throw { message := "Missing required field: lead ID" }
  else
    let lead ← Faulty.Lead.findByGhlLeadId fault leadId
    match lead with
    | none => Storage.throw { message := "Lead not found: " ++ leadId.toJsString }
    | some lead =>
      if lead.first_contacted_at.isSome then do
        Faulty.WebhookLog.markProcessed fault webhookLog.id
        return ⟨200, .lead "Lead already marked as contacted" (some lead)⟩
      else
        let speedToLeadMinutes :=
          calculateSpeedToLead rt.parse (.date lead.created_at) (.date contactedAt)
        if contactedAt.time.isNone then
          Storage.throw { message := "Invalid time value" }
        else do
          let updatedLead ←
            Faulty.Lead.updateContact fault leadId contactedAt speedToLeadMinutes
          Faulty.WebhookLog.markProcessed fault webhookLog.id
          return ⟨200, .contact "Lead contact recorded successfully" updatedLead
                    speedToLeadMinutes⟩

/-- What `errorHandler` answers: the status, and the `message` and `details` of the body
`{ error: { message, status, details } }`. -/
structure ErrorHandlerResponse where
  status : Nat
  message : String
  details : Option String
deriving DecidableEq, Repr

/-- `errorHandler(err, req, res, next)` of `middleware/errorHandler.js`, for an error
that has no `status`, `statusCode` or `details` and is neither a `ValidationError` nor a
`SyntaxError`, as the errors of the storage are. -/
def errorHandler (err : JsError) : ErrorHandlerResponse :=
  let status := 500
  let message := if err.message = "" then "Internal Server Error" else err.message
  let details : Option String := none
  if err.code = some "ER_DUP_ENTRY" then
    ⟨409, "Duplicate entry", some "A record with this information already exists"⟩
  else if err.code = some "ER_NO_REFERENCED_ROW_2" then
    ⟨400, "Invalid reference", some "Referenced record does not exist"⟩
  else if err.code = some "ECONNREFUSED" then
    ⟨503, "Database connection failed", some "Unable to connect to database"⟩
  else ⟨status, message, details⟩

/-- How a request ends: the handler answers, or an error leaves the handler and
`asyncHandler` passes it to `errorHandler`, which answers. -/
inductive Outcome where
  | answered (res : Response)
  | passedOn (res : ErrorHandlerResponse)
deriving DecidableEq, Repr

/-- The `catch` block of both webhook handlers, with the log row of the request if
`WebhookLog.create` returned one: `WebhookLog.markFailed`, then the answer 400. An error
of `markFailed` leaves the handler. -/
def Faulty.catchBlock (fault : FaultPlan) (webhookLog : Option LogRow) (error : JsError)
    (s : Session) : Outcome × Session :=
  match webhookLog with
  | some log =>
    match Faulty.WebhookLog.markFailed fault log.id error.message s with
    | (.ok _, s1) => (.answered ⟨400, .error "Failed to process webhook" error.message⟩, s1)
    | (.error e, s1) => (.passedOn (errorHandler e), s1)
  | none => (.answered ⟨400, .error "Failed to process webhook" error.message⟩, s)

/-- The handler of `POST /webhook/lead-created` on a store whose statements can fail. -/
def Faulty.leadCreated (rt : Runtime) (fault : FaultPlan) (serverReceivedAt : Int)
    (payload : Payload) (s : Session) : Outcome × Session :=
  match Faulty.WebhookLog.create fault "/webhook/lead-created" payload s with
  | (.error error, s1) => Faulty.catchBlock fault none error s1
  | (.ok webhookLog, s1) =>
    match Faulty.leadCreatedTry rt fault ⟨some serverReceivedAt⟩ payload webhookLog s1 with
    | (.ok res, s2) => (.answered res, s2)
    | (.error error, s2) => Faulty.catchBlock fault (some webhookLog) error s2

/-- The handler of `POST /webhook/lead-contacted` on a store whose statements can fail. -/
def Faulty.leadContacted (rt : Runtime) (fault : FaultPlan) (serverReceivedAt : Int)
    (payload : Payload) (s : Session) : Outcome × Session :=
  match Faulty.WebhookLog.create fault "/webhook/lead-contacted" payload s with
  | (.error error, s1) => Faulty.catchBlock fault none error s1
  | (.ok webhookLog, s1) =>
    match Faulty.leadContactedTry rt fault ⟨some serverReceivedAt⟩ payload webhookLog s1 with
    | (.ok res, s2) => (.answered res, s2)
    | (.error error, s2) => Faulty.catchBlock fault (some webhookLog) error s2

/-- The endpoint an event is posted to. -/
def Event.endpoint : Event → String
  | .leadCreated _ _ => "/webhook/lead-created"
  | .leadContacted _ _ => "/webhook/lead-contacted"

/-- The payload of an event. -/
def Event.payload : Event → Payload
  | .leadCreated _ payload => payload
  | .leadContacted _ payload => payload

/-- The `try` block, after `WebhookLog.create`, of the handler an event is routed to. -/
def Faulty.tryBlock (rt : Runtime) (fault : FaultPlan) (e : Event) (webhookLog : LogRow) :
    Storage Response :=
  match e with
  | .leadCreated t payload => Faulty.leadCreatedTry rt fault ⟨some t⟩ payload webhookLog
  | .leadContacted t payload => Faulty.leadContactedTry rt fault ⟨some t⟩ payload webhookLog

/-- The handler an event is routed to, on a store whose statements can fail. -/
def Faulty.handle (rt : Runtime) (fault : FaultPlan) (e : Event) (s : Session) :
    Outcome × Session :=
  match e with
  | .leadCreated t payload => Faulty.leadCreated rt fault t payload s
  | .leadContacted t payload => Faulty.leadContacted rt fault t payload s

/-- A computation keeps a property of the store: the store it leaves has the property
whenever the store it starts from has. -/
def Storage.Keeps {α : Type} (I : Db → Prop) (m : Storage α) : Prop :=
  ∀ s, I s.db → I (m s).2.db

/-- A computation keeps a property of the store when it throws. -/
def Storage.KeepsOnError {α : Type} (I : Db → Prop) (m : Storage α) : Prop :=
  ∀ s, I s.db → ∀ e s1, m s = (.error e, s1) → I s1.db

/-- A computation lets a rejected statement surface: it never lowers the count of
statements issued, and when a statement it issued was rejected, that statement is the last
one it issued and the computation threw the error of that statement. -/
def Storage.Surfaces {α : Type} (fault : FaultPlan) (m : Storage α) : Prop :=
  ∀ s, s.issued ≤ (m s).2.issued
    ∧ ∀ n err, s.issued ≤ n → n < (m s).2.issued → fault n = some err →
        (m s).1 = .error err ∧ n + 1 = (m s).2.issued

/-- The percentile as the specification words it, for a list `value` of length `n`:
`index = (P/100) × (n−1)`, `lower = floor(index)`, `upper = ceil(index)`,
`weight = index − lower`, result `round(value[lower] × (1−weight) + value[upper] × weight)`.
A position outside the list reads as 0. -/
def percentileSpec (value : List Int) (P : ℚ) : Int :=
  let n := value.length
  let index : ℚ := (P / 100) * ((n : ℚ) - 1)
  let lower : Int := ⌊index⌋
  let upper : Int := ⌈index⌉
  let weight : ℚ := index - lower
  Math.round ((value.getD lower.toNat 0 : ℚ) * (1 - weight)
    + (value.getD upper.toNat 0 : ℚ) * weight)

/-- The percentile as the specification words it, with every operation of the formula
rounded to the nearest double: `index = (P/100) × (n−1)`, `lower = floor(index)`,
`upper = ceil(index)`, `weight = index − lower`, result
`round(value[lower] × (1−weight) + value[upper] × weight)`. A position outside the list
reads as 0. -/
def Double.percentileSpec (value : List Int) (P : ℚ) : Int :=
  let n := value.length
  let index : ℚ := toDouble (toDouble (P / 100) * ((n : ℚ) - 1))
  let lower : Int := ⌊index⌋
  let upper : Int := ⌈index⌉
  let weight : ℚ := toDouble (index - lower)
  Math.round (toDouble (toDouble ((value.getD lower.toNat 0 : ℚ) * toDouble (1 - weight))
    + toDouble ((value.getD upper.toNat 0 : ℚ) * weight)))

/-- The first value that is present, in the order tried: as the specification words the
choice among alternative fields. A value counts as present when it is truthy. -/
def firstPresent (values : List JsVal) : Option JsVal :=
  values.find? (·.truthy)

/-- The constant `createdAt` of the lead-created handler,
`payloadCreatedAt ? new Date(payloadCreatedAt) : serverReceivedAt`, where
`payloadCreatedAt` is `payload.lead?.createdAt || payload.createdAt || payload.timestamp`. -/
def Webhooks.createdAt (rt : Runtime) (serverReceivedAt : JsDate) (payload : Payload) :
    JsDate :=
  let payloadCreatedAt := payload.createdAtOf
  if payloadCreatedAt.truthy then newDate rt.parse payloadCreatedAt else serverReceivedAt

/-- The constant `contactedAt` of the lead-contacted handler,
`payloadContactedAt ? new Date(payloadContactedAt) : serverReceivedAt`, where
`payloadContactedAt` is
`payload.lead?.contactedAt || payload.contactedAt || payload.timestamp`. -/
def Webhooks.contactedAt (rt : Runtime) (serverReceivedAt : JsDate) (payload : Payload) :
    JsDate :=
  let payloadContactedAt := payload.contactedAtOf
  if payloadContactedAt.truthy then newDate rt.parse payloadContactedAt else serverReceivedAt

/-- The setter a lead-created request resolves before it looks for the lead: none when
the payload yields no setter email, else the row `AppointmentSetter.findOrCreate`
returns. -/
def Webhooks.resolvedSetter (payload : Payload) (db : Db) : Option SetterRow :=
  if payload.setterEmailOf.truthy then
    some (AppointmentSetter.findOrCreate payload.setterEmailOf payload.setterNameOf db).1
  else none

/-- The row a lead-created request inserts when its identifier is new: what the handler
hands to `Lead.create`, under the `insertId` of the insert. -/
def Webhooks.createdRow (rt : Runtime) (serverReceivedAt : Int) (payload : Payload)
    (db : Db) : LeadRow :=
  { id := insertId (db.leads.map (·.id))
    ghl_lead_id := payload.leadIdOf
    appointment_setter_id := (Webhooks.resolvedSetter payload db).map (·.id)
    created_at :=
      if payload.createdAtOf.truthy then newDate rt.parse payload.createdAtOf
      else ⟨some serverReceivedAt⟩
    status := if payload.setterEmailOf.truthy then "created" else "unassigned"
    metadata := some
      { payload := payload
        webhookReceivedAt := ⟨some serverReceivedAt⟩
        timestampSource := if payload.createdAtOf.truthy then "payload" else "server"
        payloadTimestamp := payload.createdAtOf.or .null } }

/-- The elapsed minutes of a lead agree with its timestamps: the value is not null exactly
when the creation timestamp and the first-contact timestamp are both dates, the contact
not earlier than the creation; and a first-contact timestamp that is set is a valid
date. -/
def LeadRow.speedConsistent (l : LeadRow) : Prop :=
  (l.speed_to_lead_minutes ≠ none
      ↔ ∃ c k : Int, l.created_at = ⟨some c⟩ ∧ l.first_contacted_at = some ⟨some k⟩ ∧ c ≤ k)
    ∧ ∀ d : JsDate, l.first_contacted_at = some d → d.time ≠ none

/-- No two stored leads share an external identifier. The handlers keep it so: a lead is
inserted only after `Lead.findByGhlLeadId` found none with its identifier. -/
def Db.leadIdsUnique (db : Db) : Prop :=
  (db.leads.map (·.ghl_lead_id)).Nodup

instance (db : Db) : Decidable db.leadIdsUnique := by
  unfold Db.leadIdsUnique; infer_instance

/-- Every stored lead has a truthy external identifier. The handlers keep it so: a request
without one is rejected before any lead is written. -/
def Db.leadIdsTruthy (db : Db) : Prop :=
  ∀ l ∈ db.leads, l.ghl_lead_id.truthy = true

instance (db : Db) : Decidable db.leadIdsTruthy := by
  unfold Db.leadIdsTruthy; infer_instance

/-! ## `services/speedToLead.js`: the display helpers -/

/-- The argument of `formatSpeedToLead`, `categorizeSpeedToLead` and the dashboard's
`formatMinutes`: documented as `{number}` and compared with `null` and `undefined`. A
number is a whole number of minutes or NaN. -/
inductive MinutesArg where
  | null
  | undefined
  | number (n : JsNum)
deriving DecidableEq, Repr

/-- The remainder `a % b` of JavaScript on whole numbers: it truncates, so it has the sign
of `a`. -/
def jsRem (a b : Int) : Int := Int.tmod a b

/-- A whole number inside a template literal: its decimal digits, after `-` when it is
negative. JavaScript renders a whole number so when it is below 2^53 in absolute
value. -/
def numberToString (n : Int) : String := toString n

/-- `formatSpeedToLead(minutes)`. The quotient `minutes / 60` is a double; `%` is exact.
Every comparison with NaN is false, and `Math.floor` and `%` of NaN are NaN, which a
template literal renders as `NaN`. -/
def formatSpeedToLead : MinutesArg → String
  | .null => "N/A"
  | .undefined => "N/A"
  | .number .nan => "NaN" ++ "h " ++ "NaN" ++ "m"
  | .number (.num minutes) =>
    if minutes < 60 then numberToString minutes ++ "m"
    else
      let hours : Int := ⌊toDouble ((minutes : ℚ) / 60)⌋
      let remainingMinutes := jsRem minutes 60
      if remainingMinutes = 0 then numberToString hours ++ "h"
      else numberToString hours ++ "h " ++ numberToString remainingMinutes ++ "m"

/-- `categorizeSpeedToLead(minutes)`. Every comparison with NaN is false, so NaN reaches
the last branch. -/
def categorizeSpeedToLead : MinutesArg → String
  | .null => "unknown"
  | .undefined => "unknown"
  | .number .nan => "poor"
  | .number (.num minutes) =>
    if minutes ≤ 5 then "excellent"
    else if minutes ≤ 15 then "good"
    else if minutes ≤ 60 then "fair"
    else "poor"

/-! ## `dashboard/src/components` -/

/-- `formatMinutes(minutes)` of `Dashboard.js`. -/
def Dashboard.formatMinutes : MinutesArg → String
  | .null => "N/A"
  | .undefined => "N/A"
  | .number .nan => "NaN" ++ "h"
  | .number (.num minutes) =>
    if minutes < 60 then numberToString minutes ++ "m"
    else
      let hours : Int := ⌊toDouble ((minutes : ℚ) / 60)⌋
      let mins := jsRem minutes 60
      if mins > 0 then numberToString hours ++ "h " ++ numberToString mins ++ "m"
      else numberToString hours ++ "h"

/-- `formatMinutes(minutes)` of `OverallStats.js`. -/
def OverallStats.formatMinutes : MinutesArg → String
  | .null => "N/A"
  | .undefined => "N/A"
  | .number .nan => "NaN" ++ "h"
  | .number (.num minutes) =>
    if minutes < 60 then numberToString minutes ++ "m"
    else
      let hours : Int := ⌊toDouble ((minutes : ℚ) / 60)⌋
      let mins := jsRem minutes 60
      if mins > 0 then numberToString hours ++ "h " ++ numberToString mins ++ "m"
      else numberToString hours ++ "h"

/-- `formatMinutes(minutes)` of `SetterReport.js`. -/
def SetterReport.formatMinutes : MinutesArg → String
  | .null => "N/A"
  | .undefined => "N/A"
  | .number .nan => "NaN" ++ "h"
  | .number (.num minutes) =>
    if minutes < 60 then numberToString minutes ++ "m"
    else
      let hours : Int := ⌊toDouble ((minutes : ℚ) / 60)⌋
      let mins := jsRem minutes 60
      if mins > 0 then numberToString hours ++ "h " ++ numberToString mins ++ "m"
      else numberToString hours ++ "h"

/-! ## `models/Lead.js`: the time of day -/

/-- The SQL function `HOUR` on a stored `created_at`: the hour, 0 to 23, of the local time
under which the driver stored the instant (`zone` is the offset of that local time from
UTC at an instant, in milliseconds); NULL for a value that is not a date. -/
def sqlHour (zone : Int → Int) (d : JsDate) : Option Int :=
  d.time.map fun t => ((t + zone t) / 3600000) % 24

/-- The SQL function `MINUTE` on a stored `created_at`: the minute, 0 to 59, of the same
local time. -/
def sqlMinute (zone : Int → Int) (d : JsDate) : Option Int :=
  d.time.map fun t => ((t + zone t) / 60000) % 60

/-- `Math.round(x)` on an aggregate of the result row: a NULL arrives as `null`, which
converts to the number 0. -/
def roundAggregate (x : Option ℚ) : Int :=
  match x with
  | some q => Math.round q
  | none => 0

/-- `s.padStart(targetLength, pad)` with a pad of one character. -/
def padStart (s : String) (targetLength : Nat) (pad : Char) : String :=
  String.mk (List.replicate (targetLength - s.length) pad) ++ s

/-- The object `Lead.getAverageTimeOfDay` returns; `none` is `null`. -/
structure AverageTimeOfDay where
  average_time : Option String
  average_hour : Option Int
  average_minute : Option Int
  formatted_time : String
  total_leads : Nat
deriving DecidableEq, Repr

/-- `Lead.getAverageTimeOfDay()`: the aggregates `AVG(HOUR(created_at))`,
`AVG(MINUTE(created_at))` and `COUNT(*)` over all leads, then the formatting. -/
def Lead.getAverageTimeOfDay (zone : Int → Int) (db : Db) : AverageTimeOfDay :=
  let avg_hour := sqlAvg (db.leads.filterMap fun l => sqlHour zone l.created_at)
  let avg_minute := sqlAvg (db.leads.filterMap fun l => sqlMinute zone l.created_at)
  let total_leads := db.leads.length
  if total_leads = 0 then
    { average_time := none, average_hour := none, average_minute := none,
      formatted_time := "N/A", total_leads := 0 }
  else
    let avgHour := roundAggregate avg_hour
    let avgMinute := roundAggregate avg_minute
    -- `avgHour % 12 || 12`
    let hour12 := if jsRem avgHour 12 = 0 then 12 else jsRem avgHour 12
    let ampm := if avgHour ≥ 12 then "PM" else "AM"
    let formattedTime :=
      numberToString hour12 ++ ":" ++ padStart (numberToString avgMinute) 2 '0' ++ " " ++ ampm
    { average_time :=
        some (numberToString avgHour ++ ":" ++ padStart (numberToString avgMinute) 2 '0')
      average_hour := some avgHour
      average_minute := some avgMinute
      formatted_time := formattedTime
      total_leads := total_leads }

/-- The 12-hour clock rendering of a time of day, as the specification words it: hour 0
is shown as 12 with AM, the hours 1 to 11 as themselves with AM, hour 12 as 12 with PM and
the hours 13 to 23 as 1 to 11 with PM; the minute is shown with two digits. -/
def clock12 (hour minute : Nat) : String :=
  let shown := if hour = 0 then 12 else if hour ≤ 12 then hour else hour - 12
  let half := if hour < 12 then "AM" else "PM"
  toString shown ++ ":" ++ (if minute < 10 then "0" else "") ++ toString minute ++ " " ++ half

/-- The number that a non-empty run of decimal digits writes. -/
def digitsValue (cs : List Char) : Option Nat :=
  if cs ≠ [] ∧ cs.all Char.isDigit then
    some (cs.foldl (fun n c => 10 * n + (c.toNat - 48)) 0)
  else none

/-- Reading a 12-hour clock text back into 24-hour time, as the specification words the
conversion: the text must be an hour from 1 to 12, a colon, a minute of exactly two digits
from 00 to 59, a blank and AM or PM; 12 AM is hour 0 and 12 PM is hour 12. -/
def clockTo24Hour (s : String) : Option (Nat × Nat) :=
  let cs := s.toList
  match cs.dropWhile (fun c => c != ':') with
  | ':' :: m1 :: m2 :: ' ' :: half =>
    match digitsValue (cs.takeWhile (fun c => c != ':')), digitsValue [m1, m2] with
    | some h, some m =>
      if 1 ≤ h ∧ h ≤ 12 ∧ m ≤ 59 then
        if half = ['A', 'M'] then some (h % 12, m)
        else if half = ['P', 'M'] then some (h % 12 + 12, m)
        else none
      else none
    | _, _ => none
  | _ => none

/-! ## Sample inputs -/

/-- A sample `Date.parse`: it knows the two instants of the scenario. -/
def sampleParse (s : String) : Option Int :=
  if s = "2024-01-15T10:00:00Z" then some (utcMillis 2024 1 15 10 0 0)
  else if s = "2024-01-15T10:07:30Z" then some (utcMillis 2024 1 15 10 7 30)
  else none

/-- A sample runtime: `sampleParse`, and names in the order of their text. -/
def sampleRuntime : Runtime :=
  { parse := sampleParse, nameLE := fun a b => decide (a.toJsString ≤ b.toJsString) }

/-- Five webhook requests: two leads arrive without a setter, a third with the setter
`a@x.com`; the first two are then contacted, one and two minutes after the epoch. -/
def contactRateEvents : List Event :=
  [ .leadCreated 1000 { id := .str "L1" },
    .leadCreated 2000 { id := .str "L2" },
    .leadCreated 3000 { id := .str "L3", email := .str "a@x.com" },
    .leadContacted 60000 { id := .str "L1" },
    .leadContacted 120000 { id := .str "L2" } ]

/-- A lead contacted forty minutes after its creation. -/
def sampleContactedLead : LeadRow :=
  { id := 1, ghl_lead_id := .str "a", appointment_setter_id := none,
    created_at := ⟨some 0⟩, first_contacted_at := some ⟨some 2400000⟩,
    speed_to_lead_minutes := some 40, status := "contacted" }

/-- A store whose leads took 12 and 2 minutes to contact. -/
def twoSpeedsDb : Db :=
  { leads :=
      [ { id := 1, ghl_lead_id := .str "a", appointment_setter_id := none,
          created_at := ⟨some 0⟩, first_contacted_at := some ⟨some 720000⟩,
          speed_to_lead_minutes := some 12, status := "contacted" },
        { id := 2, ghl_lead_id := .str "b", appointment_setter_id := none,
          created_at := ⟨some 0⟩, first_contacted_at := some ⟨some 120000⟩,
          speed_to_lead_minutes := some 2, status := "contacted" } ] }

/-- A store holding four leads with elapsed minutes 40, 10, 30 and 20, and one lead that
was never contacted. -/
def sampleSpeedsDb : Db :=
  { leads :=
      [ sampleContactedLead,
        { id := 2, ghl_lead_id := .str "b", appointment_setter_id := none,
          created_at := ⟨some 0⟩, first_contacted_at := some ⟨some 600000⟩,
          speed_to_lead_minutes := some 10, status := "contacted" },
        { id := 3, ghl_lead_id := .str "c", appointment_setter_id := none,
          created_at := ⟨some 0⟩, status := "unassigned" },
        { id := 4, ghl_lead_id := .str "d", appointment_setter_id := none,
          created_at := ⟨some 0⟩, first_contacted_at := some ⟨some 1800000⟩,
          speed_to_lead_minutes := some 30, status := "contacted" },
        { id := 5, ghl_lead_id := .str "e", appointment_setter_id := none,
          created_at := ⟨some 0⟩, first_contacted_at := some ⟨some 1200000⟩,
          speed_to_lead_minutes := some 20, status := "contacted" } ] }

/-- A store whose only lead was never contacted. -/
def uncontactedDb : Db :=
  { leads :=
      [ { id := 1, ghl_lead_id := .str "a", appointment_setter_id := none,
          created_at := ⟨some 0⟩, status := "unassigned" } ] }

/-- Four webhook requests: the lead `L1` is created at the scenario's instant and contacted
seven and a half minutes later; the lead `L2` is created and then contacted with a
timestamp one minute before its creation. -/
def speedEvents : List Event :=
  [ .leadCreated 1000 { id := .str "L1", createdAt := .str "2024-01-15T10:00:00Z" },
    .leadContacted 2000 { id := .str "L1", contactedAt := .str "2024-01-15T10:07:30Z" },
    .leadCreated 120000 { id := .str "L2" },
    .leadContacted 130000 { id := .str "L2", timestamp := .num 60000 } ]

/-- The lead `L1` as stored after `speedEvents`: 8 elapsed minutes. -/
def speedLeadL1 : LeadRow :=
  { id := 1, ghl_lead_id := .str "L1", appointment_setter_id := none,
    created_at := ⟨some (utcMillis 2024 1 15 10 0 0)⟩,
    first_contacted_at := some ⟨some (utcMillis 2024 1 15 10 7 30)⟩,
    speed_to_lead_minutes := some 8, status := "contacted",
    metadata := some
      { payload := { id := .str "L1", createdAt := .str "2024-01-15T10:00:00Z" },
        webhookReceivedAt := ⟨some 1000⟩, timestampSource := "payload",
        payloadTimestamp := .str "2024-01-15T10:00:00Z" } }

/-- The lead `L2` as stored after `speedEvents`: contacted, without elapsed minutes. -/
def speedLeadL2 : LeadRow :=
  { id := 2, ghl_lead_id := .str "L2", appointment_setter_id := none,
    created_at := ⟨some 120000⟩, first_contacted_at := some ⟨some 60000⟩,
    speed_to_lead_minutes := none, status := "contacted",
    metadata := some
      { payload := { id := .str "L2" }, webhookReceivedAt := ⟨some 120000⟩,
        timestampSource := "server", payloadTimestamp := .null } }

/-- Nine webhook requests: the setters Al and Cy get one lead each and Bea three. Bea's
leads are contacted 20, 10 and 60 seconds after their creation (0, 0 and 1 elapsed
minutes, mean 1/3), Cy's after five minutes, Al's never. -/
def rankingEvents : List Event :=
  [ .leadCreated 0 { id := .str "L1", email := .str "al@x.com", name := .str "Al" },
    .leadCreated 0 { id := .str "L2", email := .str "bea@x.com", name := .str "Bea" },
    .leadCreated 0 { id := .str "L3", email := .str "cy@x.com", name := .str "Cy" },
    .leadCreated 0 { id := .str "L4", email := .str "bea@x.com", name := .str "Bea" },
    .leadCreated 0 { id := .str "L5", email := .str "bea@x.com", name := .str "Bea" },
    .leadContacted 20000 { id := .str "L2" },
    .leadContacted 10000 { id := .str "L4" },
    .leadContacted 60000 { id := .str "L5" },
    .leadContacted 300000 { id := .str "L3" } ]

/-- A fault plan: the statement numbered 3 of the request is rejected with a lock
timeout; every other statement succeeds. -/
def lockTimeoutPlan : FaultPlan := fun n =>
  if n = 3 then some { message := "Lock wait timeout exceeded", code := some "ER_LOCK_WAIT_TIMEOUT" }
  else none

/-- A fault plan: from the statement numbered 3 on, every statement of the request is
rejected because the connection is lost. -/
def connectionLostPlan : FaultPlan := fun n =>
  if 3 ≤ n then some { message := "Connection lost", code := some "PROTOCOL_CONNECTION_LOST" }
  else none

/-- A contact request for the lead `L1`, received at the server time 5000. -/
def contactL1 : Event := .leadContacted 5000 { id := .str "L1" }

/-- The log row that `WebhookLog.create` returns for `contactL1` on a store without log
rows. -/
def contactL1Log : LogRow :=
  { id := 1, endpoint := "/webhook/lead-contacted", payload := { id := .str "L1" } }

/-- The row `contactL1Log` once marked as failed with the message of the lock timeout. -/
def contactL1LogFailed : LogRow :=
  { id := 1, endpoint := "/webhook/lead-contacted", payload := { id := .str "L1" },
    processed := true, error := some "Lock wait timeout exceeded" }

/-- A store with the setter Alice and one lead of hers, not yet contacted. -/
def sampleSetterDb : Db :=
  { appointment_setters := [ { id := 1, email := .str "alice@x.com", name := .str "Alice" } ]
    leads :=
      [ { id := 1, ghl_lead_id := .str "L1", appointment_setter_id := some 1,
          created_at := ⟨some 0⟩, status := "created" } ] }

/-- A store with two leads without setter, created at 13:45 and at 14:30 UTC of the day
of the scenario. -/
def timeOfDayDb : Db :=
  { leads :=
      [ { id := 1, ghl_lead_id := .str "T1", appointment_setter_id := none,
          created_at := ⟨some (utcMillis 2024 1 15 13 45 0)⟩, status := "unassigned" },
        { id := 2, ghl_lead_id := .str "T2", appointment_setter_id := none,
          created_at := ⟨some (utcMillis 2024 1 15 14 30 0)⟩, status := "unassigned" } ] }

/-- One webhook request: the lead `L1` arrives for the setter Alice at the time value 0. -/
def firstContactEvents : List Event :=
  [ .leadCreated 0 { id := .str "L1", email := .str "alice@x.com", name := .str "Alice" } ]

/-- The lead `L1` as stored after `firstContactEvents`. -/
def storedLeadL1 : LeadRow :=
  { id := 1, ghl_lead_id := .str "L1", appointment_setter_id := some 1,
    created_at := ⟨some 0⟩, status := "created",
    metadata := some
      { payload := { id := .str "L1", email := .str "alice@x.com", name := .str "Alice" },
        webhookReceivedAt := ⟨some 0⟩, timestampSource := "server",
        payloadTimestamp := .null } }

/-- The lead `L1` once a contact at the time value 480000 (eight minutes after its
creation) is recorded. -/
def storedLeadL1Contacted : LeadRow :=
  { id := 1, ghl_lead_id := .str "L1", appointment_setter_id := some 1,
    created_at := ⟨some 0⟩, first_contacted_at := some ⟨some 480000⟩,
    speed_to_lead_minutes := some 8, status := "contacted",
    metadata := some
      { payload := { id := .str "L1", email := .str "alice@x.com", name := .str "Alice" },
        webhookReceivedAt := ⟨some 0⟩, timestampSource := "server",
        payloadTimestamp := .null } }

/-! ## Theorems -/

theorem Math.round_intDiv (a b : Int) (hb : 0 < b) :
    Math.round ((a : ℚ) / (b : ℚ)) = (2 * a + b) / (2 * b) := by
  unfold Math.round
  have hb' : (0 : ℚ) < (b : ℚ) := by exact_mod_cast hb
  have key : (a : ℚ) / (b : ℚ) + 1 / 2 = ((2 * a + b : Int) : ℚ) / ((2 * b : Int) : ℚ) := by
    push_cast
    field_simp
    ring
  rw [key]
  obtain ⟨n, hn⟩ : ∃ n : ℕ, (2 * b : Int) = (n : Int) := ⟨(2 * b).toNat, by omega⟩
  rw [hn]
  exact_mod_cast Rat.floor_intCast_div_natCast (2 * a + b) n

theorem Math.round_intCast (v : Int) : Math.round (v : ℚ) = v := by
  unfold Math.round
  rw [Int.floor_eq_iff]
  constructor <;> norm_num

theorem utcMillis_created : utcMillis 2024 1 15 10 0 0 = 1705312800000 := by decide

theorem utcMillis_contacted : utcMillis 2024 1 15 10 7 30 = 1705313250000 := by decide

/-! ### Rounding to the nearest double -/

theorem log2Fuel_spec : ∀ (fuel n : Nat), 0 < n → n ≤ fuel →
    2 ^ log2Fuel fuel n ≤ n ∧ n < 2 ^ (log2Fuel fuel n + 1) := by
  intro fuel
  induction fuel with
  | zero => intro n h0 h1; omega
  | succ f ih =>
    intro n h0 h1
    unfold log2Fuel
    by_cases h2 : 2 ≤ n
    · rw [if_pos h2]
      obtain ⟨a, b⟩ := ih (n / 2) (by omega) (by omega)
      rw [pow_succ, pow_succ]
      constructor <;> omega
    · rw [if_neg h2]
      have : n = 1 := by omega
      subst this
      simp

theorem natLog2_spec (n : Nat) (h : 0 < n) :
    2 ^ natLog2 n ≤ n ∧ n < 2 ^ (natLog2 n + 1) :=
  log2Fuel_spec n n h (le_refl n)

theorem abs_eq_natAbs_div_den (x : ℚ) : |x| = (x.num.natAbs : ℚ) / (x.den : ℚ) := by
  have h : |x| = |(x.num : ℚ)| / (x.den : ℚ) := by
    conv_lhs => rw [← Rat.num_div_den x]
    rw [abs_div, abs_of_pos (by exact_mod_cast x.den_pos : (0 : ℚ) < (x.den : ℚ))]
  rw [h, Nat.cast_natAbs, Int.cast_abs]

/-- The binary exponent of a non-zero number is that of its binade. -/
theorem binade_spec (x : ℚ) (hx : x ≠ 0) :
    (2 : ℚ) ^ binade x ≤ |x| ∧ |x| < (2 : ℚ) ^ (binade x + 1) := by
  have hnum : 0 < x.num.natAbs := Int.natAbs_pos.2 (Rat.num_ne_zero.2 hx)
  obtain ⟨ha1, ha2⟩ := natLog2_spec x.num.natAbs hnum
  obtain ⟨hb1, hb2⟩ := natLog2_spec x.den x.den_pos
  have ha1q : (2 : ℚ) ^ natLog2 x.num.natAbs ≤ (x.num.natAbs : ℚ) := by exact_mod_cast ha1
  have ha2q : (x.num.natAbs : ℚ) < (2 : ℚ) ^ (natLog2 x.num.natAbs + 1) := by
    exact_mod_cast ha2
  have hb1q : (2 : ℚ) ^ natLog2 x.den ≤ (x.den : ℚ) := by exact_mod_cast hb1
  have hb2q : (x.den : ℚ) < (2 : ℚ) ^ (natLog2 x.den + 1) := by exact_mod_cast hb2
  have hden : (0 : ℚ) < (x.den : ℚ) := by exact_mod_cast x.den_pos
  have habs := abs_eq_natAbs_div_den x
  have hpa : (0 : ℚ) < (2 : ℚ) ^ natLog2 x.num.natAbs := by positivity
  have hpb : (0 : ℚ) < (2 : ℚ) ^ natLog2 x.den := by positivity
  have hz : ∀ e : Int, (2 : ℚ) ^ ((natLog2 x.num.natAbs : Int) - (natLog2 x.den : Int) + e)
      = (2 : ℚ) ^ natLog2 x.num.natAbs / (2 : ℚ) ^ natLog2 x.den * (2 : ℚ) ^ e := by
    intro e
    rw [zpow_add₀ (by norm_num), zpow_sub₀ (by norm_num), zpow_natCast, zpow_natCast]
  unfold binade
  simp only []
  split_ifs with hc
  · refine ⟨hc, ?_⟩
    rw [hz 1, habs, zpow_one, div_mul_eq_mul_div, div_lt_div_iff₀ hden hpb]
    calc (x.num.natAbs : ℚ) * (2 : ℚ) ^ natLog2 x.den
        < (2 : ℚ) ^ (natLog2 x.num.natAbs + 1) * (2 : ℚ) ^ natLog2 x.den :=
          mul_lt_mul_of_pos_right ha2q hpb
      _ = (2 : ℚ) ^ natLog2 x.num.natAbs * 2 * (2 : ℚ) ^ natLog2 x.den := by rw [pow_succ]
      _ ≤ (2 : ℚ) ^ natLog2 x.num.natAbs * 2 * (x.den : ℚ) :=
          mul_le_mul_of_nonneg_left hb1q (by positivity)
  · constructor
    · have : (natLog2 x.num.natAbs : Int) - (natLog2 x.den : Int) - 1
          = (natLog2 x.num.natAbs : Int) - (natLog2 x.den : Int) + (-1) := by ring
      rw [this, hz (-1), habs, zpow_neg, zpow_one, div_mul_eq_mul_div, div_le_div_iff₀ hpb hden]
      calc (2 : ℚ) ^ natLog2 x.num.natAbs * 2⁻¹ * (x.den : ℚ)
          ≤ (2 : ℚ) ^ natLog2 x.num.natAbs * 2⁻¹ * (2 : ℚ) ^ (natLog2 x.den + 1) :=
            mul_le_mul_of_nonneg_left hb2q.le (by positivity)
        _ = (2 : ℚ) ^ natLog2 x.num.natAbs * (2 : ℚ) ^ natLog2 x.den := by
            rw [pow_succ]; ring
        _ ≤ (x.num.natAbs : ℚ) * (2 : ℚ) ^ natLog2 x.den :=
            mul_le_mul_of_nonneg_right ha1q hpb.le
    · rw [sub_add_cancel]
      exact lt_of_not_le hc

theorem binade_le_of_lt (x : ℚ) (hx : x ≠ 0) (E : Int) (h : |x| < (2 : ℚ) ^ (E + 1)) :
    binade x ≤ E := by
  have h1 := (binade_spec x hx).1
  have : (2 : ℚ) ^ binade x < (2 : ℚ) ^ (E + 1) := lt_of_le_of_lt h1 h
  have := (zpow_lt_zpow_iff_right₀ (by norm_num : (1 : ℚ) < 2)).1 this
  omega

theorem ulp_pos (x : ℚ) : 0 < ulp x := by
  unfold ulp; positivity

theorem roundHalfEven_ge (z : ℚ) (K : Int) (h : (K : ℚ) ≤ z) : K ≤ roundHalfEven z := by
  have hf : K ≤ ⌊z⌋ := Int.le_floor.2 h
  unfold roundHalfEven
  simp only []
  split_ifs <;> omega

theorem roundHalfEven_le (z : ℚ) (K : Int) (h : z ≤ (K : ℚ)) : roundHalfEven z ≤ K := by
  have hf : ⌊z⌋ ≤ K := by
    have h1 : ((⌊z⌋ : Int) : ℚ) ≤ (K : ℚ) := le_trans (Int.floor_le z) h
    exact_mod_cast h1
  unfold roundHalfEven
  simp only []
  by_cases hK : ⌊z⌋ = K
  · have hzK : z = K := le_antisymm h (by rw [← hK]; exact Int.floor_le z)
    have hr : z - (⌊z⌋ : ℚ) = 0 := by rw [hK, hzK]; ring
    rw [hr]
    norm_num
    omega
  · split_ifs <;> omega

theorem roundHalfEven_lt (z : ℚ) (K : Int) (h : z < (K : ℚ) - 1 / 2) :
    roundHalfEven z < K := by
  have hf : ⌊z⌋ < K := Int.floor_lt.2 (by linarith)
  unfold roundHalfEven
  simp only []
  by_cases hK : ⌊z⌋ = K - 1
  · have hr : z - (⌊z⌋ : ℚ) < 1 / 2 := by
      rw [hK]; push_cast; linarith
    rw [if_pos hr]
    omega
  · split_ifs <;> omega

theorem roundHalfEven_intCast (K : Int) : roundHalfEven (K : ℚ) = K := by
  unfold roundHalfEven
  simp

theorem roundHalfEven_sub_le (z : ℚ) : |(roundHalfEven z : ℚ) - z| ≤ 1 / 2 := by
  have h1 := Int.floor_le z
  have h2 := Int.lt_floor_add_one z
  unfold roundHalfEven
  simp only []
  rw [abs_le]
  split_ifs with a b c
  · constructor <;> linarith
  · push_cast; constructor <;> linarith
  · have : z - (⌊z⌋ : ℚ) = 1 / 2 := le_antisymm (not_lt.1 b) (not_lt.1 a)
    constructor <;> linarith
  · have : z - (⌊z⌋ : ℚ) = 1 / 2 := le_antisymm (not_lt.1 b) (not_lt.1 a)
    push_cast; constructor <;> linarith

theorem roundHalfEven_mono (y z : ℚ) (h : y ≤ z) : roundHalfEven y ≤ roundHalfEven z := by
  have hf : ⌊y⌋ ≤ ⌊z⌋ := Int.floor_mono h
  rcases lt_or_eq_of_le hf with hlt | heq
  · calc roundHalfEven y ≤ ⌊y⌋ + 1 := by
          unfold roundHalfEven; simp only []; split_ifs <;> omega
      _ ≤ ⌊z⌋ := by omega
      _ ≤ roundHalfEven z := by
          unfold roundHalfEven; simp only []; split_ifs <;> omega
  · have hr : y - (⌊y⌋ : ℚ) ≤ z - (⌊z⌋ : ℚ) := by rw [heq]; linarith
    unfold roundHalfEven
    simp only []
    rw [heq]
    rw [heq] at hr
    split_ifs <;> first | omega | (exfalso; linarith)

/-- A number that is a whole multiple of the spacing in the binade of `x` bounds the
double nearest to `x` when it bounds `x`. -/
theorem toDouble_le_of_le (x : ℚ) (K : Int) (h : x ≤ (K : ℚ) * ulp x) :
    toDouble x ≤ (K : ℚ) * ulp x := by
  unfold toDouble
  split_ifs with hx
  · rw [← hx]; exact h
  · have hu := ulp_pos x
    have : roundHalfEven (x / ulp x) ≤ K :=
      roundHalfEven_le _ _ (by rw [div_le_iff₀ hu]; exact h)
    have hq : (roundHalfEven (x / ulp x) : ℚ) ≤ (K : ℚ) := by exact_mod_cast this
    exact mul_le_mul_of_nonneg_right hq hu.le

theorem le_toDouble_of_le (x : ℚ) (K : Int) (h : (K : ℚ) * ulp x ≤ x) :
    (K : ℚ) * ulp x ≤ toDouble x := by
  unfold toDouble
  split_ifs with hx
  · rw [← hx]; exact h
  · have hu := ulp_pos x
    have : K ≤ roundHalfEven (x / ulp x) :=
      roundHalfEven_ge _ _ (by rw [le_div_iff₀ hu]; exact h)
    have hq : (K : ℚ) ≤ (roundHalfEven (x / ulp x) : ℚ) := by exact_mod_cast this
    exact mul_le_mul_of_nonneg_right hq hu.le

/-- A whole multiple of the spacing that exceeds `x` by more than half the spacing
exceeds the double nearest to `x`. -/
theorem toDouble_lt_of_lt (x : ℚ) (hx : x ≠ 0) (K : Int)
    (h : x < (K : ℚ) * ulp x - ulp x / 2) : toDouble x < (K : ℚ) * ulp x := by
  unfold toDouble
  rw [if_neg hx]
  have hu := ulp_pos x
  have : roundHalfEven (x / ulp x) < K := by
    apply roundHalfEven_lt
    rw [div_lt_iff₀ hu]
    linarith
  have hq : (roundHalfEven (x / ulp x) : ℚ) < (K : ℚ) := by exact_mod_cast this
  exact mul_lt_mul_of_pos_right hq hu

/-- The double nearest to `x` is within half the spacing of `x`. -/
theorem toDouble_sub_le (x : ℚ) : |toDouble x - x| ≤ ulp x / 2 := by
  unfold toDouble
  split_ifs with hx
  · rw [hx]; simp; exact (half_pos (ulp_pos 0)).le
  · have hu := ulp_pos x
    have h := roundHalfEven_sub_le (x / ulp x)
    have : (roundHalfEven (x / ulp x) : ℚ) * ulp x - x
        = ((roundHalfEven (x / ulp x) : ℚ) - x / ulp x) * ulp x := by
      field_simp
    rw [this, abs_mul, abs_of_pos hu]
    calc |(roundHalfEven (x / ulp x) : ℚ) - x / ulp x| * ulp x ≤ 1 / 2 * ulp x :=
          mul_le_mul_of_nonneg_right h hu.le
      _ = ulp x / 2 := by ring

/-- A dyadic number whose binary digits end no later than the spacing in the binade of `x`
is a whole multiple of that spacing. -/
theorem dyadic_eq_mul_ulp (x : ℚ) (M : Int) (j : Nat) (hk : binade x - 52 ≤ -(j : Int)) :
    ∃ K : Int, (M : ℚ) / (2 : ℚ) ^ j = (K : ℚ) * ulp x := by
  obtain ⟨d, hd⟩ : ∃ d : Nat, binade x - 52 = -(j : Int) - (d : Int) :=
    ⟨(-(j : Int) - (binade x - 52)).toNat, by omega⟩
  refine ⟨M * 2 ^ d, ?_⟩
  unfold ulp
  rw [hd, zpow_sub₀ (by norm_num), zpow_neg, zpow_natCast, zpow_natCast]
  push_cast
  field_simp
  ring

theorem toDouble_eq_of_mul_ulp (x : ℚ) (K : Int) (h : x = (K : ℚ) * ulp x) :
    toDouble x = x :=
  le_antisymm (by
      have := toDouble_le_of_le x K h.le
      rw [← h] at this; exact this)
    (by
      have := le_toDouble_of_le x K h.ge
      rw [← h] at this; exact this)

theorem binade_sub_le (x : ℚ) (hx : x ≠ 0) (E : Int) (h : |x| < (2 : ℚ) ^ (E + 1)) :
    binade x - 52 ≤ E - 52 := by
  have := binade_le_of_lt x hx E h
  omega

theorem ulp_le (x : ℚ) (hx : x ≠ 0) (E : Int) (h : |x| < (2 : ℚ) ^ (E + 1)) :
    ulp x ≤ (2 : ℚ) ^ (E - 52) := by
  unfold ulp
  exact zpow_le_zpow_right₀ (by norm_num) (binade_sub_le x hx E h)

/-- A whole number below 2^53 in absolute value is a double. -/
theorem toDouble_intCast (n : Int) (h : |n| < 2 ^ 53) : toDouble (n : ℚ) = n := by
  by_cases h0 : (n : ℚ) = 0
  · rw [h0]; simp [toDouble]
  · have habs : |(n : ℚ)| < (2 : ℚ) ^ ((52 : Int) + 1) := by
      have : |(n : ℚ)| = ((|n| : Int) : ℚ) := by rw [Int.cast_abs]
      rw [this]
      have h2 : ((|n| : Int) : ℚ) < ((2 ^ 53 : Int) : ℚ) := by exact_mod_cast h
      norm_num at h2 ⊢
      exact h2
    have hk := binade_sub_le (n : ℚ) h0 52 habs
    obtain ⟨K, hK⟩ := dyadic_eq_mul_ulp (n : ℚ) n 0 (by simpa using hk)
    simp only [pow_zero, div_one] at hK
    exact toDouble_eq_of_mul_ulp _ K hK

theorem toDouble_two_pow_53 : toDouble ((2 ^ 53 : Int) : ℚ) = ((2 ^ 53 : Int) : ℚ) := by
  decide!

/-- A whole number of at most 2^53 is a double. -/
theorem toDouble_intCast_of_le (n : Int) (h0 : 0 ≤ n) (h : n ≤ 2 ^ 53) :
    toDouble (n : ℚ) = n := by
  rcases lt_or_eq_of_le h with hlt | heq
  · exact toDouble_intCast n (by rw [abs_of_nonneg h0]; exact hlt)
  · rw [heq]; exact toDouble_two_pow_53

/-- Rounding the quotient by 60000 to a double does not change the minute it rounds to,
for a whole number of milliseconds up to 2^53. -/
theorem round_toDouble_div_60000 (d : Int) (h0 : 0 ≤ d) (h : d ≤ 2 ^ 53) :
    Math.round (toDouble ((d : ℚ) / (1000 * 60))) = Math.round ((d : ℚ) / (1000 * 60)) := by
  by_cases hd : d = 0
  · subst hd; simp [toDouble]
  have hdpos : (0 : ℚ) < (d : ℚ) := by
    have : 0 < d := lt_of_le_of_ne h0 (Ne.symm hd)
    exact_mod_cast this
  have hdle : (d : ℚ) ≤ 9007199254740992 := by
    have : (d : ℚ) ≤ ((2 ^ 53 : Int) : ℚ) := by exact_mod_cast h
    norm_num at this
    exact this
  set x : ℚ := (d : ℚ) / (1000 * 60) with hxdef
  have hxpos : 0 < x := by rw [hxdef]; positivity
  have hx0 : x ≠ 0 := hxpos.ne'
  have hxlt : |x| < (2 : ℚ) ^ ((37 : Int) + 1) := by
    rw [abs_of_pos hxpos, hxdef, div_lt_iff₀ (by norm_num)]
    norm_num
    linarith
  have hk := binade_sub_le x hx0 37 hxlt
  have hulp : ulp x ≤ (2 : ℚ) ^ ((37 : Int) - 52) := ulp_le x hx0 37 hxlt
  have hulp' : ulp x ≤ 1 / 32768 := by
    have : (2 : ℚ) ^ ((37 : Int) - 52) = 1 / 32768 := by norm_num [zpow_neg]
    rw [this] at hulp; exact hulp
  have hupos := ulp_pos x
  set M : Int := Math.round x with hM
  have hM1 : (M : ℚ) ≤ x + 1 / 2 := by rw [hM]; exact Int.floor_le _
  have hM2 : x + 1 / 2 < (M : ℚ) + 1 := by rw [hM]; exact Int.lt_floor_add_one _
  -- the two halves around `M` are whole multiples of the spacing
  obtain ⟨K1, hK1⟩ := dyadic_eq_mul_ulp x (2 * M - 1) 1 (by omega)
  obtain ⟨K2, hK2⟩ := dyadic_eq_mul_ulp x (2 * M + 1) 1 (by omega)
  have hB1 : (K1 : ℚ) * ulp x = (M : ℚ) - 1 / 2 := by
    rw [← hK1]; push_cast; ring
  have hB2 : (K2 : ℚ) * ulp x = (M : ℚ) + 1 / 2 := by
    rw [← hK2]; push_cast; ring
  have hlow : (M : ℚ) - 1 / 2 ≤ toDouble x := by
    rw [← hB1]
    exact le_toDouble_of_le x K1 (by rw [hB1]; linarith)
  -- `x` stays one sixty-thousandth below the upper half
  have hgap : x ≤ (M : ℚ) + 1 / 2 - 1 / 60000 := by
    have h1 : (d : ℚ) < 60000 * (M : ℚ) + 30000 := by
      have : x < (M : ℚ) + 1 / 2 := by linarith
      rw [hxdef, div_lt_iff₀ (by norm_num)] at this
      linarith
    have h2 : d < 60000 * M + 30000 := by exact_mod_cast h1
    have h3 : d ≤ 60000 * M + 30000 - 1 := by omega
    have h4 : (d : ℚ) ≤ 60000 * (M : ℚ) + 30000 - 1 := by exact_mod_cast h3
    rw [hxdef, div_le_iff₀ (by norm_num)]
    linarith
  have hhigh : toDouble x < (M : ℚ) + 1 / 2 := by
    rw [← hB2]
    apply toDouble_lt_of_lt x hx0 K2
    rw [hB2]
    linarith
  show ⌊toDouble x + 1 / 2⌋ = M
  rw [Int.floor_eq_iff]
  constructor <;> linarith

/-- Rounding the quotient by 60 to a double does not change its whole part, for a whole
number below 2^53. -/
theorem floor_toDouble_div_60 (m : Int) (h0 : 0 ≤ m) (h : m < 2 ^ 53) :
    ⌊toDouble ((m : ℚ) / 60)⌋ = m / 60 := by
  by_cases hm : m = 0
  · subst hm; simp [toDouble]
  have hmpos : (0 : ℚ) < (m : ℚ) := by
    have : 0 < m := lt_of_le_of_ne h0 (Ne.symm hm)
    exact_mod_cast this
  have hmlt : (m : ℚ) < 9007199254740992 := by
    have : (m : ℚ) < ((2 ^ 53 : Int) : ℚ) := by exact_mod_cast h
    norm_num at this
    exact this
  set x : ℚ := (m : ℚ) / 60 with hxdef
  have hxpos : 0 < x := by rw [hxdef]; positivity
  have hx0 : x ≠ 0 := hxpos.ne'
  have hxlt : |x| < (2 : ℚ) ^ ((47 : Int) + 1) := by
    rw [abs_of_pos hxpos, hxdef, div_lt_iff₀ (by norm_num)]
    norm_num
    linarith
  have hk := binade_sub_le x hx0 47 hxlt
  have hulp : ulp x ≤ (2 : ℚ) ^ ((47 : Int) - 52) := ulp_le x hx0 47 hxlt
  have hulp' : ulp x ≤ 1 / 32 := by
    have : (2 : ℚ) ^ ((47 : Int) - 52) = 1 / 32 := by norm_num [zpow_neg]
    rw [this] at hulp; exact hulp
  have hupos := ulp_pos x
  obtain ⟨K1, hK1⟩ := dyadic_eq_mul_ulp x (m / 60) 0 (by omega)
  obtain ⟨K2, hK2⟩ := dyadic_eq_mul_ulp x (m / 60 + 1) 0 (by omega)
  simp only [pow_zero, div_one] at hK1 hK2
  have hq1 : ((m / 60 : Int) : ℚ) ≤ x := by
    rw [hxdef, le_div_iff₀ (by norm_num)]
    have : (m / 60) * 60 ≤ m := by omega
    exact_mod_cast this
  have hq2 : x ≤ ((m / 60 : Int) : ℚ) + 1 - 1 / 60 := by
    rw [hxdef, div_le_iff₀ (by norm_num)]
    have : m ≤ (m / 60) * 60 + 59 := by omega
    have hq : (m : ℚ) ≤ ((m / 60 : Int) : ℚ) * 60 + 59 := by exact_mod_cast this
    linarith
  have hlow : ((m / 60 : Int) : ℚ) ≤ toDouble x := by
    rw [hK1]
    exact le_toDouble_of_le x K1 (by rw [← hK1]; exact hq1)
  have hhigh : toDouble x < ((m / 60 : Int) : ℚ) + 1 := by
    have hK2' : (K2 : ℚ) * ulp x = ((m / 60 : Int) : ℚ) + 1 := by
      rw [← hK2]; push_cast; ring
    rw [← hK2']
    apply toDouble_lt_of_lt x hx0 K2
    rw [hK2']
    linarith
  rw [Int.floor_eq_iff]
  exact ⟨hlow, hhigh⟩

/-- Rounding to the nearest double changes a number by at most its 2^-53-th part. -/
theorem toDouble_rel (x : ℚ) : |toDouble x - x| ≤ |x| * (1 / 2 ^ 53) := by
  by_cases hx : x = 0
  · subst hx; simp [toDouble]
  · have h1 := toDouble_sub_le x
    have h2 := (binade_spec x hx).1
    have h3 : ulp x / 2 = (2 : ℚ) ^ binade x * (1 / 2 ^ 53) := by
      unfold ulp
      rw [zpow_sub₀ (by norm_num)]
      norm_num
      ring
    rw [h3] at h1
    exact le_trans h1 (mul_le_mul_of_nonneg_right h2 (by positivity))

theorem toDouble_rel_of_le (x B : ℚ) (h : |x| ≤ B) : |toDouble x - x| ≤ B * (1 / 2 ^ 53) :=
  le_trans (toDouble_rel x) (mul_le_mul_of_nonneg_right h (by positivity))

/-- The interpolation of `_getPercentile` between two whole numbers of at most 2^40 in
absolute value, carried out in doubles, is within 1/256 of its exact value. -/
theorem toDouble_interpolation_sub_le (a b : Int) (x : ℚ)
    (ha : |a| ≤ 2 ^ 40) (hb : |b| ≤ 2 ^ 40) (h0 : 0 ≤ x) (h1 : x ≤ 1) :
    |toDouble (toDouble ((a : ℚ) * toDouble (1 - toDouble x)) + toDouble ((b : ℚ) * toDouble x))
        - ((a : ℚ) * (1 - x) + (b : ℚ) * x)| ≤ 1 / 256 := by
  have hA : |(a : ℚ)| ≤ 2 ^ 40 := by exact_mod_cast ha
  have hB : |(b : ℚ)| ≤ 2 ^ 40 := by exact_mod_cast hb
  generalize (a : ℚ) = A at hA ⊢
  generalize (b : ℚ) = B at hB ⊢
  have hw := toDouble_rel_of_le x 1 (by rw [abs_of_nonneg h0]; exact h1)
  generalize toDouble x = w at hw ⊢
  have hw2 := abs_le.1 hw
  have hwabs : |w| ≤ 2 := by
    rw [abs_le]; constructor <;> [skip; skip] <;> norm_num at hw2 ⊢ <;> linarith [hw2.1, hw2.2]
  have h1w : |1 - w| ≤ 2 := by
    rw [abs_le]; constructor <;> norm_num at hw2 ⊢ <;> linarith [hw2.1, hw2.2]
  have hu := toDouble_rel_of_le (1 - w) 2 h1w
  generalize toDouble (1 - w) = u at hu ⊢
  have hu2 := abs_le.1 hu
  have huabs : |u| ≤ 3 := by
    have := abs_le.1 h1w
    rw [abs_le]; constructor <;> norm_num at hu2 ⊢ <;> linarith [hu2.1, hu2.2, this.1, this.2]
  have hAu : |A * u| ≤ 2 ^ 40 * 3 := by
    rw [abs_mul]; exact mul_le_mul hA huabs (abs_nonneg _) (by positivity)
  have hBw : |B * w| ≤ 2 ^ 40 * 2 := by
    rw [abs_mul]; exact mul_le_mul hB hwabs (abs_nonneg _) (by positivity)
  have ht1 := toDouble_rel_of_le (A * u) _ hAu
  have ht2 := toDouble_rel_of_le (B * w) _ hBw
  generalize toDouble (A * u) = t1 at ht1 ⊢
  generalize toDouble (B * w) = t2 at ht2 ⊢
  have hs : |t1 + t2| ≤ 2 ^ 40 * 6 := by
    have a1 := abs_le.1 hAu
    have a2 := abs_le.1 hBw
    have a3 := abs_le.1 ht1
    have a4 := abs_le.1 ht2
    rw [abs_le]
    constructor <;> norm_num at a1 a2 a3 a4 ⊢ <;> linarith [a1.1, a1.2, a2.1, a2.2, a3.1, a3.2, a4.1, a4.2]
  have hF := toDouble_rel_of_le (t1 + t2) _ hs
  generalize toDouble (t1 + t2) = F at hF ⊢
  have hd1 : |A * (u - (1 - x))| ≤ 2 ^ 40 * (3 / 2 ^ 53) := by
    rw [abs_mul]
    refine mul_le_mul hA ?_ (abs_nonneg _) (by positivity)
    rw [abs_le]; constructor <;> norm_num at hu2 hw2 ⊢ <;> linarith [hu2.1, hu2.2, hw2.1, hw2.2]
  have hd2 : |B * (w - x)| ≤ 2 ^ 40 * (1 / 2 ^ 53) := by
    rw [abs_mul]
    exact mul_le_mul hB (by simpa using hw) (abs_nonneg _) (by positivity)
  have b1 := abs_le.1 ht1
  have b2 := abs_le.1 ht2
  have b3 := abs_le.1 hF
  have b4 := abs_le.1 hd1
  have b5 := abs_le.1 hd2
  rw [abs_le]
  norm_num at b1 b2 b3 b4 b5 ⊢
  constructor <;> linarith [b1.1, b1.2, b2.1, b2.2, b3.1, b3.2, b4.1, b4.2, b5.1, b5.2]

/-- The index `_getPercentile` computes from a fraction of at most 24/25 lies inside the
array and within the 2^-53-th part of the last position of the exact product. -/
theorem toDouble_index_bounds (p N : ℚ) (hp0 : 0 ≤ p) (hp1 : p ≤ 24 / 25) (hN : 0 ≤ N) :
    0 ≤ toDouble (p * N) ∧ toDouble (p * N) ≤ N
      ∧ |toDouble (p * N) - p * N| ≤ N * (1 / 2 ^ 53) := by
  have hpN : 0 ≤ p * N := mul_nonneg hp0 hN
  have hpN1 : p * N ≤ 24 / 25 * N := mul_le_mul_of_nonneg_right hp1 hN
  have h := toDouble_rel (p * N)
  rw [abs_of_nonneg hpN] at h
  have h2 := abs_le.1 h
  norm_num at h2
  refine ⟨by nlinarith [h2.1], by nlinarith [h2.2], ?_⟩
  refine le_trans h ?_
  apply mul_le_mul_of_nonneg_right _ (by positivity)
  linarith

theorem toDouble_fraction_50 : toDouble (50 / 100) = 1 / 2 := by decide!

theorem toDouble_fraction_75 : toDouble (75 / 100) = 3 / 4 := by decide!

theorem toDouble_fraction_90 :
    toDouble (90 / 100) = 8106479329266893 / 9007199254740992 := by decide!

theorem toDouble_fraction_95 :
    toDouble (95 / 100) = 4278419646001971 / 4503599627370496 := by decide!

/-- Counterexample to C1: the earliest valid Date, -8640000000000000, and the valid Date
3360000000029999 are 12000000000029999 milliseconds apart, more than 2^53. The
difference the code computes is the double 12000000000030000, its quotient by 60000 is
200000000000.5, and `calculateSpeedToLead` returns 200000000001, while
`round(12000000000029999 / 60000)` is 200000000000. -/
theorem calculateSpeedToLead_far_apart :
    (-8640000000000000 : Int) ≤ 3360000000029999
      ∧ calculateSpeedToLead sampleParse (.date ⟨some (-8640000000000000)⟩)
          (.date ⟨some 3360000000029999⟩) = some 200000000001
      ∧ Math.round (((3360000000029999 - (-8640000000000000) : Int) : ℚ) / 60000)
          = 200000000000 := by
  decide!

/-- C1, amended: for valid timestamps `created ≤ contacted`, given as Dates or as strings
that parse, with time values `c ≤ k` not more than 2^53 milliseconds apart (so that the
difference of the two time values is a double, and rounding the quotient to a double does
not move it across a half), `calculateSpeedToLead` returns the integer
`r = round((k - c) / 60000)`: the
nearest whole number of minutes, an exact half going up
(`60000 r - 30000 ≤ k - c < 60000 r + 30000`). It is 0 when both instants are the same, and
8 for created 2024-01-15T10:00:00Z and contacted 2024-01-15T10:07:30Z. -/
theorem calculateSpeedToLead_rounds (parse : String → Option Int)
    (createdAt contactedAt : DateArg) (c k : Int)
    (hc : (toDate parse createdAt).time = some c)
    (hk : (toDate parse contactedAt).time = some k) (hle : c ≤ k)
    (hd : k - c ≤ 2 ^ 53) :
    ∃ r : Int, calculateSpeedToLead parse createdAt contactedAt = some r
      ∧ r = ⌊((k - c : Int) : ℚ) / 60000 + 1 / 2⌋
      ∧ 60000 * r - 30000 ≤ k - c ∧ k - c < 60000 * r + 30000
      ∧ (k = c → r = 0)
      ∧ (c = utcMillis 2024 1 15 10 0 0 → k = utcMillis 2024 1 15 10 7 30 → r = 8) := by
  have hres : calculateSpeedToLead parse createdAt contactedAt
      = some (Math.round (((k - c : Int) : ℚ) / (1000 * 60))) := by
    simp only [calculateSpeedToLead, hc, hk]
    rw [if_neg (by omega)]
    have hsub : (k : ℚ) - (c : ℚ) = ((k - c : Int) : ℚ) := by push_cast; ring
    rw [hsub, toDouble_intCast_of_le (k - c) (by omega) hd,
      round_toDouble_div_60000 (k - c) (by omega) hd]
  have hr : Math.round (((k - c : Int) : ℚ) / (1000 * 60)) = (2 * (k - c) + 60000) / 120000 := by
    have := Math.round_intDiv (k - c) 60000 (by norm_num)
    norm_num at this ⊢
    exact this
  refine ⟨_, hres, ?_, ?_, ?_, ?_, ?_⟩
  · unfold Math.round; norm_num
  · rw [hr]; omega
  · rw [hr]; omega
  · intro h; rw [hr]; omega
  · intro h1 h2
    rw [hr, h1, h2, utcMillis_created, utcMillis_contacted]
    decide

/-- Witness of C1, amended: the scenario, with both timestamps given as strings. -/
theorem calculateSpeedToLead_rounds_witness :
    calculateSpeedToLead sampleParse (.value (.str "2024-01-15T10:00:00Z"))
      (.value (.str "2024-01-15T10:07:30Z")) = some 8 := by
  obtain ⟨r, hr, -, -, -, -, h8⟩ :=
    calculateSpeedToLead_rounds sampleParse (.value (.str "2024-01-15T10:00:00Z"))
      (.value (.str "2024-01-15T10:07:30Z")) (utcMillis 2024 1 15 10 0 0) (utcMillis 2024 1 15 10 7 30)
      (by decide) (by decide) (by decide) (by decide)
  rw [hr, h8 rfl rfl]

/-- C2: for valid timestamps with `contacted` strictly earlier than `created`,
`calculateSpeedToLead` returns `null`, however small the difference. -/
theorem calculateSpeedToLead_out_of_order (parse : String → Option Int)
    (createdAt contactedAt : DateArg) (c k : Int)
    (hc : (toDate parse createdAt).time = some c)
    (hk : (toDate parse contactedAt).time = some k) (hlt : k < c) :
    calculateSpeedToLead parse createdAt contactedAt = none := by
  simp only [calculateSpeedToLead, hc, hk]
  rw [if_pos hlt]

/-- Witness of C2: contacted one millisecond before created. -/
theorem calculateSpeedToLead_out_of_order_witness :
    calculateSpeedToLead sampleParse (.date ⟨some 1705312800000⟩)
      (.date ⟨some 1705312799999⟩) = none :=
  calculateSpeedToLead_out_of_order sampleParse _ _ 1705312800000 1705312799999 rfl rfl
    (by decide)

/-- C3: `calculateSpeedToLead` is total (nothing is thrown to the caller); it returns
`null` whenever `createdAt` or `contactedAt` has no valid time value, and a value that is
not `null` only when both have one. -/
theorem calculateSpeedToLead_invalid (parse : String → Option Int)
    (createdAt contactedAt : DateArg) :
    ((toDate parse createdAt).time = none ∨ (toDate parse contactedAt).time = none →
        calculateSpeedToLead parse createdAt contactedAt = none)
      ∧ (∀ r, calculateSpeedToLead parse createdAt contactedAt = some r →
          ∃ c k, (toDate parse createdAt).time = some c
            ∧ (toDate parse contactedAt).time = some k) := by
  constructor
  · rintro (h | h)
    · simp [calculateSpeedToLead, h]
    · cases hc : (toDate parse createdAt).time <;> simp [calculateSpeedToLead, h, hc]
  · intro r hr
    cases hc : (toDate parse createdAt).time with
    | none => simp [calculateSpeedToLead, hc] at hr
    | some c =>
      cases hk : (toDate parse contactedAt).time with
      | none => simp [calculateSpeedToLead, hc, hk] at hr
      | some k => exact ⟨c, k, rfl, rfl⟩


theorem arrayAt_eq_getD (a : List Int) (i : Int) (h0 : 0 ≤ i) (h1 : i ≤ (a.length : Int) - 1) :
    arrayAt a i = some (a.getD i.toNat 0) := by
  have hlt : i.toNat < a.length := by omega
  simp [arrayAt, h0, List.getD, List.getElem?_eq_getElem hlt]

theorem percentile_index_bounds (n : Nat) (hn : 0 < n) (P : ℚ) (h0 : 0 ≤ P) (h100 : P ≤ 100) :
    0 ≤ ⌊(P / 100) * ((n : ℚ) - 1)⌋
      ∧ ⌊(P / 100) * ((n : ℚ) - 1)⌋ ≤ ⌈(P / 100) * ((n : ℚ) - 1)⌉
      ∧ ⌈(P / 100) * ((n : ℚ) - 1)⌉ ≤ (n : Int) - 1 := by
  have hn1 : (0 : ℚ) ≤ (n : ℚ) - 1 := by
    have : (1 : ℚ) ≤ (n : ℚ) := by exact_mod_cast hn
    linarith
  have hp0 : (0 : ℚ) ≤ P / 100 := by positivity
  have hp1 : P / 100 ≤ 1 := by
    rw [div_le_one (by norm_num)]; exact h100
  refine ⟨Int.floor_nonneg.2 (mul_nonneg hp0 hn1), Int.floor_le_ceil _, ?_⟩
  rw [Int.ceil_le]
  push_cast
  calc (P / 100) * ((n : ℚ) - 1) ≤ 1 * ((n : ℚ) - 1) := mul_le_mul_of_nonneg_right hp1 hn1
    _ = (n : ℚ) - 1 := one_mul _

theorem Lead.getPercentile_eq_spec (values : List Int) (P : ℚ) (hne : values ≠ [])
    (h0 : 0 ≤ P) (h100 : P ≤ 100) :
    Lead.getPercentile values P = .num (percentileSpec values P) := by
  have hn : 0 < values.length := List.length_pos.2 hne
  obtain ⟨hlo, hmid, hhi⟩ := percentile_index_bounds values.length hn P h0 h100
  have h1 := arrayAt_eq_getD values _ hlo (le_trans hmid hhi)
  have h2 := arrayAt_eq_getD values _ (le_trans hlo hmid) hhi
  simp only [Lead.getPercentile, percentileSpec, h1, h2]



/-- In double-precision arithmetic `_getPercentile` reads inside a non-empty array when
the fraction `P / 100` it computes lies between 0 and 24/25, and returns the value of
the formula. -/
theorem Double.Lead.getPercentile_eq_percentileSpec (values : List Int) (P : ℚ)
    (hne : values ≠ []) (hp0 : 0 ≤ toDouble (P / 100)) (hp1 : toDouble (P / 100) ≤ 24 / 25) :
    0 ≤ ⌊toDouble (toDouble (P / 100) * ((values.length : ℚ) - 1))⌋
      ∧ ⌊toDouble (toDouble (P / 100) * ((values.length : ℚ) - 1))⌋
          ≤ ⌈toDouble (toDouble (P / 100) * ((values.length : ℚ) - 1))⌉
      ∧ ⌈toDouble (toDouble (P / 100) * ((values.length : ℚ) - 1))⌉ ≤ (values.length : Int) - 1
      ∧ Double.Lead.getPercentile values P = .num (Double.percentileSpec values P) := by
  have hpos : 0 < values.length := List.length_pos.2 hne
  have hN : (0 : ℚ) ≤ (values.length : ℚ) - 1 := by
    have : (1 : ℚ) ≤ (values.length : ℚ) := by exact_mod_cast hpos
    linarith
  obtain ⟨hi0, hi1, -⟩ := toDouble_index_bounds _ _ hp0 hp1 hN
  have hf0 : 0 ≤ ⌊toDouble (toDouble (P / 100) * ((values.length : ℚ) - 1))⌋ :=
    Int.floor_nonneg.2 hi0
  have hfc := Int.floor_le_ceil (toDouble (toDouble (P / 100) * ((values.length : ℚ) - 1)))
  have hc : ⌈toDouble (toDouble (P / 100) * ((values.length : ℚ) - 1))⌉
      ≤ (values.length : Int) - 1 := by
    rw [Int.ceil_le]; push_cast; exact hi1
  refine ⟨hf0, hfc, hc, ?_⟩
  have h1 := arrayAt_eq_getD values _ hf0 (le_trans hfc hc)
  have h2 := arrayAt_eq_getD values _ (le_trans hf0 hfc) hc
  simp only [Double.Lead.getPercentile, Double.percentileSpec, h1, h2]

theorem Double.percentileSpec_scenario : Double.percentileSpec [10, 20, 30, 40] 50 = 25 := by
  decide!

theorem selectSpeeds_eq_of_sorted_perm (db : Db) (values : List Int)
    (hs : values.Sorted (· ≤ ·))
    (hp : values.Perm (db.leads.filterMap (·.speed_to_lead_minutes))) :
    Lead.selectSpeeds db = values :=
  List.eq_of_perm_of_sorted ((List.perm_insertionSort (· ≤ ·) _).trans hp.symm)
    (List.sorted_insertionSort (· ≤ ·) _) hs

theorem Double.Lead.getPercentiles_selected (db : Db)
    (hne : SpeedToLead.Lead.selectSpeeds db ≠ []) :
    Double.Lead.getPercentiles db =
        { p50 := some (.num (Double.percentileSpec (SpeedToLead.Lead.selectSpeeds db) 50))
          p75 := some (.num (Double.percentileSpec (SpeedToLead.Lead.selectSpeeds db) 75))
          p90 := some (.num (Double.percentileSpec (SpeedToLead.Lead.selectSpeeds db) 90))
          p95 := some (.num (Double.percentileSpec (SpeedToLead.Lead.selectSpeeds db) 95)) } := by
  have hn : 0 < (SpeedToLead.Lead.selectSpeeds db).length := List.length_pos.2 hne
  have h50 := Double.Lead.getPercentile_eq_percentileSpec _ 50 hne
    (by rw [toDouble_fraction_50]; norm_num) (by rw [toDouble_fraction_50]; norm_num)
  have h75 := Double.Lead.getPercentile_eq_percentileSpec _ 75 hne
    (by rw [toDouble_fraction_75]; norm_num) (by rw [toDouble_fraction_75]; norm_num)
  have h90 := Double.Lead.getPercentile_eq_percentileSpec _ 90 hne
    (by rw [toDouble_fraction_90]; norm_num) (by rw [toDouble_fraction_90]; norm_num)
  have h95 := Double.Lead.getPercentile_eq_percentileSpec _ 95 hne
    (by rw [toDouble_fraction_95]; norm_num) (by rw [toDouble_fraction_95]; norm_num)
  simp only [Double.Lead.getPercentiles]
  rw [if_neg (by omega), h50.2.2.2, h75.2.2.2, h90.2.2.2, h95.2.2.2]

/-- Counterexample to C4: the store holds the elapsed minutes 2 and 12. The formula gives
`round(2 × 0.05 + 12 × 0.95) = round(11.5) = 12` for P = 95, but the sum the code computes
in doubles is below 11.5 and `Lead.getPercentiles` reports p95 = 11. -/
theorem Double.Lead.getPercentiles_differs_from_exact :
    SpeedToLead.Lead.selectSpeeds twoSpeedsDb = [2, 12]
      ∧ SpeedToLead.percentileSpec [2, 12] 95 = 12
      ∧ (Double.Lead.getPercentiles twoSpeedsDb).p95 = some (.num 11) := by
  decide!

/-- C4, amended: when the elapsed-minutes values of the store, arranged ascending, are
the non-empty list `values` of length n, each percentile `Lead.getPercentiles` reports
for P = 50, 75, 90, 95 is the number `round(value[lower]*(1-weight) + value[upper]*weight)`
with `index = (P/100)*(n-1)`, `lower = floor(index)`, `upper = ceil(index)`,
`weight = index - lower`, where the quotient, the products, the differences and the sum
are each rounded to the nearest double; both positions lie inside the list; for the
values [10, 20, 30, 40] p50 is 25. -/
theorem Double.Lead.getPercentiles_eq_percentileSpec (db : Db) (values : List Int)
    (hs : values.Sorted (· ≤ ·))
    (hp : values.Perm (db.leads.filterMap (·.speed_to_lead_minutes)))
    (hne : values ≠ []) :
    Double.Lead.getPercentiles db =
        { p50 := some (.num (Double.percentileSpec values 50))
          p75 := some (.num (Double.percentileSpec values 75))
          p90 := some (.num (Double.percentileSpec values 90))
          p95 := some (.num (Double.percentileSpec values 95)) }
      ∧ (∀ P : ℚ, P ∈ [50, 75, 90, 95] →
          0 ≤ ⌊toDouble (toDouble (P / 100) * ((values.length : ℚ) - 1))⌋
            ∧ ⌈toDouble (toDouble (P / 100) * ((values.length : ℚ) - 1))⌉
                ≤ (values.length : Int) - 1)
      ∧ (values = [10, 20, 30, 40] →
          (Double.Lead.getPercentiles db).p50 = some (.num 25)) := by
  have hn : 0 < values.length := List.length_pos.2 hne
  have hv := selectSpeeds_eq_of_sorted_perm db values hs hp
  have h50 := Double.Lead.getPercentile_eq_percentileSpec values 50 hne
    (by rw [toDouble_fraction_50]; norm_num) (by rw [toDouble_fraction_50]; norm_num)
  have h75 := Double.Lead.getPercentile_eq_percentileSpec values 75 hne
    (by rw [toDouble_fraction_75]; norm_num) (by rw [toDouble_fraction_75]; norm_num)
  have h90 := Double.Lead.getPercentile_eq_percentileSpec values 90 hne
    (by rw [toDouble_fraction_90]; norm_num) (by rw [toDouble_fraction_90]; norm_num)
  have h95 := Double.Lead.getPercentile_eq_percentileSpec values 95 hne
    (by rw [toDouble_fraction_95]; norm_num) (by rw [toDouble_fraction_95]; norm_num)
  have hget : Double.Lead.getPercentiles db =
      { p50 := some (.num (Double.percentileSpec values 50))
        p75 := some (.num (Double.percentileSpec values 75))
        p90 := some (.num (Double.percentileSpec values 90))
        p95 := some (.num (Double.percentileSpec values 95)) } := by
    have := Double.Lead.getPercentiles_selected db (by rw [hv]; exact hne)
    rw [hv] at this
    exact this
  refine ⟨hget, ?_, ?_⟩
  · intro P hP
    simp only [List.mem_cons, List.mem_singleton, List.not_mem_nil, or_false] at hP
    rcases hP with h | h | h | h <;> subst h
    · exact ⟨h50.1, h50.2.2.1⟩
    · exact ⟨h75.1, h75.2.2.1⟩
    · exact ⟨h90.1, h90.2.2.1⟩
    · exact ⟨h95.1, h95.2.2.1⟩
  · intro h
    rw [hget, h, Double.percentileSpec_scenario]

/-- Witness of C4, amended: the store with elapsed minutes 40, 10, 30, 20 reports
p50 = 25. -/
theorem Double.Lead.getPercentiles_eq_percentileSpec_witness :
    (Double.Lead.getPercentiles sampleSpeedsDb).p50 = some (.num 25) :=
  (Double.Lead.getPercentiles_eq_percentileSpec sampleSpeedsDb [10, 20, 30, 40] (by decide)
    (by decide) (by decide)).2.2 rfl

/-- C5: when no lead has an elapsed-minutes value, the list of values is empty and
`Lead.getPercentiles` reports `null` for every percentile: p50, p75, p90 and p95. -/
theorem Lead.getPercentiles_empty (db : Db)
    (h : ∀ l ∈ db.leads, l.speed_to_lead_minutes = none) :
    Lead.selectSpeeds db = []
      ∧ Lead.getPercentiles db = { p50 := none, p75 := none, p90 := none, p95 := none } := by
  have hs : Lead.selectSpeeds db = [] := by
    have : db.leads.filterMap (·.speed_to_lead_minutes) = [] := by
      rw [List.filterMap_eq_nil_iff]
      exact h
    simp [Lead.selectSpeeds, this]
  refine ⟨hs, ?_⟩
  simp [Lead.getPercentiles, hs]

/-- Witness of C5: a store whose only lead was never contacted. -/
theorem Lead.getPercentiles_empty_witness :
    Lead.selectSpeeds uncontactedDb = []
      ∧ Lead.getPercentiles uncontactedDb
        = { p50 := none, p75 := none, p90 := none, p95 := none } :=
  Lead.getPercentiles_empty uncontactedDb (by decide)

/-- C6: for a list of n ≥ 2 values (ascending or not), `Lead._getPercentile(values, 0)` is
`values[0]` and `Lead._getPercentile(values, 100)` is `values[n-1]`. -/
theorem Lead.getPercentile_extremes (values : List Int) (hn : 2 ≤ values.length) :
    some (Lead.getPercentile values 0) = (values[0]?).map JsNum.num
      ∧ some (Lead.getPercentile values 100)
          = (values[values.length - 1]?).map JsNum.num := by
  have h0 : 0 < values.length := by omega
  have h1 : values.length - 1 < values.length := by omega
  have hcast : ((values.length : ℚ) - 1) = (((values.length : Int) - 1 : Int) : ℚ) := by
    push_cast; ring
  constructor
  · have ha : arrayAt values 0 = some values[0] := by
      simp [arrayAt, List.getElem?_eq_getElem h0]
    simp [Lead.getPercentile, ha, List.getElem?_eq_getElem h0, Math.round_intCast]
  · have ha : arrayAt values ((values.length : Int) - 1) = some values[values.length - 1] := by
      have hc : ((values.length : Int) - 1) = ((values.length - 1 : Nat) : Int) := by omega
      rw [hc]
      simp [arrayAt, List.getElem?_eq_getElem h1]
    have hi : (100 / 100 : ℚ) * ((values.length : ℚ) - 1)
        = (((values.length : Int) - 1 : Int) : ℚ) := by
      rw [hcast]; norm_num
    simp only [Lead.getPercentile, hi, Int.floor_intCast, Int.ceil_intCast, ha,
      List.getElem?_eq_getElem h1, Option.map_some', sub_self, sub_zero, mul_one, mul_zero,
      add_zero, Math.round_intCast]

/-- Witness of C6: the two ends of [10, 20, 30, 40]. -/
theorem Lead.getPercentile_extremes_witness :
    some (Lead.getPercentile [10, 20, 30, 40] 0) = some (JsNum.num 10)
      ∧ some (Lead.getPercentile [10, 20, 30, 40] 100) = some (JsNum.num 40) :=
  Lead.getPercentile_extremes [10, 20, 30, 40] (by decide)

/-! ### The handlers and the tables they touch -/

@[simp] theorem WebhookLog.create_leads (e : String) (p : Payload) (db : Db) :
    (WebhookLog.create e p db).2.leads = db.leads := rfl

@[simp] theorem WebhookLog.create_setters (e : String) (p : Payload) (db : Db) :
    (WebhookLog.create e p db).2.appointment_setters = db.appointment_setters := rfl

@[simp] theorem WebhookLog.markProcessed_leads (id : Nat) (db : Db) :
    (WebhookLog.markProcessed id db).leads = db.leads := rfl

@[simp] theorem WebhookLog.markProcessed_setters (id : Nat) (db : Db) :
    (WebhookLog.markProcessed id db).appointment_setters = db.appointment_setters := rfl

@[simp] theorem WebhookLog.markFailed_leads (id : Nat) (m : String) (db : Db) :
    (WebhookLog.markFailed id m db).leads = db.leads := rfl

@[simp] theorem WebhookLog.markFailed_setters (id : Nat) (m : String) (db : Db) :
    (WebhookLog.markFailed id m db).appointment_setters = db.appointment_setters := rfl

@[simp] theorem AppointmentSetter.findOrCreate_leads (email name : JsVal) (db : Db) :
    (AppointmentSetter.findOrCreate email name db).2.leads = db.leads := by
  unfold AppointmentSetter.findOrCreate
  split
  · split <;> rfl
  · rfl

theorem AppointmentSetter.findOrCreate_setters_congr (email name : JsVal) (db1 db2 : Db)
    (h : db1.appointment_setters = db2.appointment_setters) :
    (AppointmentSetter.findOrCreate email name db1).2.appointment_setters
      = (AppointmentSetter.findOrCreate email name db2).2.appointment_setters := by
  unfold AppointmentSetter.findOrCreate
  rw [h]
  split
  · split <;> simp [h]
  · simp [h]

theorem Lead.findByGhlLeadId_congr (ghlLeadId : JsVal) (db1 db2 : Db)
    (h : db1.leads = db2.leads) :
    Lead.findByGhlLeadId ghlLeadId db1 = Lead.findByGhlLeadId ghlLeadId db2 := by
  unfold Lead.findByGhlLeadId
  rw [h]

/-- A lead-created request for an identifier that is stored: the answer, the leads and the
setters afterwards. -/
theorem Webhooks.leadCreated_existing (rt : Runtime) (t : Int) (payload : Payload) (db : Db)
    (existing : LeadRow) (hid : payload.leadIdOf.truthy = true)
    (hfind : Lead.findByGhlLeadId payload.leadIdOf db = some existing) :
    (Webhooks.leadCreated rt t payload db).1
        = ⟨200, .lead "Lead already exists" (some existing)⟩
      ∧ (Webhooks.leadCreated rt t payload db).2.leads = db.leads
      ∧ (Webhooks.leadCreated rt t payload db).2.appointment_setters
          = if payload.setterEmailOf.truthy then
              (AppointmentSetter.findOrCreate payload.setterEmailOf payload.setterNameOf
                db).2.appointment_setters
            else db.appointment_setters := by
  unfold Webhooks.leadCreated Webhooks.leadCreatedTry
  simp only [hid, Bool.not_true, Bool.false_eq_true, if_false]
  by_cases he : payload.setterEmailOf.truthy = true
  · have hf : Lead.findByGhlLeadId payload.leadIdOf
        (AppointmentSetter.findOrCreate payload.setterEmailOf payload.setterNameOf
          (WebhookLog.create "/webhook/lead-created" payload db).2).2 = some existing := by
      rw [← hfind]
      exact Lead.findByGhlLeadId_congr _ _ _ (by simp)
    simp only [he, Bool.not_true, Bool.false_eq_true, if_false, hf, if_true]
    refine ⟨trivial, by simp, ?_⟩
    simp only [WebhookLog.markProcessed_setters]
    exact AppointmentSetter.findOrCreate_setters_congr _ _ _ _ (by simp)
  · have hf : Lead.findByGhlLeadId payload.leadIdOf
        (WebhookLog.create "/webhook/lead-created" payload db).2 = some existing := by
      rw [← hfind]
      exact Lead.findByGhlLeadId_congr _ _ _ (by simp)
    simp only [he, Bool.not_false, if_true, hf, Bool.false_eq_true, if_false]
    refine ⟨trivial, by simp, by simp⟩

theorem Lead.findByGhlLeadId_eq_none (ghlLeadId : JsVal) (db : Db) :
    Lead.findByGhlLeadId ghlLeadId db = none ↔ ∀ l ∈ db.leads, l.ghl_lead_id ≠ ghlLeadId := by
  unfold Lead.findByGhlLeadId
  cases h : db.leads.filter (fun l => l.ghl_lead_id = ghlLeadId) with
  | nil =>
    simp only [true_iff]
    intro l hl hid
    have : l ∈ db.leads.filter (fun l => l.ghl_lead_id = ghlLeadId) := by
      simp [List.mem_filter, hl, hid]
    rw [h] at this
    exact absurd this (List.not_mem_nil l)
  | cons a rest =>
    simp only [reduceCtorEq, false_iff, not_forall]
    have : a ∈ db.leads.filter (fun l => l.ghl_lead_id = ghlLeadId) := by
      rw [h]; exact List.mem_cons_self a rest
    rw [List.mem_filter] at this
    exact ⟨a, this.1, by simpa using this.2⟩

theorem Lead.findByGhlLeadId_eq_some (ghlLeadId : JsVal) (db : Db) (lead : LeadRow)
    (h : Lead.findByGhlLeadId ghlLeadId db = some lead) :
    lead ∈ db.leads ∧ lead.ghl_lead_id = ghlLeadId := by
  unfold Lead.findByGhlLeadId at h
  cases hf : db.leads.filter (fun l => l.ghl_lead_id = ghlLeadId) with
  | nil => rw [hf] at h; exact absurd h (by simp)
  | cons a rest =>
    rw [hf] at h
    simp only [Lead.parseLead, Option.some.injEq] at h
    have : a ∈ db.leads.filter (fun l => l.ghl_lead_id = ghlLeadId) := by
      rw [hf]; exact List.mem_cons_self a rest
    rw [List.mem_filter] at this
    subst h
    exact ⟨this.1, by simpa using this.2⟩

theorem filter_eq_singleton_of_nodup (leads : List LeadRow) (l : LeadRow)
    (hu : (leads.map (·.ghl_lead_id)).Nodup) (hl : l ∈ leads) :
    leads.filter (fun x => x.ghl_lead_id = l.ghl_lead_id) = [l] := by
  induction leads with
  | nil => exact absurd hl (List.not_mem_nil l)
  | cons a rest ih =>
    rw [List.map_cons, List.nodup_cons] at hu
    rcases List.mem_cons.1 hl with h | h
    · subst h
      have hrest : rest.filter (fun x => x.ghl_lead_id = l.ghl_lead_id) = [] := by
        rw [List.filter_eq_nil_iff]
        intro x hx
        have : x.ghl_lead_id ≠ l.ghl_lead_id := fun e =>
          hu.1 (e ▸ List.mem_map_of_mem (·.ghl_lead_id) hx)
        simpa using this
      simp [List.filter_cons, hrest]
    · have hne : a.ghl_lead_id ≠ l.ghl_lead_id := fun e =>
        hu.1 (e ▸ List.mem_map_of_mem (·.ghl_lead_id) h)
      simp [List.filter_cons, hne, ih hu.2 h]

theorem Lead.findByGhlLeadId_of_mem (db : Db) (l : LeadRow) (hu : db.leadIdsUnique)
    (hl : l ∈ db.leads) : Lead.findByGhlLeadId l.ghl_lead_id db = some l := by
  unfold Lead.findByGhlLeadId
  rw [filter_eq_singleton_of_nodup db.leads l hu hl]
  rfl

/-- What a lead-created request does to the leads: nothing, or one row is appended whose
identifier was not stored before. -/
theorem Webhooks.leadCreated_leads (rt : Runtime) (t : Int) (payload : Payload) (db : Db) :
    (Webhooks.leadCreated rt t payload db).2.leads = db.leads
      ∨ (Lead.findByGhlLeadId payload.leadIdOf db = none
          ∧ payload.leadIdOf.truthy = true
          ∧ ∃ row : LeadRow, row.ghl_lead_id = payload.leadIdOf
              ∧ row.first_contacted_at = none
              ∧ (Webhooks.leadCreated rt t payload db).2.leads = db.leads ++ [row]) := by
  by_cases hid : payload.leadIdOf.truthy = true
  · cases hfind : Lead.findByGhlLeadId payload.leadIdOf db with
    | some existing =>
      exact Or.inl (Webhooks.leadCreated_existing rt t payload db existing hid hfind).2.1
    | none =>
      right
      refine ⟨rfl, hid, ?_⟩
      unfold Webhooks.leadCreated Webhooks.leadCreatedTry
      simp only [hid, Bool.not_true, Bool.false_eq_true, if_false]
      by_cases he : payload.setterEmailOf.truthy = true
      · have hf : Lead.findByGhlLeadId payload.leadIdOf
            (AppointmentSetter.findOrCreate payload.setterEmailOf payload.setterNameOf
              (WebhookLog.create "/webhook/lead-created" payload db).2).2 = none := by
          rw [← hfind]
          exact Lead.findByGhlLeadId_congr _ _ _ (by simp)
        simp only [he, Bool.not_true, Bool.false_eq_true, if_false, hf]
        simp only [Lead.create, WebhookLog.markProcessed_leads,
          AppointmentSetter.findOrCreate_leads, WebhookLog.create_leads]
        refine ⟨_, ?_, ?_, rfl⟩ <;> rfl
      · have hf : Lead.findByGhlLeadId payload.leadIdOf
            (WebhookLog.create "/webhook/lead-created" payload db).2 = none := by
          rw [← hfind]
          exact Lead.findByGhlLeadId_congr _ _ _ (by simp)
        simp only [he, Bool.not_false, if_true, hf]
        simp only [Lead.create, WebhookLog.markProcessed_leads,
          AppointmentSetter.findOrCreate_leads, WebhookLog.create_leads]
        refine ⟨_, ?_, ?_, rfl⟩ <;> rfl
  · left
    unfold Webhooks.leadCreated Webhooks.leadCreatedTry
    simp [hid]

/-- What a lead-contacted request does to the leads: nothing, or the rows with its
identifier are rewritten, the row found for it not having been contacted before. -/
theorem Webhooks.leadContacted_leads (rt : Runtime) (t : Int) (payload : Payload) (db : Db) :
    (Webhooks.leadContacted rt t payload db).2.leads = db.leads
      ∨ ∃ (lead : LeadRow) (contactedAt : JsDate) (speed : Option Int),
          Lead.findByGhlLeadId payload.leadIdOf db = some lead
            ∧ lead.first_contacted_at = none
            ∧ (Webhooks.leadContacted rt t payload db).2.leads = db.leads.map fun l =>
                if l.ghl_lead_id = payload.leadIdOf then
                  { l with first_contacted_at := some contactedAt,
                           speed_to_lead_minutes := speed, status := "contacted" }
                else l := by
  by_cases hid : payload.leadIdOf.truthy = true
  · have hcongr : Lead.findByGhlLeadId payload.leadIdOf
        (WebhookLog.create "/webhook/lead-contacted" payload db).2
        = Lead.findByGhlLeadId payload.leadIdOf db :=
      Lead.findByGhlLeadId_congr _ _ _ (by simp)
    cases hfind : Lead.findByGhlLeadId payload.leadIdOf db with
    | none =>
      left
      unfold Webhooks.leadContacted Webhooks.leadContactedTry
      simp [hid, hcongr, hfind]
    | some lead =>
      cases hfc : lead.first_contacted_at with
      | some d =>
        left
        unfold Webhooks.leadContacted Webhooks.leadContactedTry
        simp [hid, hcongr, hfind, hfc]
      | none =>
        by_cases hv : (if payload.contactedAtOf.truthy = true then
            newDate rt.parse payload.contactedAtOf else ⟨some t⟩).time.isNone = true
        · left
          unfold Webhooks.leadContacted Webhooks.leadContactedTry
          simp [hid, hcongr, hfind, hfc, hv]
        · right
          refine ⟨lead,
            (if payload.contactedAtOf.truthy = true then newDate rt.parse payload.contactedAtOf
              else ⟨some t⟩),
            calculateSpeedToLead rt.parse (.date lead.created_at)
              (.date (if payload.contactedAtOf.truthy = true then
                newDate rt.parse payload.contactedAtOf else ⟨some t⟩)),
            rfl, hfc, ?_⟩
          unfold Webhooks.leadContacted Webhooks.leadContactedTry
          simp only [hid, hcongr, hfind, hfc, hv, Bool.not_true, Bool.false_eq_true, if_false,
            Option.isSome_none, Lead.updateContact, WebhookLog.markProcessed_leads,
            WebhookLog.create_leads]
  · left
    unfold Webhooks.leadContacted Webhooks.leadContactedTry
    simp [hid]

theorem Webhooks.leadCreated_new (rt : Runtime) (t : Int) (payload : Payload) (db : Db)
    (hid : payload.leadIdOf.truthy = true)
    (hfind : Lead.findByGhlLeadId payload.leadIdOf db = none) :
    ∃ row : LeadRow, row.ghl_lead_id = payload.leadIdOf ∧ row.first_contacted_at = none
      ∧ (Webhooks.leadCreated rt t payload db).2.leads = db.leads ++ [row] := by
  rcases Webhooks.leadCreated_leads rt t payload db with h | ⟨-, -, h⟩
  · exfalso
    revert h
    unfold Webhooks.leadCreated Webhooks.leadCreatedTry
    simp only [hid, Bool.not_true, Bool.false_eq_true, if_false]
    by_cases he : payload.setterEmailOf.truthy = true
    · have hf : Lead.findByGhlLeadId payload.leadIdOf
          (AppointmentSetter.findOrCreate payload.setterEmailOf payload.setterNameOf
            (WebhookLog.create "/webhook/lead-created" payload db).2).2 = none := by
        rw [← hfind]
        exact Lead.findByGhlLeadId_congr _ _ _ (by simp)
      simp [he, hf, Lead.create]
    · have hf : Lead.findByGhlLeadId payload.leadIdOf
          (WebhookLog.create "/webhook/lead-created" payload db).2 = none := by
        rw [← hfind]
        exact Lead.findByGhlLeadId_congr _ _ _ (by simp)
      simp [he, hf, Lead.create]
  · exact h

theorem Webhooks.handle_leadIdsUnique (rt : Runtime) (e : Event) (db : Db)
    (hu : db.leadIdsUnique) : (Webhooks.handle rt e db).2.leadIdsUnique := by
  unfold Db.leadIdsUnique at hu ⊢
  cases e with
  | leadCreated t payload =>
    rcases Webhooks.leadCreated_leads rt t payload db with h | ⟨hnone, -, row, hrow, -, h⟩
    · simpa only [Webhooks.handle, h] using hu
    · simp only [Webhooks.handle, h, List.map_append, List.map_cons, List.map_nil]
      rw [List.nodup_append]
      refine ⟨hu, List.nodup_singleton _, ?_⟩
      intro a ha hb
      rw [List.mem_singleton] at hb
      obtain ⟨l, hl, rfl⟩ := List.mem_map.1 ha
      exact (Lead.findByGhlLeadId_eq_none _ _).1 hnone l hl (hb.trans hrow)
  | leadContacted t payload =>
    rcases Webhooks.leadContacted_leads rt t payload db with h | ⟨lead, c, s, -, -, h⟩
    · simpa only [Webhooks.handle, h] using hu
    · simp only [Webhooks.handle, h, List.map_map]
      have : ((fun l : LeadRow => l.ghl_lead_id) ∘ fun l : LeadRow =>
          if l.ghl_lead_id = payload.leadIdOf then
            { l with first_contacted_at := some c, speed_to_lead_minutes := s,
                     status := "contacted" }
          else l) = fun l : LeadRow => l.ghl_lead_id := by
        funext l
        simp only [Function.comp]
        split <;> rfl
      rw [this]
      exact hu

theorem Webhooks.handle_keeps_contacted (rt : Runtime) (e : Event) (db : Db)
    (hu : db.leadIdsUnique) (l : LeadRow) (hl : l ∈ db.leads)
    (hc : l.first_contacted_at ≠ none) : l ∈ (Webhooks.handle rt e db).2.leads := by
  cases e with
  | leadCreated t payload =>
    rcases Webhooks.leadCreated_leads rt t payload db with h | ⟨-, -, row, -, -, h⟩
    · simpa only [Webhooks.handle, h] using hl
    · simp only [Webhooks.handle, h]
      exact List.mem_append_left _ hl
  | leadContacted t payload =>
    rcases Webhooks.leadContacted_leads rt t payload db with h | ⟨lead, c, s, hfind, hfc, h⟩
    · simpa only [Webhooks.handle, h] using hl
    · simp only [Webhooks.handle, h]
      have hne : l.ghl_lead_id ≠ payload.leadIdOf := by
        intro heq
        have h1 := Lead.findByGhlLeadId_of_mem db l hu hl
        rw [heq, hfind] at h1
        injection h1 with h1
        exact hc (h1 ▸ hfc)
      exact List.mem_map.2 ⟨l, hl, by simp [hne]⟩

theorem Webhooks.handle_leadIdsTruthy (rt : Runtime) (e : Event) (db : Db)
    (ht : db.leadIdsTruthy) : (Webhooks.handle rt e db).2.leadIdsTruthy := by
  unfold Db.leadIdsTruthy at ht ⊢
  cases e with
  | leadCreated t payload =>
    rcases Webhooks.leadCreated_leads rt t payload db with h | ⟨-, hid, row, hrow, -, h⟩
    · simpa only [Webhooks.handle, h] using ht
    · simp only [Webhooks.handle, h]
      intro l hl
      rcases List.mem_append.1 hl with hl | hl
      · exact ht l hl
      · rw [List.mem_singleton] at hl
        rw [hl, hrow]; exact hid
  | leadContacted t payload =>
    rcases Webhooks.leadContacted_leads rt t payload db with h | ⟨lead, c, s, -, -, h⟩
    · simpa only [Webhooks.handle, h] using ht
    · simp only [Webhooks.handle, h]
      intro l hl
      obtain ⟨l0, hl0, rfl⟩ := List.mem_map.1 hl
      have := ht l0 hl0
      split <;> exact this

/-- Every sequence of requests keeps the lead identifiers distinct and truthy; the empty
store has both properties. -/
theorem Webhooks.run_reachable (rt : Runtime) (events : List Event) (db : Db)
    (hu : db.leadIdsUnique) (ht : db.leadIdsTruthy) :
    (Webhooks.run rt events db).leadIdsUnique ∧ (Webhooks.run rt events db).leadIdsTruthy := by
  induction events generalizing db with
  | nil => exact ⟨hu, ht⟩
  | cons e rest ih =>
    exact ih _ (Webhooks.handle_leadIdsUnique rt e db hu)
      (Webhooks.handle_leadIdsTruthy rt e db ht)

theorem Webhooks.run_leadIdsUnique (rt : Runtime) (events : List Event) (db : Db)
    (hu : db.leadIdsUnique) : (Webhooks.run rt events db).leadIdsUnique := by
  induction events generalizing db with
  | nil => exact hu
  | cons e rest ih =>
    exact ih _ (Webhooks.handle_leadIdsUnique rt e db hu)

theorem Webhooks.run_keeps_contacted (rt : Runtime) (events : List Event) (db : Db)
    (hu : db.leadIdsUnique) (l : LeadRow) (hl : l ∈ db.leads)
    (hc : l.first_contacted_at ≠ none) : l ∈ (Webhooks.run rt events db).leads := by
  induction events generalizing db with
  | nil => exact hl
  | cons e rest ih =>
    exact ih _ (Webhooks.handle_leadIdsUnique rt e db hu)
      (Webhooks.handle_keeps_contacted rt e db hu l hl hc)

/-! ### Claims on the reports and the webhook handlers -/

/-- Among the rows a per-setter aggregate selects, those counted as contacted are at most
all of them. -/
theorem Lead.getStatsBySetter_contacted_le (setterId : Nat) (db : Db) :
    (Lead.getStatsBySetter setterId db).contacted_leads
      ≤ (Lead.getStatsBySetter setterId db).total_leads :=
  List.length_filter_le _ _

/-- The expression `Math.round((contacted / total) * 100)`, quotient and product rounded
to the nearest double, lies in 0 .. 100 when `contacted ≤ total` and `total > 0`. -/
theorem contact_rate_bounds (contacted total : Nat) (ht : 0 < total) (hle : contacted ≤ total) :
    0 ≤ Math.round (toDouble (toDouble ((contacted : ℚ) / (total : ℚ)) * 100))
      ∧ Math.round (toDouble (toDouble ((contacted : ℚ) / (total : ℚ)) * 100)) ≤ 100 := by
  have ht' : (0 : ℚ) < (total : ℚ) := by exact_mod_cast ht
  have h0 : (0 : ℚ) ≤ (contacted : ℚ) / (total : ℚ) := by positivity
  have h1 : (contacted : ℚ) / (total : ℚ) ≤ 1 := by
    rw [div_le_one ht']; exact_mod_cast hle
  have hq := toDouble_rel ((contacted : ℚ) / (total : ℚ))
  rw [abs_of_nonneg h0] at hq
  generalize (contacted : ℚ) / (total : ℚ) = x at h0 h1 hq
  generalize toDouble x = q at hq
  have hq2 := abs_le.1 hq
  norm_num at hq2
  have hq0 : 0 ≤ q := by nlinarith [hq2.1]
  have hq1 : q ≤ 1 + 1 / 2 ^ 53 := by nlinarith [hq2.2]
  have hp := toDouble_rel (q * 100)
  rw [abs_of_nonneg (mul_nonneg hq0 (by norm_num) : (0 : ℚ) ≤ q * 100)] at hp
  generalize toDouble (q * 100) = r at hp
  have hp2 := abs_le.1 hp
  norm_num at hp2 hq1
  unfold Math.round
  constructor
  · apply Int.floor_nonneg.2
    nlinarith [hp2.1]
  · have : ⌊r + 1 / 2⌋ < 101 := by
      rw [Int.floor_lt]
      push_cast
      nlinarith [hp2.2]
    omega

/-- For 23 contacted leads out of 40 the product computed in doubles is below 57.5, and
the rate is 57. -/
theorem contact_rate_23_of_40 :
    Math.round (toDouble (toDouble ((23 : ℚ) / 40) * 100)) = 57 := by decide!

/-- C7, at the input that breaks it: after two leads without a setter were created and
contacted and a third lead with a setter was created, three leads are stored, yet
`GET /api/reports/overall` counts `total_leads = 1` (the join of `Lead.findAll` drops the
leads without a setter), `contacted_leads = 2`, and reports `contact_rate = 200`. -/
theorem Reports.overall_contact_rate_exceeds_100 :
    (Webhooks.run sampleRuntime contactRateEvents {}).leads.length = 3
      ∧ (Reports.overall sampleRuntime
          (Webhooks.run sampleRuntime contactRateEvents {})).stats.total_leads = 1
      ∧ (Reports.overall sampleRuntime
          (Webhooks.run sampleRuntime contactRateEvents {})).stats.contacted_leads = 2
      ∧ (Reports.overall sampleRuntime
          (Webhooks.run sampleRuntime contactRateEvents {})).stats.contact_rate = 200 := by
  decide!

/-- C8: in a store whose lead identifiers are distinct, let `l` be a lead with its
first-contact timestamp set. Every lead-contacted request for the identifier of `l`,
whatever timestamp it carries, is answered 200 "Lead already marked as contacted" with
`l` as it was, and leaves all leads (so `first_contacted_at`, `speed_to_lead_minutes` and
`status` of `l`) and all setters unchanged; and after any sequence of requests the row
`l` is still stored unchanged. -/
theorem Webhooks.leadContacted_idempotent (rt : Runtime) (db : Db) (l : LeadRow)
    (hu : db.leadIdsUnique) (hl : l ∈ db.leads) (hc : l.first_contacted_at ≠ none)
    (hid : l.ghl_lead_id.truthy = true) :
    (∀ (t : Int) (payload : Payload), payload.leadIdOf = l.ghl_lead_id →
        (Webhooks.leadContacted rt t payload db).1
            = ⟨200, .lead "Lead already marked as contacted" (some l)⟩
          ∧ (Webhooks.leadContacted rt t payload db).2.leads = db.leads
          ∧ (Webhooks.leadContacted rt t payload db).2.appointment_setters
              = db.appointment_setters)
      ∧ (∀ events : List Event, l ∈ (Webhooks.run rt events db).leads) := by
  refine ⟨?_, fun events => Webhooks.run_keeps_contacted rt events db hu l hl hc⟩
  intro t payload hp
  have hfind : Lead.findByGhlLeadId payload.leadIdOf db = some l := by
    rw [hp]; exact Lead.findByGhlLeadId_of_mem db l hu hl
  have hcongr : Lead.findByGhlLeadId payload.leadIdOf
      (WebhookLog.create "/webhook/lead-contacted" payload db).2 = some l := by
    rw [← hfind]
    exact Lead.findByGhlLeadId_congr _ _ _ (by simp)
  have hsome : l.first_contacted_at.isSome = true := Option.isSome_iff_ne_none.2 hc
  have hid' : payload.leadIdOf.truthy = true := hp ▸ hid
  unfold Webhooks.leadContacted Webhooks.leadContactedTry
  simp [hid', hcongr, hsome]

/-- Witness of C8: a second contact event, sixty minutes later, for the contacted lead of
the sample store. -/
theorem Webhooks.leadContacted_idempotent_witness :
    (Webhooks.leadContacted sampleRuntime 3600000 { id := .str "a" } sampleSpeedsDb).1
        = ⟨200, .lead "Lead already marked as contacted" (some sampleContactedLead)⟩
      ∧ (Webhooks.leadContacted sampleRuntime 3600000 { id := .str "a" } sampleSpeedsDb).2.leads
        = sampleSpeedsDb.leads
      ∧ (Webhooks.leadContacted sampleRuntime 3600000 { id := .str "a" }
          sampleSpeedsDb).2.appointment_setters = sampleSpeedsDb.appointment_setters :=
  (Webhooks.leadContacted_idempotent sampleRuntime sampleSpeedsDb sampleContactedLead
    (by decide) (by decide) (by decide) (by decide)).1 3600000 { id := .str "a" } (by decide)

/-- C9: a lead-created request whose identifier is stored is answered 200 "Lead already
exists" with the stored record and leaves the list of leads as it was (none added, no
field changed); so, in a store whose lead identifiers are distinct, after the same request
was submitted twice exactly one stored lead has that identifier, the second submission
having changed no lead and answered with the stored record. -/
theorem Webhooks.leadCreated_idempotent (rt : Runtime) (db : Db) (payload : Payload)
    (hid : payload.leadIdOf.truthy = true) :
    (∀ (t : Int) (existing : LeadRow),
        Lead.findByGhlLeadId payload.leadIdOf db = some existing →
        (Webhooks.leadCreated rt t payload db).1
            = ⟨200, .lead "Lead already exists" (some existing)⟩
          ∧ (Webhooks.leadCreated rt t payload db).2.leads = db.leads)
      ∧ (db.leadIdsUnique → ∀ t1 t2 : Int,
          ∃ stored : LeadRow,
            ((Webhooks.leadCreated rt t2 payload
                (Webhooks.leadCreated rt t1 payload db).2).2.leads.filter
              fun l => l.ghl_lead_id = payload.leadIdOf) = [stored]
            ∧ (Webhooks.leadCreated rt t2 payload (Webhooks.leadCreated rt t1 payload db).2).1
                = ⟨200, .lead "Lead already exists" (some stored)⟩
            ∧ (Webhooks.leadCreated rt t2 payload (Webhooks.leadCreated rt t1 payload db).2).2.leads
                = (Webhooks.leadCreated rt t1 payload db).2.leads) := by
  constructor
  · intro t existing hfind
    have h := Webhooks.leadCreated_existing rt t payload db existing hid hfind
    exact ⟨h.1, h.2.1⟩
  · intro hu t1 t2
    have hu1 : (Webhooks.leadCreated rt t1 payload db).2.leadIdsUnique :=
      Webhooks.handle_leadIdsUnique rt (.leadCreated t1 payload) db hu
    have key : ∃ stored : LeadRow, stored ∈ (Webhooks.leadCreated rt t1 payload db).2.leads
        ∧ stored.ghl_lead_id = payload.leadIdOf := by
      cases hfind : Lead.findByGhlLeadId payload.leadIdOf db with
      | some existing =>
        obtain ⟨hm, hg⟩ := Lead.findByGhlLeadId_eq_some _ _ _ hfind
        refine ⟨existing, ?_, hg⟩
        rw [(Webhooks.leadCreated_existing rt t1 payload db existing hid hfind).2.1]
        exact hm
      | none =>
        obtain ⟨row, hrow, -, hleads⟩ := Webhooks.leadCreated_new rt t1 payload db hid hfind
        exact ⟨row, by rw [hleads]; simp, hrow⟩
    obtain ⟨stored, hmem, hg⟩ := key
    have hfind1 : Lead.findByGhlLeadId payload.leadIdOf (Webhooks.leadCreated rt t1 payload db).2
        = some stored := by
      rw [← hg]; exact Lead.findByGhlLeadId_of_mem _ stored hu1 hmem
    have h2 := Webhooks.leadCreated_existing rt t2 payload _ stored hid hfind1
    refine ⟨stored, ?_, h2.1, h2.2.1⟩
    rw [h2.2.1, ← hg]
    exact filter_eq_singleton_of_nodup _ stored hu1 hmem

/-- Witness of C9: the lead `L1` submitted twice to the empty store. -/
theorem Webhooks.leadCreated_idempotent_witness :
    ∃ stored : LeadRow,
      ((Webhooks.leadCreated sampleRuntime 2000 { id := .str "L1" }
          (Webhooks.leadCreated sampleRuntime 1000 { id := .str "L1" } {}).2).2.leads.filter
        fun l => l.ghl_lead_id = Payload.leadIdOf { id := .str "L1" }) = [stored]
      ∧ (Webhooks.leadCreated sampleRuntime 2000 { id := .str "L1" }
          (Webhooks.leadCreated sampleRuntime 1000 { id := .str "L1" } {}).2).1
          = ⟨200, .lead "Lead already exists" (some stored)⟩
      ∧ (Webhooks.leadCreated sampleRuntime 2000 { id := .str "L1" }
          (Webhooks.leadCreated sampleRuntime 1000 { id := .str "L1" } {}).2).2.leads
          = (Webhooks.leadCreated sampleRuntime 1000 { id := .str "L1" } {}).2.leads :=
  (Webhooks.leadCreated_idempotent sampleRuntime {} { id := .str "L1" } (by decide)).2
    (by decide) 1000 2000

theorem JsVal.or_truthy_right (a b : JsVal) (hb : b.truthy = true) : (a.or b).truthy = true := by
  unfold JsVal.or
  split
  · assumption
  · exact hb

theorem Payload.setterNameOf_truthy (payload : Payload)
    (he : payload.setterEmailOf.truthy = true) : payload.setterNameOf.truthy = true :=
  JsVal.or_truthy_right _ _ he

theorem map_eq_self_apply {α : Type} (f : α → α) (l : List α) (h : l.map f = l) :
    ∀ x ∈ l, f x = x := by
  induction l with
  | nil => intro x hx; exact absurd hx (List.not_mem_nil x)
  | cons a rest ih =>
    rw [List.map_cons, List.cons.injEq] at h
    intro x hx
    rcases List.mem_cons.1 hx with rfl | hx
    · exact h.1
    · exact ih h.2 x hx

/-- When `AppointmentSetter.findOrCreate`, called with a name that is truthy, leaves the
setters as they were: exactly when the first setter stored under the email has that name. -/
theorem AppointmentSetter.findOrCreate_setters_eq_iff (email name : JsVal) (db : Db)
    (hn : name.truthy = true) :
    (AppointmentSetter.findOrCreate email name db).2.appointment_setters
        = db.appointment_setters
      ↔ ∃ s : SetterRow,
          (db.appointment_setters.filter fun a => a.email = email).head? = some s
            ∧ s.name = name := by
  unfold AppointmentSetter.findOrCreate
  cases hf : db.appointment_setters.filter (fun a => a.email = email) with
  | nil =>
    simp only [List.head?_nil, reduceCtorEq, false_and, exists_false, iff_false]
    intro h
    have := congrArg List.length h
    simp at this
  | cons existing0 rest =>
    have hmem : existing0 ∈ db.appointment_setters := by
      have : existing0 ∈ db.appointment_setters.filter (fun a => a.email = email) := by
        rw [hf]; exact List.mem_cons_self _ _
      exact (List.mem_filter.1 this).1
    simp only [List.head?_cons, Option.some.injEq, exists_eq_left', hn, true_and]
    by_cases hne : existing0.name = name
    · simp [hne]
    · simp only [hne, not_false_eq_true, if_true, iff_false, ne_eq]
      intro h
      have h1 := map_eq_self_apply _ _ h existing0 hmem
      simp only [if_true] at h1
      exact hne (congrArg SetterRow.name h1).symm

/-- Counterexample to C10: the store holds the lead `L1` and the setter Alice. A
lead-created request for `L1` carrying the email `bob@x.com` leaves the leads as they are
but adds the setter Bob; one carrying Alice's email and the name `Alicia` renames her. -/
theorem Webhooks.leadCreated_existing_changes_setters :
    Lead.findByGhlLeadId (.str "L1") sampleSetterDb ≠ none
      ∧ (Webhooks.leadCreated sampleRuntime 1000
            { id := .str "L1", email := .str "bob@x.com" } sampleSetterDb).2.leads
          = sampleSetterDb.leads
      ∧ (Webhooks.leadCreated sampleRuntime 1000
            { id := .str "L1", email := .str "bob@x.com" } sampleSetterDb).2.appointment_setters
          = [ { id := 1, email := .str "alice@x.com", name := .str "Alice" },
              { id := 2, email := .str "bob@x.com", name := .str "bob@x.com" } ]
      ∧ (Webhooks.leadCreated sampleRuntime 1000
            { id := .str "L1", email := .str "alice@x.com", name := .str "Alicia" }
            sampleSetterDb).2.appointment_setters
          = [ { id := 1, email := .str "alice@x.com", name := .str "Alicia" } ]
      ∧ (Webhooks.leadCreated sampleRuntime 1000
            { id := .str "L1", email := .str "bob@x.com" } sampleSetterDb).2.appointment_setters
          ≠ sampleSetterDb.appointment_setters := by
  decide

/-- C10, amended: a lead-created request for an identifier that is stored leaves the leads
unchanged; it leaves the appointment setters unchanged exactly when the request yields no
setter email, or the first setter stored under that email already has the name the
request resolves to (its name field, else the email). -/
theorem Webhooks.leadCreated_existing_frame (rt : Runtime) (t : Int) (payload : Payload)
    (db : Db) (existing : LeadRow) (hid : payload.leadIdOf.truthy = true)
    (hfind : Lead.findByGhlLeadId payload.leadIdOf db = some existing) :
    (Webhooks.leadCreated rt t payload db).2.leads = db.leads
      ∧ ((Webhooks.leadCreated rt t payload db).2.appointment_setters = db.appointment_setters
          ↔ (payload.setterEmailOf.truthy = false
              ∨ ∃ s : SetterRow,
                  (db.appointment_setters.filter
                      fun a => a.email = payload.setterEmailOf).head? = some s
                    ∧ s.name = payload.setterNameOf)) := by
  obtain ⟨-, hleads, hset⟩ := Webhooks.leadCreated_existing rt t payload db existing hid hfind
  refine ⟨hleads, ?_⟩
  rw [hset]
  by_cases he : payload.setterEmailOf.truthy = true
  · rw [if_pos he, AppointmentSetter.findOrCreate_setters_eq_iff _ _ _
      (Payload.setterNameOf_truthy payload he)]
    simp [he]
  · simp [he]

/-- Witness of C10, amended: the request names Alice as she is stored, and nothing but the
log changes. -/
theorem Webhooks.leadCreated_existing_frame_witness :
    (Webhooks.leadCreated sampleRuntime 1000
        { id := .str "L1", email := .str "alice@x.com", name := .str "Alice" }
        sampleSetterDb).2.leads = sampleSetterDb.leads
      ∧ (Webhooks.leadCreated sampleRuntime 1000
        { id := .str "L1", email := .str "alice@x.com", name := .str "Alice" }
        sampleSetterDb).2.appointment_setters = sampleSetterDb.appointment_setters :=
  have h := Webhooks.leadCreated_existing_frame sampleRuntime 1000
    { id := .str "L1", email := .str "alice@x.com", name := .str "Alice" } sampleSetterDb
    { id := 1, ghl_lead_id := .str "L1", appointment_setter_id := some 1,
      created_at := ⟨some 0⟩, status := "created" } (by decide) (by decide)
  ⟨h.1, h.2.2 (Or.inr ⟨{ id := 1, email := .str "alice@x.com", name := .str "Alice" },
    by decide, by decide⟩)⟩

/-! ### The log entry of a rejected request -/

theorem lt_insertId (ids : List Nat) : ∀ i ∈ ids, i < insertId ids := by
  induction ids with
  | nil => intro i hi; exact absurd hi (List.not_mem_nil i)
  | cons a rest ih =>
    intro i hi
    simp only [insertId, List.foldr_cons] at ih ⊢
    rcases List.mem_cons.1 hi with rfl | h
    · omega
    · have := ih i h
      omega

/-- The log table after `WebhookLog.create` and then `WebhookLog.markFailed` on the row
created: the old rows, then the new row, processed and with the error. -/
theorem WebhookLog.markFailed_create (e : String) (p : Payload) (m : String) (db : Db) :
    WebhookLog.markFailed (WebhookLog.create e p db).1.id m (WebhookLog.create e p db).2
      = { db with webhook_logs := db.webhook_logs ++
            [{ id := insertId (db.webhook_logs.map (·.id)), endpoint := e, payload := p,
               processed := true, error := some m }] } := by
  have hold : db.webhook_logs.map (fun r =>
      if r.id = insertId (db.webhook_logs.map (·.id)) then
        { r with processed := true, error := some m } else r) = db.webhook_logs := by
    conv_rhs => rw [← List.map_id db.webhook_logs]
    apply List.map_congr_left
    intro r hr
    have := lt_insertId _ r.id (List.mem_map_of_mem (·.id) hr)
    simp only [id]
    rw [if_neg (by omega)]
  simp only [WebhookLog.markFailed, WebhookLog.create, List.map_append, hold, List.map_cons,
    List.map_nil, if_true]

/-- The same for `WebhookLog.markProcessed`. -/
theorem WebhookLog.markProcessed_create (e : String) (p : Payload) (db : Db) :
    WebhookLog.markProcessed (WebhookLog.create e p db).1.id (WebhookLog.create e p db).2
      = { db with webhook_logs := db.webhook_logs ++
            [{ id := insertId (db.webhook_logs.map (·.id)), endpoint := e, payload := p,
               processed := true }] } := by
  have hold : db.webhook_logs.map (fun r =>
      if r.id = insertId (db.webhook_logs.map (·.id)) then
        { r with processed := true } else r) = db.webhook_logs := by
    conv_rhs => rw [← List.map_id db.webhook_logs]
    apply List.map_congr_left
    intro r hr
    have := lt_insertId _ r.id (List.mem_map_of_mem (·.id) hr)
    simp only [id]
    rw [if_neg (by omega)]
  simp only [WebhookLog.markProcessed, WebhookLog.create, List.map_append, hold, List.map_cons,
    List.map_nil, if_true]

theorem Payload.leadIdOf_falsy (payload : Payload) (h1 : payload.lead_id.truthy = false)
    (h2 : payload.leadId.truthy = false) (h3 : payload.id.truthy = false) :
    payload.leadIdOf.truthy = false := by
  simp [Payload.leadIdOf, JsVal.or, h1, h2, h3]

/-- C18: when none of `lead.id`, `leadId`, `id` holds a truthy value, a lead-created and a
lead-contacted request are each answered 400 with details "Missing required field: lead
ID"; the store afterwards is the store before with one more log row, that of the request,
processed and carrying that reason as its error: no lead and no setter is added or
changed. -/
theorem Webhooks.missing_lead_id_rejected (rt : Runtime) (t : Int) (payload : Payload)
    (db : Db) (h1 : payload.lead_id.truthy = false) (h2 : payload.leadId.truthy = false)
    (h3 : payload.id.truthy = false) :
    Webhooks.leadCreated rt t payload db
        = (⟨400, .error "Failed to process webhook" "Missing required field: lead ID"⟩,
           { db with webhook_logs := db.webhook_logs ++
               [{ id := insertId (db.webhook_logs.map (·.id)),
                  endpoint := "/webhook/lead-created", payload := payload,
                  processed := true, error := some "Missing required field: lead ID" }] })
      ∧ Webhooks.leadContacted rt t payload db
        = (⟨400, .error "Failed to process webhook" "Missing required field: lead ID"⟩,
           { db with webhook_logs := db.webhook_logs ++
               [{ id := insertId (db.webhook_logs.map (·.id)),
                  endpoint := "/webhook/lead-contacted", payload := payload,
                  processed := true, error := some "Missing required field: lead ID" }] }) := by
  have hid := Payload.leadIdOf_falsy payload h1 h2 h3
  constructor
  · simp only [Webhooks.leadCreated, Webhooks.leadCreatedTry, hid, Bool.not_false, if_true,
      WebhookLog.markFailed_create]
  · simp only [Webhooks.leadContacted, Webhooks.leadContactedTry, hid, Bool.not_false, if_true,
      WebhookLog.markFailed_create]

/-- Witness of C18: a request whose only field is a timestamp, sent to the store that holds
Alice and her lead. -/
theorem Webhooks.missing_lead_id_rejected_witness :
    Webhooks.leadCreated sampleRuntime 1000 { timestamp := .str "2024-01-15T10:00:00Z" }
        sampleSetterDb
        = (⟨400, .error "Failed to process webhook" "Missing required field: lead ID"⟩,
           { sampleSetterDb with webhook_logs := sampleSetterDb.webhook_logs ++
               [{ id := insertId (sampleSetterDb.webhook_logs.map (·.id)),
                  endpoint := "/webhook/lead-created",
                  payload := { timestamp := .str "2024-01-15T10:00:00Z" },
                  processed := true, error := some "Missing required field: lead ID" }] })
      ∧ Webhooks.leadContacted sampleRuntime 1000 { timestamp := .str "2024-01-15T10:00:00Z" }
        sampleSetterDb
        = (⟨400, .error "Failed to process webhook" "Missing required field: lead ID"⟩,
           { sampleSetterDb with webhook_logs := sampleSetterDb.webhook_logs ++
               [{ id := insertId (sampleSetterDb.webhook_logs.map (·.id)),
                  endpoint := "/webhook/lead-contacted",
                  payload := { timestamp := .str "2024-01-15T10:00:00Z" },
                  processed := true, error := some "Missing required field: lead ID" }] }) :=
  Webhooks.missing_lead_id_rejected sampleRuntime 1000
    { timestamp := .str "2024-01-15T10:00:00Z" } sampleSetterDb rfl rfl rfl

/-- C19: a lead-contacted request whose identifier (truthy) is that of no stored lead is
answered 400 with details "Lead not found: " followed by the identifier; the store
afterwards is the store before with one more log row, that of the request, processed and
carrying that reason as its error: every stored lead is as it was. -/
theorem Webhooks.leadContacted_unknown_lead (rt : Runtime) (t : Int) (payload : Payload)
    (db : Db) (hid : payload.leadIdOf.truthy = true)
    (hnone : ∀ l ∈ db.leads, l.ghl_lead_id ≠ payload.leadIdOf) :
    Webhooks.leadContacted rt t payload db
      = (⟨400, .error "Failed to process webhook"
            ("Lead not found: " ++ payload.leadIdOf.toJsString)⟩,
         { db with webhook_logs := db.webhook_logs ++
             [{ id := insertId (db.webhook_logs.map (·.id)),
                endpoint := "/webhook/lead-contacted", payload := payload,
                processed := true,
                error := some ("Lead not found: " ++ payload.leadIdOf.toJsString) }] }) := by
  have hfind : Lead.findByGhlLeadId payload.leadIdOf
      (WebhookLog.create "/webhook/lead-contacted" payload db).2 = none := by
    rw [Lead.findByGhlLeadId_congr _ _ db (by simp)]
    exact (Lead.findByGhlLeadId_eq_none _ _).2 hnone
  simp only [Webhooks.leadContacted, Webhooks.leadContactedTry, hid, Bool.not_true,
    Bool.false_eq_true, if_false, hfind, WebhookLog.markFailed_create]

/-- Witness of C19: a contact event for `L9`, which the sample store does not hold. -/
theorem Webhooks.leadContacted_unknown_lead_witness :
    Webhooks.leadContacted sampleRuntime 1000 { lead_id := .str "L9" } sampleSetterDb
      = (⟨400, .error "Failed to process webhook" "Lead not found: L9"⟩,
         { sampleSetterDb with webhook_logs :=
             [{ id := 1, endpoint := "/webhook/lead-contacted",
                payload := { lead_id := .str "L9" }, processed := true,
                error := some "Lead not found: L9" }] }) :=
  Webhooks.leadContacted_unknown_lead sampleRuntime 1000 { lead_id := .str "L9" }
    sampleSetterDb rfl (by decide)

/-! ### A lead-created request for a new identifier -/

theorem AppointmentSetter.findOrCreate_fst_congr (email name : JsVal) (db1 db2 : Db)
    (h : db1.appointment_setters = db2.appointment_setters) :
    (AppointmentSetter.findOrCreate email name db1).1
      = (AppointmentSetter.findOrCreate email name db2).1 := by
  unfold AppointmentSetter.findOrCreate
  rw [h]
  split
  · split <;> rfl
  · rfl

theorem Lead.findById_create (leadData : LeadData) (db : Db) :
    (Lead.create leadData db).1
      = some { id := insertId (db.leads.map (·.id)), ghl_lead_id := leadData.ghl_lead_id,
               appointment_setter_id := leadData.appointment_setter_id,
               created_at := leadData.created_at, status := leadData.status,
               metadata := leadData.metadata } := by
  have hold : db.leads.filter (fun l => l.id = insertId (db.leads.map (·.id))) = [] := by
    rw [List.filter_eq_nil_iff]
    intro l hl
    have := lt_insertId _ l.id (List.mem_map_of_mem (·.id) hl)
    simp only [decide_eq_true_eq]
    omega
  simp only [Lead.create, Lead.findById, List.filter_append, hold, List.nil_append,
    List.filter_cons, decide_True, if_true, List.filter_nil, Lead.parseLead]

/-- A lead-created request for an identifier that is not stored: the answer, the leads and
the setters afterwards. -/
theorem Webhooks.leadCreated_new_explicit (rt : Runtime) (t : Int) (payload : Payload)
    (db : Db) (hid : payload.leadIdOf.truthy = true)
    (hfind : Lead.findByGhlLeadId payload.leadIdOf db = none) :
    (Webhooks.leadCreated rt t payload db).1
        = ⟨201, .lead "Lead created successfully" (some (Webhooks.createdRow rt t payload db))⟩
      ∧ (Webhooks.leadCreated rt t payload db).2.leads
          = db.leads ++ [Webhooks.createdRow rt t payload db]
      ∧ (Webhooks.leadCreated rt t payload db).2.appointment_setters
          = if payload.setterEmailOf.truthy then
              (AppointmentSetter.findOrCreate payload.setterEmailOf payload.setterNameOf
                db).2.appointment_setters
            else db.appointment_setters := by
  unfold Webhooks.leadCreated Webhooks.leadCreatedTry
  simp only [hid, Bool.not_true, Bool.false_eq_true, if_false]
  by_cases he : payload.setterEmailOf.truthy = true
  · have hf : Lead.findByGhlLeadId payload.leadIdOf
        (AppointmentSetter.findOrCreate payload.setterEmailOf payload.setterNameOf
          (WebhookLog.create "/webhook/lead-created" payload db).2).2 = none := by
      rw [← hfind]
      exact Lead.findByGhlLeadId_congr _ _ _ (by simp)
    have h1 := AppointmentSetter.findOrCreate_fst_congr payload.setterEmailOf
      payload.setterNameOf (WebhookLog.create "/webhook/lead-created" payload db).2 db
      (by simp)
    simp only [he, Bool.not_true, Bool.false_eq_true, if_false, hf, Lead.findById_create,
      if_true, Webhooks.createdRow, Webhooks.resolvedSetter, Option.map_some', h1]
    refine ⟨?_, ?_, ?_⟩
    · simp
    · simp [Lead.create]
    · simp only [WebhookLog.markProcessed_setters, Lead.create]
      exact AppointmentSetter.findOrCreate_setters_congr _ _ _ _ (by simp)
  · simp only [Bool.not_eq_true] at he
    have hf : Lead.findByGhlLeadId payload.leadIdOf
        (WebhookLog.create "/webhook/lead-created" payload db).2 = none := by
      rw [← hfind]
      exact Lead.findByGhlLeadId_congr _ _ _ (by simp)
    simp only [he, Bool.not_false, if_true, hf, Lead.findById_create, Bool.false_eq_true,
      if_false, Webhooks.createdRow, Webhooks.resolvedSetter, Option.map_none']
    refine ⟨?_, ?_, ?_⟩
    · simp
    · simp [Lead.create]
    · simp [Lead.create]

theorem AppointmentSetter.findOrCreate_fst_mem (email name : JsVal) (db : Db) :
    (AppointmentSetter.findOrCreate email name db).1
        ∈ (AppointmentSetter.findOrCreate email name db).2.appointment_setters
      ∧ (AppointmentSetter.findOrCreate email name db).1.email = email := by
  unfold AppointmentSetter.findOrCreate
  cases hf : db.appointment_setters.filter (fun a => a.email = email) with
  | nil => simp
  | cons existing0 rest =>
    have hmem : existing0 ∈ db.appointment_setters.filter (fun a => a.email = email) := by
      rw [hf]; exact List.mem_cons_self _ _
    obtain ⟨hm, he⟩ := List.mem_filter.1 hmem
    have he' : existing0.email = email := by simpa using he
    by_cases hc : name.truthy = true ∧ existing0.name ≠ name
    · simp only []
      rw [if_pos hc]
      exact ⟨List.mem_map.2 ⟨existing0, hm, by simp⟩, he'⟩
    · simp only []
      rw [if_neg hc]
      exact ⟨hm, he'⟩

theorem Payload.setterEmailOf_falsy_iff (payload : Payload) :
    payload.setterEmailOf.truthy = false
      ↔ payload.appointmentSetter_email.truthy = false ∧ payload.setter_email.truthy = false
          ∧ payload.email.truthy = false := by
  unfold Payload.setterEmailOf JsVal.or
  cases h1 : payload.appointmentSetter_email.truthy <;>
    cases h2 : payload.setter_email.truthy <;>
    cases h3 : payload.email.truthy <;> simp [h1, h2, h3]

/-- C14: a lead-created request for a new identifier appends one lead `row` and answers
201 with it. The row has status 'unassigned' and a null setter reference exactly when the
payload yields no setter email (none of `appointmentSetter.email`, `setter.email`,
`email` is truthy); otherwise it has status 'created' and refers to the setter that
`AppointmentSetter.findOrCreate` found or created for that email, which is stored. The row
never starts as 'contacted': it has no first-contact timestamp. -/
theorem Webhooks.leadCreated_initial_status (rt : Runtime) (t : Int) (payload : Payload)
    (db : Db) (hid : payload.leadIdOf.truthy = true)
    (hnew : ∀ l ∈ db.leads, l.ghl_lead_id ≠ payload.leadIdOf) :
    ∃ row : LeadRow,
      (Webhooks.leadCreated rt t payload db).2.leads = db.leads ++ [row]
        ∧ (Webhooks.leadCreated rt t payload db).1
            = ⟨201, .lead "Lead created successfully" (some row)⟩
        ∧ row.ghl_lead_id = payload.leadIdOf
        ∧ (payload.setterEmailOf.truthy = false
            ↔ payload.appointmentSetter_email.truthy = false
                ∧ payload.setter_email.truthy = false ∧ payload.email.truthy = false)
        ∧ ((row.status = "unassigned" ∧ row.appointment_setter_id = none)
            ↔ payload.setterEmailOf.truthy = false)
        ∧ (payload.setterEmailOf.truthy = true →
            row.status = "created"
              ∧ ∃ s ∈ (Webhooks.leadCreated rt t payload db).2.appointment_setters,
                  s = (AppointmentSetter.findOrCreate payload.setterEmailOf
                        payload.setterNameOf db).1
                    ∧ s.email = payload.setterEmailOf
                    ∧ row.appointment_setter_id = some s.id)
        ∧ row.status ≠ "contacted" ∧ row.first_contacted_at = none
        ∧ row.speed_to_lead_minutes = none := by
  have hfind := (Lead.findByGhlLeadId_eq_none _ _).2 hnew
  obtain ⟨hres, hleads, hset⟩ := Webhooks.leadCreated_new_explicit rt t payload db hid hfind
  refine ⟨Webhooks.createdRow rt t payload db, hleads, hres, rfl,
    Payload.setterEmailOf_falsy_iff payload, ?_, ?_, ?_, rfl, rfl⟩
  · cases he : payload.setterEmailOf.truthy <;>
      simp [Webhooks.createdRow, Webhooks.resolvedSetter, he]
  · intro he
    refine ⟨by simp [Webhooks.createdRow, he], _, ?_, rfl, ?_, ?_⟩
    · rw [hset, if_pos he]
      exact (AppointmentSetter.findOrCreate_fst_mem _ _ _).1
    · exact (AppointmentSetter.findOrCreate_fst_mem _ _ _).2
    · simp [Webhooks.createdRow, Webhooks.resolvedSetter, he]
  · cases he : payload.setterEmailOf.truthy <;> simp [Webhooks.createdRow, he]

/-- Witness of C14: the scenario, a lead-created request without a setter email. -/
theorem Webhooks.leadCreated_initial_status_witness :
    ∃ row : LeadRow,
      (Webhooks.leadCreated sampleRuntime 1000 { id := .str "N1" } {}).2.leads = [] ++ [row]
        ∧ row.status = "unassigned" ∧ row.appointment_setter_id = none := by
  obtain ⟨row, h1, -, -, -, h5, -⟩ :=
    Webhooks.leadCreated_initial_status sampleRuntime 1000 { id := .str "N1" } {}
      (by decide) (by decide)
  exact ⟨row, h1, h5.2 (by decide)⟩

/-! ### The timestamp a request records -/

theorem firstPresent_or (a b c : JsVal) :
    firstPresent [a, b, c]
      = if ((a.or b).or c).truthy then some ((a.or b).or c) else none := by
  unfold firstPresent JsVal.or
  cases h1 : a.truthy <;> cases h2 : b.truthy <;> cases h3 : c.truthy <;>
    simp [List.find?, h1, h2, h3]

theorem Lead.findByGhlLeadId_create_log (ghlLeadId : JsVal) (e : String) (p : Payload)
    (db : Db) :
    Lead.findByGhlLeadId ghlLeadId (WebhookLog.create e p db).2
      = Lead.findByGhlLeadId ghlLeadId db :=
  Lead.findByGhlLeadId_congr _ _ _ (by simp)

/-- A lead-contacted request for a stored lead without first contact, with a contact
timestamp that is a valid date: the answer and the leads afterwards. -/
theorem Webhooks.leadContacted_recorded (rt : Runtime) (t : Int) (payload : Payload) (db : Db)
    (lead : LeadRow) (k : Int) (hid : payload.leadIdOf.truthy = true)
    (hfind : Lead.findByGhlLeadId payload.leadIdOf db = some lead)
    (hfc : lead.first_contacted_at = none)
    (hk : (if payload.contactedAtOf.truthy = true then newDate rt.parse payload.contactedAtOf
            else ⟨some t⟩) = ⟨some k⟩) :
    (∃ updatedLead, (Webhooks.leadContacted rt t payload db).1
        = ⟨200, .contact "Lead contact recorded successfully" updatedLead
            (calculateSpeedToLead rt.parse (.date lead.created_at) (.date ⟨some k⟩))⟩)
      ∧ (Webhooks.leadContacted rt t payload db).2.leads = db.leads.map fun l =>
          if l.ghl_lead_id = payload.leadIdOf then
            { l with first_contacted_at := some ⟨some k⟩,
                     speed_to_lead_minutes :=
                       calculateSpeedToLead rt.parse (.date lead.created_at) (.date ⟨some k⟩),
                     status := "contacted" }
          else l := by
  unfold Webhooks.leadContacted Webhooks.leadContactedTry
  simp only [hid, Bool.not_true, Bool.false_eq_true, if_false, Lead.findByGhlLeadId_create_log,
    hfind, hfc, Option.isSome_none, hk, Option.isNone_some]
  exact ⟨⟨_, rfl⟩, by simp [Lead.updateContact]⟩

/-- A lead-contacted request whose contact timestamp is an Invalid Date changes no lead. -/
theorem Webhooks.leadContacted_invalid (rt : Runtime) (t : Int) (payload : Payload) (db : Db)
    (hk : (if payload.contactedAtOf.truthy = true then newDate rt.parse payload.contactedAtOf
            else ⟨some t⟩).time = none) :
    (Webhooks.leadContacted rt t payload db).2.leads = db.leads := by
  unfold Webhooks.leadContacted Webhooks.leadContactedTry
  by_cases hid : payload.leadIdOf.truthy = true
  · cases hfind : Lead.findByGhlLeadId payload.leadIdOf db with
    | none => simp [hid, Lead.findByGhlLeadId_create_log, hfind]
    | some lead =>
      cases hfc : lead.first_contacted_at with
      | some d => simp [hid, Lead.findByGhlLeadId_create_log, hfind, hfc]
      | none => simp [hid, Lead.findByGhlLeadId_create_log, hfind, hfc, hk]
  · simp [hid]

/-- Counterexample to C11: at server time 5000 a lead-contacted request for the stored,
uncontacted lead `L1` whose `contactedAt` is the text "not a date" is rejected with 400
and no first-contact timestamp is recorded, where the same request without the field is
accepted and records the server time; and the creation timestamp that a lead-created
request with `createdAt` "not a date" hands to `Lead.create` is an Invalid Date, where
the same request without the field hands over the server time. -/
theorem Webhooks.unparseable_timestamp_not_server_time :
    (Webhooks.leadContacted sampleRuntime 5000
        { id := .str "L1", contactedAt := .str "not a date" } sampleSetterDb).1.status = 400
      ∧ (Webhooks.leadContacted sampleRuntime 5000
          { id := .str "L1", contactedAt := .str "not a date" }
          sampleSetterDb).2.leads.map (·.first_contacted_at) = [none]
      ∧ (Webhooks.leadContacted sampleRuntime 5000
          { id := .str "L1" } sampleSetterDb).1.status = 200
      ∧ (Webhooks.leadContacted sampleRuntime 5000
          { id := .str "L1" } sampleSetterDb).2.leads.map (·.first_contacted_at)
          = [some ⟨some 5000⟩]
      ∧ (Webhooks.createdRow sampleRuntime 5000
          { id := .str "N1", createdAt := .str "not a date" } {}).created_at = ⟨none⟩
      ∧ (Webhooks.createdRow sampleRuntime 5000 { id := .str "N1" } {}).created_at
          = ⟨some 5000⟩ := by
  decide!

/-- C11, amended: a timestamp field that is present (truthy) but does not parse as a date
is not treated as absent. The timestamp the handler computes from it, `new Date(field)`,
is an Invalid Date and not the server's receive time: it is the creation timestamp of the
row that the lead-created handler hands to `Lead.create`, and the contact timestamp for
which the lead-contacted handler calls `calculateSpeedToLead`, which returns null for it.
The server's receive time is the timestamp exactly when no timestamp field is present. -/
theorem Webhooks.unparseable_timestamp (rt : Runtime) (t : Int) (payload : Payload)
    (db : Db) :
    (Webhooks.createdRow rt t payload db).created_at = Webhooks.createdAt rt ⟨some t⟩ payload
      ∧ (payload.createdAtOf.truthy = true →
          (newDate rt.parse payload.createdAtOf).time = none →
          Webhooks.createdAt rt ⟨some t⟩ payload = ⟨none⟩
            ∧ Webhooks.createdAt rt ⟨some t⟩ payload ≠ ⟨some t⟩)
      ∧ (payload.createdAtOf.truthy = false →
          Webhooks.createdAt rt ⟨some t⟩ payload = ⟨some t⟩)
      ∧ (payload.contactedAtOf.truthy = true →
          (newDate rt.parse payload.contactedAtOf).time = none →
          Webhooks.contactedAt rt ⟨some t⟩ payload = ⟨none⟩
            ∧ Webhooks.contactedAt rt ⟨some t⟩ payload ≠ ⟨some t⟩
            ∧ ∀ created : JsDate,
                calculateSpeedToLead rt.parse (.date created)
                  (.date (Webhooks.contactedAt rt ⟨some t⟩ payload)) = none)
      ∧ (payload.contactedAtOf.truthy = false →
          Webhooks.contactedAt rt ⟨some t⟩ payload = ⟨some t⟩) := by
  have hinv : ∀ d : JsDate, d.time = none → d = ⟨none⟩ := by
    intro d hd
    cases d with
    | mk time => simp only at hd; rw [hd]
  refine ⟨rfl, ?_, ?_, ?_, ?_⟩
  · intro hp hnone
    have h : Webhooks.createdAt rt ⟨some t⟩ payload = ⟨none⟩ := by
      simp only [Webhooks.createdAt, hp, if_true]
      exact hinv _ hnone
    exact ⟨h, by rw [h]; simp⟩
  · intro hp
    simp [Webhooks.createdAt, hp]
  · intro hp hnone
    have h : Webhooks.contactedAt rt ⟨some t⟩ payload = ⟨none⟩ := by
      simp only [Webhooks.contactedAt, hp, if_true]
      exact hinv _ hnone
    refine ⟨h, by rw [h]; simp, ?_⟩
    intro created
    rw [h]
    cases hc : created.time <;> simp [calculateSpeedToLead, toDate, hc]
  · intro hp
    simp [Webhooks.contactedAt, hp]

/-- Witness of C11, amended: "not a date" does not parse, so the timestamp computed from a
`timestamp` field holding it is an Invalid Date, for both handlers. -/
theorem Webhooks.unparseable_timestamp_witness :
    Webhooks.createdAt sampleRuntime ⟨some 5000⟩ { id := .str "N1", timestamp := .str "not a date" }
        = ⟨none⟩
      ∧ Webhooks.contactedAt sampleRuntime ⟨some 5000⟩
          { id := .str "N1", timestamp := .str "not a date" } = ⟨none⟩ :=
  have h := Webhooks.unparseable_timestamp sampleRuntime 5000
    { id := .str "N1", timestamp := .str "not a date" } sampleSetterDb
  ⟨(h.2.1 (by decide) (by decide)).1, (h.2.2.2.1 (by decide) (by decide)).1⟩

/-- C12: the timestamp a request records. For a lead-created request with a new
identifier: when the first present of `lead.createdAt`, `createdAt`, `timestamp` (in that
order) parses to a date, that date is the creation timestamp of the lead stored; when none
of them is present, it is the server's receive time. For a lead-contacted request that
finds its lead without first contact the same holds of the first-contact timestamp
recorded, with `lead.contactedAt`, `contactedAt`, `timestamp`. -/
theorem Webhooks.timestamp_reconciled (rt : Runtime) (t : Int) (payload : Payload) (db : Db)
    (hid : payload.leadIdOf.truthy = true) :
    ((∀ l ∈ db.leads, l.ghl_lead_id ≠ payload.leadIdOf) →
        ∃ row : LeadRow,
          (Webhooks.leadCreated rt t payload db).2.leads = db.leads ++ [row]
            ∧ (∀ v ms,
                firstPresent [payload.lead_createdAt, payload.createdAt, payload.timestamp]
                  = some v →
                newDate rt.parse v = ⟨some ms⟩ → row.created_at = ⟨some ms⟩)
            ∧ (firstPresent [payload.lead_createdAt, payload.createdAt, payload.timestamp]
                  = none → row.created_at = ⟨some t⟩))
      ∧ (∀ lead : LeadRow, Lead.findByGhlLeadId payload.leadIdOf db = some lead →
          lead.first_contacted_at = none →
          (∀ v ms,
              firstPresent [payload.lead_contactedAt, payload.contactedAt, payload.timestamp]
                = some v →
              newDate rt.parse v = ⟨some ms⟩ →
              { lead with first_contacted_at := some ⟨some ms⟩,
                          speed_to_lead_minutes :=
                            calculateSpeedToLead rt.parse (.date lead.created_at)
                              (.date ⟨some ms⟩),
                          status := "contacted" }
                ∈ (Webhooks.leadContacted rt t payload db).2.leads)
            ∧ (firstPresent [payload.lead_contactedAt, payload.contactedAt, payload.timestamp]
                  = none →
                { lead with first_contacted_at := some ⟨some t⟩,
                            speed_to_lead_minutes :=
                              calculateSpeedToLead rt.parse (.date lead.created_at)
                                (.date ⟨some t⟩),
                            status := "contacted" }
                  ∈ (Webhooks.leadContacted rt t payload db).2.leads)) := by
  constructor
  · intro hnew
    have hfind := (Lead.findByGhlLeadId_eq_none _ _).2 hnew
    obtain ⟨-, hleads, -⟩ := Webhooks.leadCreated_new_explicit rt t payload db hid hfind
    refine ⟨Webhooks.createdRow rt t payload db, hleads, ?_, ?_⟩
    · intro v ms hv hms
      rw [firstPresent_or] at hv
      by_cases hp : payload.createdAtOf.truthy = true
      · have hp' : ((payload.lead_createdAt.or payload.createdAt).or payload.timestamp).truthy
            = true := hp
        rw [if_pos hp'] at hv
        injection hv with hv
        have hv' : payload.createdAtOf = v := hv
        subst hv'
        simp [Webhooks.createdRow, hp, hms]
      · have hp' : ¬ ((payload.lead_createdAt.or payload.createdAt).or payload.timestamp).truthy
            = true := hp
        rw [if_neg hp'] at hv
        exact absurd hv (by simp)
    · intro hv
      rw [firstPresent_or] at hv
      have hp : ¬ payload.createdAtOf.truthy = true := by
        intro hp
        have hp' : ((payload.lead_createdAt.or payload.createdAt).or payload.timestamp).truthy
            = true := hp
        rw [if_pos hp'] at hv
        exact absurd hv (by simp)
      simp [Webhooks.createdRow, hp]
  · intro lead hfind hfc
    have hmem := (Lead.findByGhlLeadId_eq_some _ _ _ hfind)
    constructor
    · intro v ms hv hms
      rw [firstPresent_or] at hv
      by_cases hp : payload.contactedAtOf.truthy = true
      · have hp' : ((payload.lead_contactedAt.or payload.contactedAt).or
            payload.timestamp).truthy = true := hp
        rw [if_pos hp'] at hv
        injection hv with hv
        have hv' : payload.contactedAtOf = v := hv
        subst hv'
        obtain ⟨-, hleads⟩ := Webhooks.leadContacted_recorded rt t payload db lead ms hid hfind
          hfc (by simp [hp, hms])
        rw [hleads]
        exact List.mem_map.2 ⟨lead, hmem.1, by simp [hmem.2]⟩
      · have hp' : ¬ ((payload.lead_contactedAt.or payload.contactedAt).or
            payload.timestamp).truthy = true := hp
        rw [if_neg hp'] at hv
        exact absurd hv (by simp)
    · intro hv
      rw [firstPresent_or] at hv
      have hp : ¬ payload.contactedAtOf.truthy = true := by
        intro hp
        have hp' : ((payload.lead_contactedAt.or payload.contactedAt).or
            payload.timestamp).truthy = true := hp
        rw [if_pos hp'] at hv
        exact absurd hv (by simp)
      obtain ⟨-, hleads⟩ := Webhooks.leadContacted_recorded rt t payload db lead t hid hfind
        hfc (by simp [hp])
      rw [hleads]
      exact List.mem_map.2 ⟨lead, hmem.1, by simp [hmem.2]⟩

/-- Witness of C12: `lead.createdAt` is absent, `createdAt` holds the scenario's instant and
`timestamp` another; the lead stored is created at the instant of `createdAt`. -/
theorem Webhooks.timestamp_reconciled_witness :
    ∃ row : LeadRow,
      (Webhooks.leadCreated sampleRuntime 5000
          { id := .str "N1", createdAt := .str "2024-01-15T10:00:00Z",
            timestamp := .str "2024-01-15T10:07:30Z" } sampleSetterDb).2.leads
          = sampleSetterDb.leads ++ [row]
        ∧ row.created_at = ⟨some (utcMillis 2024 1 15 10 0 0)⟩ := by
  obtain ⟨row, h1, h2, -⟩ :=
    (Webhooks.timestamp_reconciled sampleRuntime 5000
      { id := .str "N1", createdAt := .str "2024-01-15T10:00:00Z",
        timestamp := .str "2024-01-15T10:07:30Z" } sampleSetterDb (by decide)).1 (by decide)
  exact ⟨row, h1, h2 (.str "2024-01-15T10:00:00Z") _ (by decide) (by decide)⟩

/-! ### Elapsed minutes and the two timestamps of a lead -/

theorem calculateSpeedToLead_ne_none_iff (parse : String → Option Int) (created contacted : JsDate) :
    calculateSpeedToLead parse (.date created) (.date contacted) ≠ none
      ↔ ∃ c k : Int, created = ⟨some c⟩ ∧ contacted = ⟨some k⟩ ∧ c ≤ k := by
  obtain ⟨ct⟩ := created
  obtain ⟨kt⟩ := contacted
  cases ct with
  | none => simp [calculateSpeedToLead, toDate]
  | some c =>
    cases kt with
    | none => simp [calculateSpeedToLead, toDate]
    | some k =>
      by_cases h : k < c
      · simp [calculateSpeedToLead, toDate, h]
      · simp only [calculateSpeedToLead, toDate, h, if_false, ne_eq, reduceCtorEq,
          not_false_eq_true, true_iff]
        exact ⟨c, k, rfl, rfl, by omega⟩

/-- What a lead-contacted request does to the leads, in full: nothing, or the rows with
its identifier get the contact timestamp, a valid date, and the elapsed minutes computed
from the creation timestamp of the row found. -/
theorem Webhooks.leadContacted_leads_explicit (rt : Runtime) (t : Int) (payload : Payload)
    (db : Db) :
    (Webhooks.leadContacted rt t payload db).2.leads = db.leads
      ∨ ∃ (lead : LeadRow) (k : Int),
          Lead.findByGhlLeadId payload.leadIdOf db = some lead
            ∧ lead.first_contacted_at = none
            ∧ (Webhooks.leadContacted rt t payload db).2.leads = db.leads.map fun l =>
                if l.ghl_lead_id = payload.leadIdOf then
                  { l with first_contacted_at := some ⟨some k⟩,
                           speed_to_lead_minutes :=
                             calculateSpeedToLead rt.parse (.date lead.created_at)
                               (.date ⟨some k⟩),
                           status := "contacted" }
                else l := by
  by_cases hid : payload.leadIdOf.truthy = true
  · cases hfind : Lead.findByGhlLeadId payload.leadIdOf db with
    | none =>
      left
      unfold Webhooks.leadContacted Webhooks.leadContactedTry
      simp [hid, Lead.findByGhlLeadId_create_log, hfind]
    | some lead =>
      cases hfc : lead.first_contacted_at with
      | some d =>
        left
        unfold Webhooks.leadContacted Webhooks.leadContactedTry
        simp [hid, Lead.findByGhlLeadId_create_log, hfind, hfc]
      | none =>
        cases hk : (if payload.contactedAtOf.truthy = true then
            newDate rt.parse payload.contactedAtOf else ⟨some t⟩) with
        | mk time =>
          cases time with
          | none =>
            exact Or.inl (Webhooks.leadContacted_invalid rt t payload db (by rw [hk]))
          | some k =>
            exact Or.inr ⟨lead, k, rfl, hfc,
              (Webhooks.leadContacted_recorded rt t payload db lead k hid hfind hfc hk).2⟩
  · left
    unfold Webhooks.leadContacted Webhooks.leadContactedTry
    simp [hid]

theorem Webhooks.handle_speedConsistent (rt : Runtime) (e : Event) (db : Db)
    (hu : db.leadIdsUnique) (hc : ∀ l ∈ db.leads, l.speedConsistent) :
    ∀ l ∈ (Webhooks.handle rt e db).2.leads, l.speedConsistent := by
  cases e with
  | leadCreated t payload =>
    rcases Webhooks.leadCreated_leads rt t payload db with h | ⟨-, -, row, -, hfc, h⟩
    · simpa only [Webhooks.handle, h] using hc
    · simp only [Webhooks.handle, h]
      intro l hl
      rcases List.mem_append.1 hl with hl | hl
      · exact hc l hl
      · rw [List.mem_singleton] at hl
        subst hl
        have hnone : l.speed_to_lead_minutes = none := by
          rcases Webhooks.leadCreated_leads rt t payload db with h' | ⟨hfind, hid, -⟩
          · exact absurd (h.symm.trans h') (by simp)
          · have := (Webhooks.leadCreated_new_explicit rt t payload db hid hfind).2.1
            rw [h] at this
            have hrow := List.append_cancel_left this
            simp only [List.cons.injEq, and_true] at hrow
            rw [hrow]
            rfl
        refine ⟨?_, ?_⟩
        · simp [hnone, hfc]
        · intro d hd
          rw [hfc] at hd
          exact absurd hd (by simp)
  | leadContacted t payload =>
    rcases Webhooks.leadContacted_leads_explicit rt t payload db with h | ⟨lead, k, hfind, hfc, h⟩
    · simpa only [Webhooks.handle, h] using hc
    · simp only [Webhooks.handle, h]
      intro l hl
      obtain ⟨l0, hl0, rfl⟩ := List.mem_map.1 hl
      by_cases hg : l0.ghl_lead_id = payload.leadIdOf
      · have heq : l0 = lead := by
          have h1 := Lead.findByGhlLeadId_of_mem db l0 hu hl0
          rw [hg, hfind] at h1
          injection h1 with h1
          exact h1.symm
        subst heq
        simp only [hg, if_true]
        refine ⟨?_, ?_⟩
        · rw [calculateSpeedToLead_ne_none_iff]
          constructor
          · rintro ⟨c, k', h1, h2, h3⟩
            exact ⟨c, k', h1, by rw [h2], h3⟩
          · rintro ⟨c, k', h1, h2, h3⟩
            refine ⟨c, k', h1, ?_, h3⟩
            simp only [Option.some.injEq] at h2
            exact h2
        · intro d hd
          simp only [Option.some.injEq] at hd
          rw [← hd]
          simp
      · simp only [hg, if_false]
        exact hc l0 hl0

theorem Webhooks.run_speedConsistent (rt : Runtime) (events : List Event) (db : Db)
    (hu : db.leadIdsUnique) (hc : ∀ l ∈ db.leads, l.speedConsistent) :
    ∀ l ∈ (Webhooks.run rt events db).leads, l.speedConsistent := by
  induction events generalizing db with
  | nil => exact hc
  | cons e rest ih =>
    exact ih _ (Webhooks.handle_leadIdsUnique rt e db hu)
      (Webhooks.handle_speedConsistent rt e db hu hc)

/-- C13: in every store reached from the empty store by any sequence of lead-created and
lead-contacted requests, the elapsed minutes of a stored lead are not null if and only if
its first-contact timestamp is set and its creation timestamp is a date not later than
it; a first-contact timestamp that is set is always a valid date. -/
theorem Webhooks.run_speed_iff_contact (rt : Runtime) (events : List Event) (l : LeadRow)
    (hl : l ∈ (Webhooks.run rt events {}).leads) :
    (l.speed_to_lead_minutes ≠ none
        ↔ ∃ c k : Int, l.created_at = ⟨some c⟩ ∧ l.first_contacted_at = some ⟨some k⟩
            ∧ c ≤ k)
      ∧ ∀ d : JsDate, l.first_contacted_at = some d → d.time ≠ none :=
  Webhooks.run_speedConsistent rt events {} (by decide)
    (fun l h => absurd h (List.not_mem_nil l)) l hl

/-- Witness of C13: of the two leads of the sample run, the first was contacted seven and a
half minutes after its creation and has 8 elapsed minutes; the second was contacted with a
timestamp before its creation and has none. -/
theorem Webhooks.run_speed_iff_contact_witness :
    (Webhooks.run sampleRuntime speedEvents {}).leads = [speedLeadL1, speedLeadL2]
      ∧ (speedLeadL1.speed_to_lead_minutes ≠ none
          ↔ ∃ c k : Int, speedLeadL1.created_at = ⟨some c⟩
              ∧ speedLeadL1.first_contacted_at = some ⟨some k⟩ ∧ c ≤ k)
      ∧ (speedLeadL2.speed_to_lead_minutes ≠ none
          ↔ ∃ c k : Int, speedLeadL2.created_at = ⟨some c⟩
              ∧ speedLeadL2.first_contacted_at = some ⟨some k⟩ ∧ c ≤ k) :=
  ⟨by decide!,
   (Webhooks.run_speed_iff_contact sampleRuntime speedEvents speedLeadL1 (by decide!)).1,
   (Webhooks.run_speed_iff_contact sampleRuntime speedEvents speedLeadL2 (by decide!)).1⟩

/-! ### The per-setter reports -/

/-- C15, at the input that breaks it: Al has no contacted lead (mean `null`), Bea's elapsed
minutes 0, 0 and 1 have the rounded mean 0, and Cy's mean is 5. `GET /api/stats/by-setter`
ranks Cy, then Al, then Bea: the comparator reads Bea's mean 0 as `Infinity`, so Bea, who
has a numeric mean, comes after Al, whose mean is `null`, and after Cy, whose mean is
larger. -/
theorem StatsRoutes.bySetter_zero_mean_sorts_last :
    (StatsRoutes.bySetter sampleRuntime
        (Webhooks.run sampleRuntime rankingEvents {})).stats_by_setter.map
      (fun e => (e.setter_name, e.stats.avg_speed_minutes))
      = [(.str "Cy", some 5), (.str "Al", none), (.str "Bea", some 0)] := by
  decide!

/-- C16, at the input that breaks it: Bea has three contacted leads, with 0, 0 and 1
elapsed minutes. Her stats block in `GET /api/reports/setters` has `avg_speed_minutes` 0
and `max_speed_minutes` 1, but `min_speed_minutes` is `null`, not 0; Cy, whose only value
is 5, gets 5 for all three. -/
theorem Reports.setters_zero_min_is_null :
    (Reports.setters sampleRuntime (Webhooks.run sampleRuntime rankingEvents {})).setters.map
      (fun e => (e.name, e.stats.contacted_leads, e.stats.avg_speed_minutes,
        e.stats.min_speed_minutes, e.stats.max_speed_minutes))
      = [(.str "Al", 0, none, none, none), (.str "Bea", 3, some 0, none, some 1),
         (.str "Cy", 1, some 5, some 5, some 5)] := by
  decide!

theorem Lead.getStatsBySetter_no_leads (setterId : Nat) (db : Db)
    (h : ∀ l ∈ db.leads, l.appointment_setter_id ≠ some setterId) :
    setterStatsBlock (Lead.getStatsBySetter setterId db)
      = { total_leads := 0, contacted_leads := 0, avg_speed_minutes := none,
          min_speed_minutes := none, max_speed_minutes := none, contact_rate := 0 } := by
  have hf : db.leads.filter (fun l => l.appointment_setter_id = some setterId) = [] := by
    rw [List.filter_eq_nil_iff]
    intro l hl
    simpa using h l hl
  simp [setterStatsBlock, Lead.getStatsBySetter, Lead.aggregate, hf, sqlAvg, orNull]

/-- C17: `GET /api/reports/setters` and `GET /api/stats/by-setter` each list the stored
setters, every one once (their entries are a rearrangement of the setters table, and
`count` is the number of setters); an entry whose setter has no lead carries
`total_leads = 0`, `contacted_leads = 0`, `contact_rate = 0` and `null` for
`avg_speed_minutes`, `min_speed_minutes` and `max_speed_minutes`. -/
theorem Reports.every_setter_listed (rt : Runtime) (db : Db) :
    (Reports.setters rt db).count = db.appointment_setters.length
      ∧ (Reports.setters rt db).setters.length = db.appointment_setters.length
      ∧ ((Reports.setters rt db).setters.map fun e =>
            ({ id := e.id, email := e.email, name := e.name } : SetterRow)).Perm
          db.appointment_setters
      ∧ (StatsRoutes.bySetter rt db).count = db.appointment_setters.length
      ∧ (StatsRoutes.bySetter rt db).stats_by_setter.length = db.appointment_setters.length
      ∧ ((StatsRoutes.bySetter rt db).stats_by_setter.map fun e =>
            ({ id := e.setter_id, email := e.setter_email, name := e.setter_name } :
              SetterRow)).Perm db.appointment_setters
      ∧ (∀ e ∈ (Reports.setters rt db).setters,
          (∀ l ∈ db.leads, l.appointment_setter_id ≠ some e.id) →
          e.stats = { total_leads := 0, contacted_leads := 0, avg_speed_minutes := none,
                      min_speed_minutes := none, max_speed_minutes := none,
                      contact_rate := 0 })
      ∧ (∀ e ∈ (StatsRoutes.bySetter rt db).stats_by_setter,
          (∀ l ∈ db.leads, l.appointment_setter_id ≠ some e.setter_id) →
          e.stats = { total_leads := 0, contacted_leads := 0, avg_speed_minutes := none,
                      min_speed_minutes := none, max_speed_minutes := none,
                      contact_rate := 0 }) := by
  have hperm : (AppointmentSetter.findAll rt db).Perm db.appointment_setters :=
    List.perm_insertionSort _ _
  have hlen : (AppointmentSetter.findAll rt db).length = db.appointment_setters.length :=
    hperm.length_eq
  have hsort : ∀ l : List SetterStatsEntry,
      (l.insertionSort fun a b => compareBySpeed a b).Perm l :=
    fun l => List.perm_insertionSort _ l
  refine ⟨?_, ?_, ?_, ?_, ?_, ?_, ?_, ?_⟩
  · simp [Reports.setters, hlen]
  · simp [Reports.setters, hlen]
  · simp only [Reports.setters, List.map_map]
    have : ((fun e : SetterWithStats => ({ id := e.id, email := e.email, name := e.name } :
        SetterRow)) ∘ fun setter : SetterRow =>
          ({ id := setter.id, email := setter.email, name := setter.name,
             stats := setterStatsBlock (Lead.getStatsBySetter setter.id db) } :
            SetterWithStats)) = id := by
      funext a; rfl
    rw [this, List.map_id]
    exact hperm
  · simp [StatsRoutes.bySetter, List.length_insertionSort, hlen]
  · simp [StatsRoutes.bySetter, List.length_insertionSort, hlen]
  · simp only [StatsRoutes.bySetter]
    refine ((hsort _).map _).trans ?_
    rw [List.map_map]
    have : ((fun e : SetterStatsEntry =>
        ({ id := e.setter_id, email := e.setter_email, name := e.setter_name } : SetterRow)) ∘
          fun setter : SetterRow =>
          ({ setter_id := setter.id, setter_name := setter.name,
             setter_email := setter.email,
             stats := setterStatsBlock (Lead.getStatsBySetter setter.id db) } :
            SetterStatsEntry)) = id := by
      funext a; rfl
    rw [this, List.map_id]
    exact hperm
  · intro e he hno
    simp only [Reports.setters, List.mem_map] at he
    obtain ⟨a, -, rfl⟩ := he
    exact Lead.getStatsBySetter_no_leads a.id db hno
  · intro e he hno
    simp only [StatsRoutes.bySetter] at he
    have he' := (hsort _).subset he
    simp only [List.mem_map] at he'
    obtain ⟨a, -, rfl⟩ := he'
    exact Lead.getStatsBySetter_no_leads a.id db hno

/-! ### The handlers on a store whose statements can fail -/

theorem Storage.bind_apply {α β : Type} (m : Storage α) (f : α → Storage β) (s : Session) :
    (m >>= f) s = match m s with
      | (.ok a, s1) => f a s1
      | (.error e, s1) => (.error e, s1) := rfl

theorem Storage.pure_apply {α : Type} (a : α) (s : Session) :
    (Pure.pure a : Storage α) s = (.ok a, s) := rfl

theorem Storage.execute_ok {α : Type} (fault : FaultPlan) (statement : Db → α × Db)
    (s : Session) (h : fault s.issued = none) :
    Storage.execute fault statement s
      = (.ok (statement s.db).1, { db := (statement s.db).2, issued := s.issued + 1 }) := by
  simp [Storage.execute, h]

theorem Storage.execute_error {α : Type} (fault : FaultPlan) (statement : Db → α × Db)
    (s : Session) (e : JsError) (h : fault s.issued = some e) :
    Storage.execute fault statement s = (.error e, { s with issued := s.issued + 1 }) := by
  simp [Storage.execute, h]

theorem Faulty.WebhookLog.create_noFault (endpoint : String) (payload : Payload) (s : Session) :
    Faulty.WebhookLog.create (fun _ => none) endpoint payload s
      = (.ok (SpeedToLead.WebhookLog.create endpoint payload s.db).1,
         { db := (SpeedToLead.WebhookLog.create endpoint payload s.db).2,
           issued := s.issued + 2 }) := by
  simp [Faulty.WebhookLog.create, Storage.bind_apply, Storage.execute, Storage.pure_apply]

theorem Faulty.AppointmentSetter.findOrCreate_noFault (email name : JsVal) (s : Session) :
    ∃ n, Faulty.AppointmentSetter.findOrCreate (fun _ => none) email name s
      = (.ok (SpeedToLead.AppointmentSetter.findOrCreate email name s.db).1,
         { db := (SpeedToLead.AppointmentSetter.findOrCreate email name s.db).2,
           issued := n }) := by
  unfold Faulty.AppointmentSetter.findOrCreate SpeedToLead.AppointmentSetter.findOrCreate
  simp only [Storage.bind_apply, Storage.execute]
  cases hf : s.db.appointment_setters.filter (fun a => a.email = email) with
  | nil =>
    exact ⟨s.issued + 1 + 1 + 1,
      by simp [Storage.bind_apply, Storage.execute, Storage.pure_apply]⟩
  | cons existing0 rest =>
    by_cases hc : name.truthy = true ∧ existing0.name ≠ name
    · exact ⟨s.issued + 1 + 1,
        by simp [hc, Storage.bind_apply, Storage.execute, Storage.pure_apply]⟩
    · refine ⟨s.issued + 1, ?_⟩
      simp only [hc, if_false]
      rfl

theorem Faulty.Lead.createLead_noFault (leadData : LeadData) (s : Session) :
    Faulty.Lead.create (fun _ => none) leadData s
      = (.ok (SpeedToLead.Lead.create leadData s.db).1,
         { db := (SpeedToLead.Lead.create leadData s.db).2, issued := s.issued + 2 }) := by
  simp [Faulty.Lead.create, SpeedToLead.Lead.create, Storage.bind_apply, Storage.execute]

theorem Faulty.Lead.updateContact_noFault (ghlLeadId : JsVal) (contactedAt : JsDate)
    (speed : Option Int) (s : Session) :
    Faulty.Lead.updateContact (fun _ => none) ghlLeadId contactedAt speed s
      = (.ok (SpeedToLead.Lead.updateContact ghlLeadId contactedAt speed s.db).1,
         { db := (SpeedToLead.Lead.updateContact ghlLeadId contactedAt speed s.db).2,
           issued := s.issued + 2 }) := by
  simp [Faulty.Lead.updateContact, Faulty.Lead.findByGhlLeadId, SpeedToLead.Lead.updateContact,
    Storage.bind_apply, Storage.execute]

/-- On a store that does not fail, the statement-by-statement handler of lead-contacted
answers as `Webhooks.leadContacted` does and leaves the same store. -/
theorem Faulty.leadContacted_noFault (rt : Runtime) (t : Int) (payload : Payload)
    (s : Session) :
    (Faulty.leadContacted rt (fun _ => none) t payload s).1
        = .answered (Webhooks.leadContacted rt t payload s.db).1
      ∧ (Faulty.leadContacted rt (fun _ => none) t payload s).2.db
        = (Webhooks.leadContacted rt t payload s.db).2 := by
  unfold Faulty.leadContacted Webhooks.leadContacted
  rw [Faulty.WebhookLog.create_noFault]
  simp only []
  unfold Faulty.leadContactedTry Webhooks.leadContactedTry
  by_cases hid : payload.leadIdOf.truthy = true
  · simp only [hid, Bool.not_true, Bool.false_eq_true, if_false, Storage.bind_apply,
      Faulty.Lead.findByGhlLeadId, Storage.execute]
    cases hfind : SpeedToLead.Lead.findByGhlLeadId payload.leadIdOf
        (SpeedToLead.WebhookLog.create "/webhook/lead-contacted" payload s.db).2 with
    | none =>
      simp [Storage.throw, Faulty.catchBlock, Faulty.WebhookLog.markFailed, Storage.execute]
    | some lead =>
      cases hfc : lead.first_contacted_at with
      | some d =>
        simp [ite_apply, hfc, Storage.bind_apply, Faulty.WebhookLog.markProcessed,
          Storage.execute, Storage.pure_apply]
      | none =>
        by_cases hv : (if payload.contactedAtOf.truthy = true then
            newDate rt.parse payload.contactedAtOf else ⟨some t⟩).time.isNone = true
        · simp [ite_apply, hfc, hv, Storage.throw, Faulty.catchBlock,
            Faulty.WebhookLog.markFailed, Storage.execute]
        · simp [ite_apply, hfc, hv, Storage.bind_apply, Faulty.Lead.updateContact_noFault,
            Faulty.WebhookLog.markProcessed, Storage.execute, Storage.pure_apply]
  · simp [hid, Storage.throw, Faulty.catchBlock, Faulty.WebhookLog.markFailed,
      Storage.execute]

/-- On a store that does not fail, the statement-by-statement handler of lead-created
answers as `Webhooks.leadCreated` does and leaves the same store. -/
theorem Faulty.leadCreated_noFault (rt : Runtime) (t : Int) (payload : Payload)
    (s : Session) :
    (Faulty.leadCreated rt (fun _ => none) t payload s).1
        = .answered (Webhooks.leadCreated rt t payload s.db).1
      ∧ (Faulty.leadCreated rt (fun _ => none) t payload s).2.db
        = (Webhooks.leadCreated rt t payload s.db).2 := by
  unfold Faulty.leadCreated Webhooks.leadCreated
  rw [Faulty.WebhookLog.create_noFault]
  simp only []
  unfold Faulty.leadCreatedTry Webhooks.leadCreatedTry
  by_cases hid : payload.leadIdOf.truthy = true
  · simp only [hid, Bool.not_true, Bool.false_eq_true, if_false, Storage.bind_apply]
    by_cases he : payload.setterEmailOf.truthy = true
    · obtain ⟨n, hn⟩ := Faulty.AppointmentSetter.findOrCreate_noFault payload.setterEmailOf
        payload.setterNameOf
        { db := (SpeedToLead.WebhookLog.create "/webhook/lead-created" payload s.db).2,
          issued := s.issued + 2 }
      simp only [he, Bool.not_true, Bool.false_eq_true, if_false, Storage.bind_apply, hn,
        Storage.pure_apply, Faulty.Lead.findByGhlLeadId, Storage.execute]
      cases hfind : SpeedToLead.Lead.findByGhlLeadId payload.leadIdOf
          (SpeedToLead.AppointmentSetter.findOrCreate payload.setterEmailOf
            payload.setterNameOf
            (SpeedToLead.WebhookLog.create "/webhook/lead-created" payload s.db).2).2 with
      | some existing =>
        simp [hfind, Storage.bind_apply, Faulty.WebhookLog.markProcessed, Storage.execute,
          Storage.pure_apply]
      | none =>
        simp [hfind, Storage.bind_apply, Faulty.Lead.createLead_noFault,
          Faulty.WebhookLog.markProcessed, Storage.execute, Storage.pure_apply]
    · simp only [he, Bool.not_false, if_true, Storage.pure_apply,
        Faulty.Lead.findByGhlLeadId, Storage.execute]
      cases hfind : SpeedToLead.Lead.findByGhlLeadId payload.leadIdOf
          (SpeedToLead.WebhookLog.create "/webhook/lead-created" payload s.db).2 with
      | some existing =>
        simp [hfind, Storage.bind_apply, Faulty.WebhookLog.markProcessed, Storage.execute,
          Storage.pure_apply]
      | none =>
        simp [hfind, Storage.bind_apply, Faulty.Lead.createLead_noFault,
          Faulty.WebhookLog.markProcessed, Storage.execute, Storage.pure_apply]
  · simp [hid, Storage.throw, Faulty.catchBlock, Faulty.WebhookLog.markFailed,
      Storage.execute]

theorem Storage.keeps_pure {α : Type} (I : Db → Prop) (a : α) :
    Storage.Keeps I (Pure.pure a : Storage α) := fun _ h => h

theorem Storage.keeps_throw {α : Type} (I : Db → Prop) (e : JsError) :
    Storage.Keeps I (Storage.throw e : Storage α) := fun _ h => h

theorem Storage.keeps_execute {α : Type} (I : Db → Prop) (fault : FaultPlan)
    (statement : Db → α × Db) (h : ∀ db, I db → I (statement db).2) :
    Storage.Keeps I (Storage.execute fault statement) := by
  intro s hs
  unfold Storage.execute
  split
  · exact hs
  · exact h _ hs

theorem Storage.keepsOnError_execute {α : Type} (I : Db → Prop) (fault : FaultPlan)
    (statement : Db → α × Db) : Storage.KeepsOnError I (Storage.execute fault statement) := by
  intro s hs e s1 h
  unfold Storage.execute at h
  split at h
  · injection h with _ h2
    rw [← h2]; exact hs
  · injection h with h1 _
    exact absurd h1 (by simp)

theorem Storage.Keeps.onError {α : Type} {I : Db → Prop} {m : Storage α}
    (h : Storage.Keeps I m) : Storage.KeepsOnError I m := by
  intro s hs e s1 hm
  have := h s hs
  rw [hm] at this
  exact this

theorem Storage.keeps_bind {α β : Type} {I : Db → Prop} {m : Storage α} {f : α → Storage β}
    (hm : Storage.Keeps I m) (hf : ∀ a, Storage.Keeps I (f a)) :
    Storage.Keeps I (m >>= f) := by
  intro s hs
  have h1 := hm s hs
  rw [Storage.bind_apply]
  cases hr : m s with
  | mk r s1 =>
    rw [hr] at h1
    cases r with
    | ok a => exact hf a s1 h1
    | error e => exact h1

theorem Storage.keepsOnError_bind {α β : Type} {I : Db → Prop} {m : Storage α}
    {f : α → Storage β} (hm : Storage.Keeps I m) (hf : ∀ a, Storage.KeepsOnError I (f a)) :
    Storage.KeepsOnError I (m >>= f) := by
  intro s hs e s2 h
  have h1 := hm s hs
  rw [Storage.bind_apply] at h
  cases hr : m s with
  | mk r s1 =>
    rw [hr] at h h1
    cases r with
    | ok a => exact hf a s1 h1 e s2 h
    | error e1 =>
      simp only [Prod.mk.injEq] at h
      rw [← h.2]; exact h1

theorem Storage.keepsOnError_bind_pure {α β : Type} {I : Db → Prop} {m : Storage α}
    (g : α → β) (hm : Storage.KeepsOnError I m) :
    Storage.KeepsOnError I (m >>= fun a => (Pure.pure (g a) : Storage β)) := by
  intro s hs e s2 h
  rw [Storage.bind_apply] at h
  cases hr : m s with
  | mk r s1 =>
    rw [hr] at h
    cases r with
    | ok a =>
      simp only [Storage.pure_apply, Prod.mk.injEq, reduceCtorEq, false_and] at h
    | error e1 =>
      simp only [Prod.mk.injEq, Except.error.injEq] at h
      exact hm s hs e1 s1 (by rw [hr]) |> fun h' => h.2 ▸ h'

theorem Faulty.AppointmentSetter.findOrCreate_keeps (fault : FaultPlan) (email name : JsVal)
    (log : LogRow) :
    Storage.Keeps (fun db => log ∈ db.webhook_logs)
      (Faulty.AppointmentSetter.findOrCreate fault email name) := by
  unfold Faulty.AppointmentSetter.findOrCreate
  refine Storage.keeps_bind (Storage.keeps_execute _ _ _ fun _ h => h) ?_
  intro existing
  split
  · split
    · exact Storage.keeps_bind (Storage.keeps_execute _ _ _ fun _ h => h)
        fun _ => Storage.keeps_pure _ _
    · exact Storage.keeps_pure _ _
  · refine Storage.keeps_bind (Storage.keeps_execute _ _ _ fun _ h => h) ?_
    intro row
    exact Storage.keeps_bind (Storage.keeps_execute _ _ _ fun _ h => h)
      fun _ => Storage.keeps_pure _ _

theorem Faulty.Lead.findByGhlLeadId_keeps (fault : FaultPlan) (ghlLeadId : JsVal)
    (log : LogRow) :
    Storage.Keeps (fun db => log ∈ db.webhook_logs)
      (Faulty.Lead.findByGhlLeadId fault ghlLeadId) :=
  Storage.keeps_execute _ _ _ fun _ h => h

theorem Faulty.Lead.create_keeps (fault : FaultPlan) (leadData : LeadData) (log : LogRow) :
    Storage.Keeps (fun db => log ∈ db.webhook_logs) (Faulty.Lead.create fault leadData) := by
  unfold Faulty.Lead.create
  exact Storage.keeps_bind (Storage.keeps_execute _ _ _ fun _ h => h)
    fun _ => Storage.keeps_execute _ _ _ fun _ h => h

theorem Faulty.Lead.updateContact_keeps (fault : FaultPlan) (ghlLeadId : JsVal)
    (contactedAt : JsDate) (speed : Option Int) (log : LogRow) :
    Storage.Keeps (fun db => log ∈ db.webhook_logs)
      (Faulty.Lead.updateContact fault ghlLeadId contactedAt speed) := by
  unfold Faulty.Lead.updateContact
  exact Storage.keeps_bind (Storage.keeps_execute _ _ _ fun _ h => h)
    fun _ => Faulty.Lead.findByGhlLeadId_keeps _ _ _

/-- When the `try` block of lead-contacted throws, the log row of the request is still
stored as it was written. -/
theorem Faulty.leadContactedTry_keepsOnError (rt : Runtime) (fault : FaultPlan)
    (d : JsDate) (payload : Payload) (webhookLog log : LogRow) :
    Storage.KeepsOnError (fun db => log ∈ db.webhook_logs)
      (Faulty.leadContactedTry rt fault d payload webhookLog) := by
  unfold Faulty.leadContactedTry
  simp only []
  generalize (if payload.contactedAtOf.truthy = true then newDate rt.parse payload.contactedAtOf
    else d) = contactedAt
  split
  · exact (Storage.keeps_throw _ _).onError
  · refine Storage.keepsOnError_bind (Faulty.Lead.findByGhlLeadId_keeps _ _ _) ?_
    intro lead
    split
    · exact (Storage.keeps_throw _ _).onError
    · split
      · exact Storage.keepsOnError_bind_pure _ (Storage.keepsOnError_execute _ _ _)
      · split
        · exact (Storage.keeps_throw _ _).onError
        · refine Storage.keepsOnError_bind (Faulty.Lead.updateContact_keeps _ _ _ _ _) ?_
          intro updated
          exact Storage.keepsOnError_bind_pure _ (Storage.keepsOnError_execute _ _ _)

/-- When the `try` block of lead-created throws, the log row of the request is still
stored as it was written. -/
theorem Faulty.leadCreatedTry_keepsOnError (rt : Runtime) (fault : FaultPlan)
    (d : JsDate) (payload : Payload) (webhookLog log : LogRow) :
    Storage.KeepsOnError (fun db => log ∈ db.webhook_logs)
      (Faulty.leadCreatedTry rt fault d payload webhookLog) := by
  unfold Faulty.leadCreatedTry
  simp only []
  generalize (if payload.createdAtOf.truthy = true then newDate rt.parse payload.createdAtOf
    else d) = createdAt
  split
  · exact (Storage.keeps_throw _ _).onError
  · split
    · refine Storage.keepsOnError_bind (Storage.keeps_pure _ _) ?_
      intro resolved
      refine Storage.keepsOnError_bind (Faulty.Lead.findByGhlLeadId_keeps _ _ _) ?_
      intro existingLead
      split
      · exact Storage.keepsOnError_bind_pure _ (Storage.keepsOnError_execute _ _ _)
      · refine Storage.keepsOnError_bind (Faulty.Lead.create_keeps _ _ _) ?_
        intro lead
        exact Storage.keepsOnError_bind_pure _ (Storage.keepsOnError_execute _ _ _)
    · refine Storage.keepsOnError_bind (Faulty.AppointmentSetter.findOrCreate_keeps _ _ _ _) ?_
      intro found
      refine Storage.keepsOnError_bind (Storage.keeps_pure _ _) ?_
      intro resolved
      refine Storage.keepsOnError_bind (Faulty.Lead.findByGhlLeadId_keeps _ _ _) ?_
      intro existingLead
      split
      · exact Storage.keepsOnError_bind_pure _ (Storage.keepsOnError_execute _ _ _)
      · refine Storage.keepsOnError_bind (Faulty.Lead.create_keeps _ _ _) ?_
        intro lead
        exact Storage.keepsOnError_bind_pure _ (Storage.keepsOnError_execute _ _ _)

/-! ### Rejected statements surface as the error thrown -/

theorem Storage.surfaces_pure {α : Type} (fault : FaultPlan) (a : α) :
    Storage.Surfaces fault (Pure.pure a : Storage α) := by
  intro s
  refine ⟨le_refl _, ?_⟩
  intro n err h1 h2
  rw [Storage.pure_apply] at h2
  exact absurd h2 (by simp only; omega)

theorem Storage.surfaces_throw {α : Type} (fault : FaultPlan) (e : JsError) :
    Storage.Surfaces fault (Storage.throw e : Storage α) := by
  intro s
  refine ⟨le_refl _, ?_⟩
  intro n err h1 h2
  simp only [Storage.throw] at h2
  omega

theorem Storage.surfaces_execute {α : Type} (fault : FaultPlan) (statement : Db → α × Db) :
    Storage.Surfaces fault (Storage.execute fault statement) := by
  intro s
  cases hf : fault s.issued with
  | some e =>
    rw [Storage.execute_error _ _ _ _ hf]
    refine ⟨by simp, ?_⟩
    intro n err h1 h2 h3
    simp only at h2
    have hn : n = s.issued := by omega
    subst hn
    rw [hf] at h3
    simp only [Option.some.injEq] at h3
    subst h3
    exact ⟨rfl, rfl⟩
  | none =>
    rw [Storage.execute_ok _ _ _ hf]
    refine ⟨by simp, ?_⟩
    intro n err h1 h2 h3
    simp only at h2
    have hn : n = s.issued := by omega
    subst hn
    rw [hf] at h3
    exact absurd h3 (by simp)

theorem Storage.surfaces_bind {α β : Type} {fault : FaultPlan} {m : Storage α}
    {f : α → Storage β} (hm : Storage.Surfaces fault m)
    (hf : ∀ a, Storage.Surfaces fault (f a)) : Storage.Surfaces fault (m >>= f) := by
  intro s
  obtain ⟨hle, hsurf⟩ := hm s
  rw [Storage.bind_apply]
  cases hr : m s with
  | mk r s1 =>
    rw [hr] at hle hsurf
    simp only at hle hsurf
    cases r with
    | ok a =>
      obtain ⟨hle2, hsurf2⟩ := hf a s1
      simp only
      refine ⟨le_trans hle hle2, ?_⟩
      intro n err h1 h2 h3
      by_cases hn : n < s1.issued
      · exact absurd (hsurf n err h1 hn h3).1 (by simp)
      · exact hsurf2 n err (by omega) h2 h3
    | error e =>
      simp only
      refine ⟨hle, ?_⟩
      intro n err h1 h2 h3
      obtain ⟨ha, hb⟩ := hsurf n err h1 h2 h3
      simp only [Except.error.injEq] at ha
      exact ⟨by rw [ha], hb⟩

theorem Faulty.WebhookLog.markProcessed_surfaces (fault : FaultPlan) (id : Nat) :
    Storage.Surfaces fault (Faulty.WebhookLog.markProcessed fault id) :=
  Storage.surfaces_execute _ _

theorem Faulty.AppointmentSetter.findOrCreate_surfaces (fault : FaultPlan)
    (email name : JsVal) :
    Storage.Surfaces fault (Faulty.AppointmentSetter.findOrCreate fault email name) := by
  unfold Faulty.AppointmentSetter.findOrCreate
  refine Storage.surfaces_bind (Storage.surfaces_execute _ _) ?_
  intro existing
  split
  · split
    · exact Storage.surfaces_bind (Storage.surfaces_execute _ _)
        fun _ => Storage.surfaces_pure _ _
    · exact Storage.surfaces_pure _ _
  · refine Storage.surfaces_bind (Storage.surfaces_execute _ _) ?_
    intro row
    exact Storage.surfaces_bind (Storage.surfaces_execute _ _)
      fun _ => Storage.surfaces_pure _ _

theorem Faulty.Lead.findByGhlLeadId_surfaces (fault : FaultPlan) (ghlLeadId : JsVal) :
    Storage.Surfaces fault (Faulty.Lead.findByGhlLeadId fault ghlLeadId) :=
  Storage.surfaces_execute _ _

theorem Faulty.Lead.create_surfaces (fault : FaultPlan) (leadData : LeadData) :
    Storage.Surfaces fault (Faulty.Lead.create fault leadData) := by
  unfold Faulty.Lead.create
  exact Storage.surfaces_bind (Storage.surfaces_execute _ _)
    fun _ => Storage.surfaces_execute _ _

theorem Faulty.Lead.updateContact_surfaces (fault : FaultPlan) (ghlLeadId : JsVal)
    (contactedAt : JsDate) (speed : Option Int) :
    Storage.Surfaces fault (Faulty.Lead.updateContact fault ghlLeadId contactedAt speed) := by
  unfold Faulty.Lead.updateContact
  exact Storage.surfaces_bind (Storage.surfaces_execute _ _)
    fun _ => Faulty.Lead.findByGhlLeadId_surfaces _ _

/-- In the `try` block of lead-contacted a rejected statement is the last one issued, and
its error is the error thrown. -/
theorem Faulty.leadContactedTry_surfaces (rt : Runtime) (fault : FaultPlan) (d : JsDate)
    (payload : Payload) (webhookLog : LogRow) :
    Storage.Surfaces fault (Faulty.leadContactedTry rt fault d payload webhookLog) := by
  unfold Faulty.leadContactedTry
  simp only []
  generalize (if payload.contactedAtOf.truthy = true then newDate rt.parse payload.contactedAtOf
    else d) = contactedAt
  split
  · exact Storage.surfaces_throw _ _
  · refine Storage.surfaces_bind (Faulty.Lead.findByGhlLeadId_surfaces _ _) ?_
    intro lead
    split
    · exact Storage.surfaces_throw _ _
    · split
      · exact Storage.surfaces_bind (Faulty.WebhookLog.markProcessed_surfaces _ _)
          fun _ => Storage.surfaces_pure _ _
      · split
        · exact Storage.surfaces_throw _ _
        · refine Storage.surfaces_bind (Faulty.Lead.updateContact_surfaces _ _ _ _) ?_
          intro updated
          exact Storage.surfaces_bind (Faulty.WebhookLog.markProcessed_surfaces _ _)
            fun _ => Storage.surfaces_pure _ _

/-- In the `try` block of lead-created a rejected statement is the last one issued, and
its error is the error thrown. -/
theorem Faulty.leadCreatedTry_surfaces (rt : Runtime) (fault : FaultPlan) (d : JsDate)
    (payload : Payload) (webhookLog : LogRow) :
    Storage.Surfaces fault (Faulty.leadCreatedTry rt fault d payload webhookLog) := by
  unfold Faulty.leadCreatedTry
  simp only []
  generalize (if payload.createdAtOf.truthy = true then newDate rt.parse payload.createdAtOf
    else d) = createdAt
  split
  · exact Storage.surfaces_throw _ _
  · split
    · refine Storage.surfaces_bind (Storage.surfaces_pure _ _) ?_
      intro resolved
      refine Storage.surfaces_bind (Faulty.Lead.findByGhlLeadId_surfaces _ _) ?_
      intro existingLead
      split
      · exact Storage.surfaces_bind (Faulty.WebhookLog.markProcessed_surfaces _ _)
          fun _ => Storage.surfaces_pure _ _
      · refine Storage.surfaces_bind (Faulty.Lead.create_surfaces _ _) ?_
        intro lead
        exact Storage.surfaces_bind (Faulty.WebhookLog.markProcessed_surfaces _ _)
          fun _ => Storage.surfaces_pure _ _
    · refine Storage.surfaces_bind (Faulty.AppointmentSetter.findOrCreate_surfaces _ _ _) ?_
      intro found
      refine Storage.surfaces_bind (Storage.surfaces_pure _ _) ?_
      intro resolved
      refine Storage.surfaces_bind (Faulty.Lead.findByGhlLeadId_surfaces _ _) ?_
      intro existingLead
      split
      · exact Storage.surfaces_bind (Faulty.WebhookLog.markProcessed_surfaces _ _)
          fun _ => Storage.surfaces_pure _ _
      · refine Storage.surfaces_bind (Faulty.Lead.create_surfaces _ _) ?_
        intro lead
        exact Storage.surfaces_bind (Faulty.WebhookLog.markProcessed_surfaces _ _)
          fun _ => Storage.surfaces_pure _ _

/-- When the two statements of `WebhookLog.create` are accepted, it returns the row it
inserted, and two statements were issued. -/
theorem Faulty.WebhookLog.create_accepted (fault : FaultPlan) (endpoint : String)
    (payload : Payload) (s : Session) (h0 : fault s.issued = none)
    (h1 : fault (s.issued + 1) = none) :
    Faulty.WebhookLog.create fault endpoint payload s
      = (.ok (SpeedToLead.WebhookLog.create endpoint payload s.db).1,
         { db := (SpeedToLead.WebhookLog.create endpoint payload s.db).2,
           issued := s.issued + 2 }) := by
  simp [Faulty.WebhookLog.create, Storage.bind_apply, Storage.execute, Storage.pure_apply,
    h0, h1]

/-- A log row that `WebhookLog.create` returned is stored, with the endpoint and the
payload of the request, not yet processed and without an error. -/
theorem Faulty.WebhookLog.create_ok (fault : FaultPlan) (endpoint : String)
    (payload : Payload) (s s1 : Session) (log : LogRow)
    (h : Faulty.WebhookLog.create fault endpoint payload s = (.ok log, s1)) :
    log ∈ s1.db.webhook_logs ∧ log.endpoint = endpoint ∧ log.payload = payload
      ∧ log.processed = false ∧ log.error = none := by
  unfold Faulty.WebhookLog.create at h
  rw [Storage.bind_apply] at h
  cases h0 : fault s.issued with
  | some e => simp [Storage.execute, h0] at h
  | none =>
    rw [Storage.execute_ok _ _ _ h0] at h
    simp only [Storage.bind_apply] at h
    cases h1 : fault (s.issued + 1) with
    | some e => simp [Storage.execute, h1, Storage.pure_apply] at h
    | none =>
      simp [Storage.execute, h1, Storage.pure_apply, SpeedToLead.WebhookLog.create] at h
      obtain ⟨rfl, rfl⟩ := h
      simp

/-- A row of the log, once `WebhookLog.markFailed` ran for its id, is stored as processed
with the error message. -/
theorem WebhookLog.markFailed_mem (log : LogRow) (error : String) (db : Db)
    (h : log ∈ db.webhook_logs) :
    { log with processed := true, error := some error }
      ∈ (WebhookLog.markFailed log.id error db).webhook_logs := by
  simp only [WebhookLog.markFailed, List.mem_map]
  exact ⟨log, h, by simp⟩

/-- The `catch` block on a stored log row: when the `UPDATE` of `markFailed` succeeds the
answer is 400 with the message of the error as details and the row is stored as processed
with that message; when it is rejected the error of the `UPDATE` goes to `errorHandler`
and the row stays as it was. -/
theorem Faulty.catchBlock_logged (fault : FaultPlan) (log : LogRow) (error : JsError)
    (s : Session) (h : log ∈ s.db.webhook_logs) :
    (fault s.issued = none →
        (Faulty.catchBlock fault (some log) error s).1
            = .answered ⟨400, .error "Failed to process webhook" error.message⟩
          ∧ { log with processed := true, error := some error.message }
              ∈ (Faulty.catchBlock fault (some log) error s).2.db.webhook_logs)
      ∧ (∀ e2, fault s.issued = some e2 →
        (Faulty.catchBlock fault (some log) error s).1 = .passedOn (errorHandler e2)
          ∧ (Faulty.catchBlock fault (some log) error s).2.db = s.db) := by
  constructor
  · intro h0
    simp only [Faulty.catchBlock, Faulty.WebhookLog.markFailed, Storage.execute_ok _ _ _ h0]
    exact ⟨trivial, WebhookLog.markFailed_mem log error.message s.db h⟩
  · intro e2 h2
    simp only [Faulty.catchBlock, Faulty.WebhookLog.markFailed,
      Storage.execute_error _ _ _ _ h2]
    exact ⟨trivial, trivial⟩

/-- What the handler does when its `try` block throws after the event was logged: the
`catch` block runs `WebhookLog.markFailed`, and the answer is 400 with the message of the
error when that `UPDATE` succeeds, and comes from `errorHandler` when it is rejected. -/
theorem Faulty.handle_of_try_error (rt : Runtime) (fault : FaultPlan) (e : Event)
    (s s1 s2 : Session) (log : LogRow) (err : JsError)
    (hlog : Faulty.WebhookLog.create fault e.endpoint e.payload s = (.ok log, s1))
    (htry : Faulty.tryBlock rt fault e log s1 = (.error err, s2)) :
    log.payload = e.payload
      ∧ (fault s2.issued = none →
          (Faulty.handle rt fault e s).1
              = .answered ⟨400, .error "Failed to process webhook" err.message⟩
            ∧ { log with processed := true, error := some err.message }
                ∈ (Faulty.handle rt fault e s).2.db.webhook_logs)
      ∧ (∀ e2, fault s2.issued = some e2 →
          (Faulty.handle rt fault e s).1 = .passedOn (errorHandler e2)
            ∧ log ∈ (Faulty.handle rt fault e s).2.db.webhook_logs
            ∧ log.processed = false ∧ log.error = none) := by
  obtain ⟨hmem, -, hpayload, hproc, herr⟩ :=
    Faulty.WebhookLog.create_ok fault e.endpoint e.payload s s1 log hlog
  have hmem2 : log ∈ s2.db.webhook_logs := by
    cases e with
    | leadCreated t payload =>
      exact Faulty.leadCreatedTry_keepsOnError rt fault ⟨some t⟩ payload log log s1 hmem
        err s2 htry
    | leadContacted t payload =>
      exact Faulty.leadContactedTry_keepsOnError rt fault ⟨some t⟩ payload log log s1 hmem
        err s2 htry
  have hhandle : Faulty.handle rt fault e s = Faulty.catchBlock fault (some log) err s2 := by
    cases e with
    | leadCreated t payload =>
      simp only [Event.endpoint, Event.payload, Faulty.tryBlock] at hlog htry
      simp only [Faulty.handle, Faulty.leadCreated, hlog, htry]
    | leadContacted t payload =>
      simp only [Event.endpoint, Event.payload, Faulty.tryBlock] at hlog htry
      simp only [Faulty.handle, Faulty.leadContacted, hlog, htry]
  have hcatch := Faulty.catchBlock_logged fault log err s2 hmem2
  rw [hhandle]
  refine ⟨hpayload, hcatch.1, ?_⟩
  intro e2 h2
  obtain ⟨hres, hdb⟩ := hcatch.2 e2 h2
  exact ⟨hres, by rw [hdb]; exact hmem2, hproc, herr⟩

/-- C20, as stated, fails: on a store holding the uncontacted lead `L1`, a contact request
whose `UPDATE` of the lead is rejected with a lock timeout is answered 400 (a client
error) with the message of the timeout as details. When the connection is lost from that
statement on, the answer comes from `errorHandler` with status 500, and the log row of the
event is left unprocessed and without a failure reason. -/
theorem Faulty.storage_failure_answers_400 :
    (Faulty.handle sampleRuntime lockTimeoutPlan contactL1 { db := sampleSetterDb }).1
        = .answered ⟨400, .error "Failed to process webhook" "Lock wait timeout exceeded"⟩
      ∧ (Faulty.handle sampleRuntime lockTimeoutPlan contactL1
            { db := sampleSetterDb }).2.db.leads = sampleSetterDb.leads
      ∧ (Faulty.handle sampleRuntime connectionLostPlan contactL1 { db := sampleSetterDb }).1
        = .passedOn ⟨500, "Connection lost", none⟩
      ∧ (Faulty.handle sampleRuntime connectionLostPlan contactL1
            { db := sampleSetterDb }).2.db.webhook_logs = [contactL1Log] := by
  decide!

/-- C20, amended: when a storage statement is rejected while a webhook event is being
processed, after the event was logged (the two statements of `WebhookLog.create` were
accepted, and the statement numbered `n` that the `try` block issued was rejected with
`err`), the `catch` block runs `WebhookLog.markFailed` as the next statement. If that
`UPDATE` is accepted, the answer is 400 'Failed to process webhook' with the message of
`err` as details, and the log row of the event is stored with its payload, marked
processed, with that message as its error. If that `UPDATE` is rejected too, its error
reaches `errorHandler`, which answers (500 unless the error code is one it maps to 409,
400 or 503), and the log row is stored as it was written: with its payload, unprocessed
and without a failure reason. -/
theorem Faulty.storage_failure_after_logging (rt : Runtime) (fault : FaultPlan) (e : Event)
    (s : Session) (n : Nat) (err : JsError)
    (h0 : fault s.issued = none) (h1 : fault (s.issued + 1) = none)
    (hn1 : s.issued + 2 ≤ n)
    (hn2 : n <
      (Faulty.tryBlock rt fault e (SpeedToLead.WebhookLog.create e.endpoint e.payload s.db).1
        { db := (SpeedToLead.WebhookLog.create e.endpoint e.payload s.db).2,
          issued := s.issued + 2 }).2.issued)
    (hf : fault n = some err) :
    (SpeedToLead.WebhookLog.create e.endpoint e.payload s.db).1.payload = e.payload
      ∧ (fault (n + 1) = none →
          (Faulty.handle rt fault e s).1
              = .answered ⟨400, .error "Failed to process webhook" err.message⟩
            ∧ { (SpeedToLead.WebhookLog.create e.endpoint e.payload s.db).1 with
                  processed := true, error := some err.message }
                ∈ (Faulty.handle rt fault e s).2.db.webhook_logs)
      ∧ (∀ e2, fault (n + 1) = some e2 →
          (Faulty.handle rt fault e s).1 = .passedOn (errorHandler e2)
            ∧ (SpeedToLead.WebhookLog.create e.endpoint e.payload s.db).1
                ∈ (Faulty.handle rt fault e s).2.db.webhook_logs
            ∧ (SpeedToLead.WebhookLog.create e.endpoint e.payload s.db).1.processed = false
            ∧ (SpeedToLead.WebhookLog.create e.endpoint e.payload s.db).1.error = none) := by
  have hlog := Faulty.WebhookLog.create_accepted fault e.endpoint e.payload s h0 h1
  have hsurf : Storage.Surfaces fault
      (Faulty.tryBlock rt fault e
        (SpeedToLead.WebhookLog.create e.endpoint e.payload s.db).1) := by
    cases e with
    | leadCreated t payload => exact Faulty.leadCreatedTry_surfaces rt fault _ payload _
    | leadContacted t payload => exact Faulty.leadContactedTry_surfaces rt fault _ payload _
  obtain ⟨hres, hlast⟩ := (hsurf _).2 n err hn1 hn2 hf
  have htry : Faulty.tryBlock rt fault e
      (SpeedToLead.WebhookLog.create e.endpoint e.payload s.db).1
      { db := (SpeedToLead.WebhookLog.create e.endpoint e.payload s.db).2,
        issued := s.issued + 2 }
      = (.error err,
         (Faulty.tryBlock rt fault e
            (SpeedToLead.WebhookLog.create e.endpoint e.payload s.db).1
            { db := (SpeedToLead.WebhookLog.create e.endpoint e.payload s.db).2,
              issued := s.issued + 2 }).2) :=
    Prod.ext hres rfl
  have h := Faulty.handle_of_try_error rt fault e s _ _ _ err hlog htry
  rw [← hlast] at h
  exact h

/-- Witness of C20, amended: the `UPDATE` of the lead, statement 3 of the request, is
rejected with a lock timeout; `markFailed` is accepted, the answer is 400 and the log row
carries the message of the timeout. -/
theorem Faulty.storage_failure_after_logging_witness :
    contactL1Log.payload = contactL1.payload
      ∧ (Faulty.handle sampleRuntime lockTimeoutPlan contactL1 { db := sampleSetterDb }).1
          = .answered ⟨400, .error "Failed to process webhook" "Lock wait timeout exceeded"⟩
      ∧ contactL1LogFailed
          ∈ (Faulty.handle sampleRuntime lockTimeoutPlan contactL1
              { db := sampleSetterDb }).2.db.webhook_logs :=
  have h := Faulty.storage_failure_after_logging sampleRuntime lockTimeoutPlan contactL1
    { db := sampleSetterDb } 3
    { message := "Lock wait timeout exceeded", code := some "ER_LOCK_WAIT_TIMEOUT" }
    (by decide) (by decide) (by decide) (by decide!) (by decide)
  ⟨h.1, h.2.1 (by decide)⟩

/-! ### The display helpers -/

theorem jsRem_sixty (m : Int) (h : 0 ≤ m) : jsRem m 60 = m % 60 :=
  Int.tmod_eq_emod h (by norm_num)

/-- Counterexample to C22: 67553994410557496 = 60 × 2^50 + 56 is a double and a
non-negative whole number. Its quotient by 60 rounds to the double 2^50 + 1, and
`formatSpeedToLead` returns "1125899906842625h 56m", while `floor(m/60)` is
1125899906842624. -/
theorem formatSpeedToLead_large_count :
    toDouble ((67553994410557496 : Int) : ℚ) = ((67553994410557496 : Int) : ℚ)
      ∧ (67553994410557496 : Int) / 60 = 1125899906842624
      ∧ (67553994410557496 : Int) % 60 = 56
      ∧ formatSpeedToLead (.number (.num 67553994410557496)) = "1125899906842625h 56m" := by
  decide!

/-- C22, amended: for a whole number of minutes `0 ≤ m < 2^53` (the whole numbers that
JavaScript divides by 60 and renders in decimal digits as exact arithmetic does),
`formatSpeedToLead(m)` is the digits of `m` followed by `m` when `m < 60`; the digits of
`h` followed by `h` when `m ≥ 60` and `m mod 60 = 0`; and otherwise the digits of `h`, `h`,
a blank, the digits of `r` and `m`, with `h = floor(m/60)` and `r = m mod 60`. So 45 gives
"45m", 120 gives "2h", 125 gives "2h 5m" and 8 gives "8m". -/
theorem formatSpeedToLead_cases (m : Int) (hm : 0 ≤ m) (hb : m < 2 ^ 53) :
    (m < 60 → formatSpeedToLead (.number (.num m)) = toString m ++ "m")
      ∧ (60 ≤ m → m % 60 = 0 →
          formatSpeedToLead (.number (.num m)) = toString (m / 60) ++ "h")
      ∧ (60 ≤ m → m % 60 ≠ 0 →
          formatSpeedToLead (.number (.num m))
            = toString (m / 60) ++ "h " ++ toString (m % 60) ++ "m")
      ∧ formatSpeedToLead (.number (.num 45)) = "45m"
      ∧ formatSpeedToLead (.number (.num 120)) = "2h"
      ∧ formatSpeedToLead (.number (.num 125)) = "2h 5m"
      ∧ formatSpeedToLead (.number (.num 8)) = "8m" := by
  refine ⟨?_, ?_, ?_, by decide!, by decide!, by decide!, by decide!⟩
  · intro h
    simp [formatSpeedToLead, numberToString, h]
  · intro h hr
    have h60 : ¬ m < 60 := by omega
    simp only [formatSpeedToLead, numberToString, h60, if_false, floor_toDouble_div_60 m hm hb,
      jsRem_sixty m hm, hr, if_true]
  · intro h hr
    have h60 : ¬ m < 60 := by omega
    simp only [formatSpeedToLead, numberToString, h60, if_false, floor_toDouble_div_60 m hm hb,
      jsRem_sixty m hm, hr]

/-- Witness of C22, amended at 125 minutes. -/
theorem formatSpeedToLead_cases_witness :
    formatSpeedToLead (.number (.num 125)) = toString ((125 : Int) / 60) ++ "h "
      ++ toString ((125 : Int) % 60) ++ "m" :=
  (formatSpeedToLead_cases 125 (by decide) (by decide)).2.2.1 (by decide) (by decide)

/-- C23: `categorizeSpeedToLead` returns 'unknown' for `null` and for `undefined`, and
for a whole number `m` it returns 'excellent' exactly when `m ≤ 5`, 'good' exactly when
`5 < m ≤ 15`, 'fair' exactly when `15 < m ≤ 60` and 'poor' exactly when `m > 60`; 8
minutes is 'good'. -/
theorem categorizeSpeedToLead_buckets (m : Int) :
    categorizeSpeedToLead .null = "unknown"
      ∧ categorizeSpeedToLead .undefined = "unknown"
      ∧ (categorizeSpeedToLead (.number (.num m)) = "excellent" ↔ m ≤ 5)
      ∧ (categorizeSpeedToLead (.number (.num m)) = "good" ↔ 5 < m ∧ m ≤ 15)
      ∧ (categorizeSpeedToLead (.number (.num m)) = "fair" ↔ 15 < m ∧ m ≤ 60)
      ∧ (categorizeSpeedToLead (.number (.num m)) = "poor" ↔ 60 < m)
      ∧ categorizeSpeedToLead (.number (.num m)) ≠ "unknown"
      ∧ categorizeSpeedToLead (.number (.num 8)) = "good" := by
  refine ⟨rfl, rfl, ?_, ?_, ?_, ?_, ?_, by decide⟩ <;>
    · simp only [categorizeSpeedToLead]
      split_ifs <;> simp <;> omega

/-- C30: for every whole number of minutes `m`, for `null` and for `undefined`, the
`formatMinutes` of `Dashboard.js`, of `OverallStats.js` and of `SetterReport.js` each
return the string that the server's `formatSpeedToLead` returns. -/
theorem formatMinutes_eq_formatSpeedToLead (m : Int) :
    Dashboard.formatMinutes (.number (.num m)) = formatSpeedToLead (.number (.num m))
      ∧ OverallStats.formatMinutes (.number (.num m)) = formatSpeedToLead (.number (.num m))
      ∧ SetterReport.formatMinutes (.number (.num m)) = formatSpeedToLead (.number (.num m))
      ∧ Dashboard.formatMinutes .null = formatSpeedToLead .null
      ∧ OverallStats.formatMinutes .null = formatSpeedToLead .null
      ∧ SetterReport.formatMinutes .null = formatSpeedToLead .null
      ∧ Dashboard.formatMinutes .undefined = formatSpeedToLead .undefined
      ∧ OverallStats.formatMinutes .undefined = formatSpeedToLead .undefined
      ∧ SetterReport.formatMinutes .undefined = formatSpeedToLead .undefined := by
  have key : ¬ m < 60 → (jsRem m 60 > 0 ↔ ¬ jsRem m 60 = 0) := by
    intro h
    rw [jsRem_sixty m (by omega)]
    omega
  refine ⟨?_, ?_, ?_, rfl, rfl, rfl, rfl, rfl, rfl⟩
  · simp only [Dashboard.formatMinutes, formatSpeedToLead]
    by_cases h : m < 60
    · simp [h]
    · by_cases hr : jsRem m 60 = 0
      · simp [h, hr]
      · simp [h, hr, (key h).2 hr]
  · simp only [OverallStats.formatMinutes, formatSpeedToLead]
    by_cases h : m < 60
    · simp [h]
    · by_cases hr : jsRem m 60 = 0
      · simp [h, hr]
      · simp [h, hr, (key h).2 hr]
  · simp only [SetterReport.formatMinutes, formatSpeedToLead]
    by_cases h : m < 60
    · simp [h]
    · by_cases hr : jsRem m 60 = 0
      · simp [h, hr]
      · simp [h, hr, (key h).2 hr]

/-! ### The percentile helper on ascending lists -/

theorem sorted_getD_mono (values : List Int) (hs : values.Sorted (· ≤ ·)) (i j : Nat)
    (hij : i ≤ j) (hj : j < values.length) : values.getD i 0 ≤ values.getD j 0 := by
  have hi : i < values.length := lt_of_le_of_lt hij hj
  rw [List.getD_eq_getElem _ _ hi, List.getD_eq_getElem _ _ hj]
  rcases Nat.eq_or_lt_of_le hij with h | h
  · subst h; exact le_refl _
  · exact List.pairwise_iff_getElem.1 hs i j hi hj h

theorem Math.round_mono (x y : ℚ) (h : x ≤ y) : Math.round x ≤ Math.round y :=
  Int.floor_mono (by linarith)

theorem Math.round_between (a b : Int) (x : ℚ) (ha : (a : ℚ) ≤ x) (hb : x ≤ (b : ℚ)) :
    a ≤ Math.round x ∧ Math.round x ≤ b := by
  constructor
  · exact Int.le_floor.2 (by linarith)
  · have : Math.round x < b + 1 := by
      rw [Math.round, Int.floor_lt]
      push_cast
      linarith
    omega

/-- The value between the two neighbours that `_getPercentile` rounds, as a function of
the index: it lies between the element at the floor and the element at the ceiling. -/
theorem interpolation_between (values : List Int) (hs : values.Sorted (· ≤ ·)) (x : ℚ)
    (h0 : 0 ≤ x) (h1 : x ≤ (values.length : ℚ) - 1) :
    ((values.getD ⌊x⌋.toNat 0 : Int) : ℚ)
        ≤ (values.getD ⌊x⌋.toNat 0 : ℚ) * (1 - (x - ⌊x⌋)) + (values.getD ⌈x⌉.toNat 0 : ℚ) * (x - ⌊x⌋)
      ∧ (values.getD ⌊x⌋.toNat 0 : ℚ) * (1 - (x - ⌊x⌋)) + (values.getD ⌈x⌉.toNat 0 : ℚ) * (x - ⌊x⌋)
        ≤ ((values.getD ⌈x⌉.toNat 0 : Int) : ℚ) := by
  have hf0 : 0 ≤ ⌊x⌋ := Int.floor_nonneg.2 h0
  have hfc : ⌊x⌋ ≤ ⌈x⌉ := Int.floor_le_ceil x
  have hc : ⌈x⌉ ≤ (values.length : Int) - 1 := by
    rw [Int.ceil_le]; push_cast; exact h1
  have hle : values.getD ⌊x⌋.toNat 0 ≤ values.getD ⌈x⌉.toNat 0 :=
    sorted_getD_mono values hs _ _ (by omega) (by omega)
  have hleq : ((values.getD ⌊x⌋.toNat 0 : Int) : ℚ) ≤ (values.getD ⌈x⌉.toNat 0 : Int) := by
    exact_mod_cast hle
  have hw0 : 0 ≤ x - ⌊x⌋ := by linarith [Int.floor_le x]
  have hw1 : x - ⌊x⌋ ≤ 1 := by linarith [Int.lt_floor_add_one x]
  constructor <;> nlinarith

theorem percentileSpec_mono_index (values : List Int) (hs : values.Sorted (· ≤ ·)) (x y : ℚ)
    (h0 : 0 ≤ x) (hxy : x ≤ y) (h1 : y ≤ (values.length : ℚ) - 1) :
    (values.getD ⌊x⌋.toNat 0 : ℚ) * (1 - (x - ⌊x⌋)) + (values.getD ⌈x⌉.toNat 0 : ℚ) * (x - ⌊x⌋)
      ≤ (values.getD ⌊y⌋.toNat 0 : ℚ) * (1 - (y - ⌊y⌋))
          + (values.getD ⌈y⌉.toNat 0 : ℚ) * (y - ⌊y⌋) := by
  have hx := interpolation_between values hs x h0 (le_trans hxy h1)
  have hy := interpolation_between values hs y (le_trans h0 hxy) h1
  have hfx0 : 0 ≤ ⌊x⌋ := Int.floor_nonneg.2 h0
  have hcy : ⌈y⌉ ≤ (values.length : Int) - 1 := by
    rw [Int.ceil_le]; push_cast; exact h1
  have hfy : ⌊y⌋ ≤ ⌈y⌉ := Int.floor_le_ceil y
  have hfxy : ⌊x⌋ ≤ ⌊y⌋ := Int.floor_mono hxy
  rcases lt_or_eq_of_le hfxy with hlt | heq
  · -- the ceiling of `x` is at most the floor of `y`
    have hcx : ⌈x⌉ ≤ ⌊y⌋ := by
      have := Int.ceil_le_floor_add_one x
      omega
    have hcx0 : 0 ≤ ⌈x⌉ := le_trans hfx0 (Int.floor_le_ceil x)
    have hmid : values.getD ⌈x⌉.toNat 0 ≤ values.getD ⌊y⌋.toNat 0 :=
      sorted_getD_mono values hs _ _ (by omega) (by omega)
    have hmidq : ((values.getD ⌈x⌉.toNat 0 : Int) : ℚ) ≤ (values.getD ⌊y⌋.toNat 0 : Int) := by
      exact_mod_cast hmid
    linarith [hx.2, hy.1]
  · by_cases hxi : x = ⌊x⌋
    · -- `x` is whole: the value at `x` is the element at its floor
      have : (values.getD ⌊x⌋.toNat 0 : ℚ) * (1 - (x - ⌊x⌋))
          + (values.getD ⌈x⌉.toNat 0 : ℚ) * (x - ⌊x⌋) = (values.getD ⌊x⌋.toNat 0 : Int) := by
        have hz : x - ⌊x⌋ = 0 := by linarith
        rw [hz]; ring
      rw [this, heq]
      exact hy.1
    · -- both lie strictly inside the same cell, so they share the ceiling too
      have hxgt : (⌊x⌋ : ℚ) < x := lt_of_le_of_ne (Int.floor_le x) (Ne.symm hxi)
      have hcxe : ⌈x⌉ = ⌊x⌋ + 1 := by
        rw [Int.ceil_eq_iff]
        push_cast
        constructor
        · linarith
        · linarith [Int.lt_floor_add_one x]
      have hcye : ⌈y⌉ = ⌊x⌋ + 1 := by
        rw [Int.ceil_eq_iff]
        push_cast
        constructor
        · linarith
        · have := Int.lt_floor_add_one y
          rw [← heq] at this
          linarith
      rw [← heq, hcye, ← hcxe]
      have hle : values.getD ⌊x⌋.toNat 0 ≤ values.getD ⌈x⌉.toNat 0 :=
        sorted_getD_mono values hs _ _ (by omega) (by omega)
      have hleq : ((values.getD ⌊x⌋.toNat 0 : Int) : ℚ) ≤ (values.getD ⌈x⌉.toNat 0 : Int) := by
        exact_mod_cast hle
      nlinarith

theorem percentileSpec_mono (values : List Int) (hne : values ≠ [])
    (hs : values.Sorted (· ≤ ·)) (P Q : ℚ) (h0 : 0 ≤ P) (hPQ : P ≤ Q) (h100 : Q ≤ 100) :
    percentileSpec values P ≤ percentileSpec values Q := by
  have hn : (1 : ℚ) ≤ (values.length : ℚ) := by
    exact_mod_cast List.length_pos.2 hne
  have hn1 : (0 : ℚ) ≤ (values.length : ℚ) - 1 := by linarith
  have hx0 : 0 ≤ (P / 100) * ((values.length : ℚ) - 1) :=
    mul_nonneg (by positivity) hn1
  have hxy : (P / 100) * ((values.length : ℚ) - 1) ≤ (Q / 100) * ((values.length : ℚ) - 1) :=
    mul_le_mul_of_nonneg_right (by linarith) hn1
  have hy1 : (Q / 100) * ((values.length : ℚ) - 1) ≤ (values.length : ℚ) - 1 := by
    have : Q / 100 ≤ 1 := by rw [div_le_one (by norm_num)]; exact h100
    calc (Q / 100) * ((values.length : ℚ) - 1) ≤ 1 * ((values.length : ℚ) - 1) :=
          mul_le_mul_of_nonneg_right this hn1
      _ = (values.length : ℚ) - 1 := one_mul _
  simp only [percentileSpec]
  exact Math.round_mono _ _ (percentileSpec_mono_index values hs _ _ hx0 hxy hy1)

theorem percentileSpec_between (values : List Int) (hne : values ≠ [])
    (hs : values.Sorted (· ≤ ·)) (P : ℚ) (h0 : 0 ≤ P) (h100 : P ≤ 100) :
    values.head hne ≤ percentileSpec values P
      ∧ percentileSpec values P ≤ values.getLast hne := by
  have hpos : 0 < values.length := List.length_pos.2 hne
  obtain ⟨hlo, hmid, hhi⟩ := percentile_index_bounds values.length hpos P h0 h100
  have hn : (1 : ℚ) ≤ (values.length : ℚ) := by exact_mod_cast hpos
  have hn1 : (0 : ℚ) ≤ (values.length : ℚ) - 1 := by linarith
  have hx0 : 0 ≤ (P / 100) * ((values.length : ℚ) - 1) :=
    mul_nonneg (by positivity) hn1
  have hx1 : (P / 100) * ((values.length : ℚ) - 1) ≤ (values.length : ℚ) - 1 := by
    have : P / 100 ≤ 1 := by rw [div_le_one (by norm_num)]; exact h100
    calc (P / 100) * ((values.length : ℚ) - 1) ≤ 1 * ((values.length : ℚ) - 1) :=
          mul_le_mul_of_nonneg_right this hn1
      _ = (values.length : ℚ) - 1 := one_mul _
  have hb := interpolation_between values hs _ hx0 hx1
  have hhead : values.head hne = values.getD 0 0 := by
    rw [List.getD_eq_getElem _ _ hpos, List.head_eq_getElem]
  have hlast : values.getLast hne = values.getD (values.length - 1) 0 := by
    rw [List.getD_eq_getElem _ _ (by omega), List.getLast_eq_getElem]
  have h1 : values.getD 0 0
      ≤ values.getD ⌊(P / 100) * ((values.length : ℚ) - 1)⌋.toNat 0 :=
    sorted_getD_mono values hs _ _ (by omega) (by omega)
  have h2 : values.getD ⌈(P / 100) * ((values.length : ℚ) - 1)⌉.toNat 0
      ≤ values.getD (values.length - 1) 0 :=
    sorted_getD_mono values hs _ _ (by omega) (by omega)
  have h1q : ((values.getD 0 0 : Int) : ℚ)
      ≤ (values.getD ⌊(P / 100) * ((values.length : ℚ) - 1)⌋.toNat 0 : Int) := by
    exact_mod_cast h1
  have h2q : ((values.getD ⌈(P / 100) * ((values.length : ℚ) - 1)⌉.toNat 0 : Int) : ℚ)
      ≤ (values.getD (values.length - 1) 0 : Int) := by
    exact_mod_cast h2
  rw [hhead, hlast]
  simp only [percentileSpec]
  exact Math.round_between _ _ _ (le_trans h1q hb.1) (le_trans hb.2 h2q)

/-- C28: for a non-empty ascending list of whole numbers of length n and `0 ≤ P ≤ 100`,
`Lead._getPercentile` reads inside the list (`0 ≤ lower ≤ upper ≤ n - 1`, so both reads
find an element) and returns a whole number between the first and the last element. For
a list of one element it returns that element, whatever `P` is. -/
theorem Lead.getPercentile_in_bounds (values : List Int) (P : ℚ) (hne : values ≠ [])
    (hs : values.Sorted (· ≤ ·)) (h0 : 0 ≤ P) (h100 : P ≤ 100) :
    0 ≤ ⌊(P / 100) * ((values.length : ℚ) - 1)⌋
      ∧ ⌊(P / 100) * ((values.length : ℚ) - 1)⌋ ≤ ⌈(P / 100) * ((values.length : ℚ) - 1)⌉
      ∧ ⌈(P / 100) * ((values.length : ℚ) - 1)⌉ ≤ (values.length : Int) - 1
      ∧ (arrayAt values ⌊(P / 100) * ((values.length : ℚ) - 1)⌋).isSome = true
      ∧ (arrayAt values ⌈(P / 100) * ((values.length : ℚ) - 1)⌉).isSome = true
      ∧ (∃ v : Int, Lead.getPercentile values P = .num v
          ∧ values.head hne ≤ v ∧ v ≤ values.getLast hne)
      ∧ ∀ (x : Int) (Q : ℚ), Lead.getPercentile [x] Q = .num x := by
  have hpos : 0 < values.length := List.length_pos.2 hne
  obtain ⟨hlo, hmid, hhi⟩ := percentile_index_bounds values.length hpos P h0 h100
  have h1 := arrayAt_eq_getD values _ hlo (le_trans hmid hhi)
  have h2 := arrayAt_eq_getD values _ (le_trans hlo hmid) hhi
  refine ⟨hlo, hmid, hhi, by rw [h1]; rfl, by rw [h2]; rfl, ?_, ?_⟩
  · exact ⟨percentileSpec values P, Lead.getPercentile_eq_spec values P hne h0 h100,
      percentileSpec_between values hne hs P h0 h100⟩
  · intro x Q
    simp [Lead.getPercentile, arrayAt, Math.round_intCast]

/-- Witness of C28: the median of [10, 20, 30, 40] is read at the positions 1 and 2 and
lies between 10 and 40. -/
theorem Lead.getPercentile_in_bounds_witness :
    ∃ v : Int, Lead.getPercentile [10, 20, 30, 40] 50 = .num v
      ∧ [10, 20, 30, 40].head (by decide) ≤ v ∧ v ≤ [10, 20, 30, 40].getLast (by decide) :=
  (Lead.getPercentile_in_bounds [10, 20, 30, 40] 50 (by decide) (by decide) (by norm_num)
    (by norm_num)).2.2.2.2.2.1

theorem Math.round_near_between (a b : Int) (E F : ℚ) (ha : (a : ℚ) ≤ E) (hb : E ≤ (b : ℚ))
    (h : |F - E| ≤ 1 / 256) : a ≤ Math.round F ∧ Math.round F ≤ b := by
  have h2 := abs_le.1 h
  constructor
  · exact Int.le_floor.2 (by linarith [h2.1])
  · have : Math.round F < b + 1 := by
      rw [Math.round, Int.floor_lt]
      push_cast
      linarith [h2.2]
    omega

theorem interpolation_gap (FP FQ a b l i j : ℚ)
    (eP : |FP - (a * (1 - (i - l)) + b * (i - l))| ≤ 1 / 256)
    (eQ : |FQ - (a * (1 - (j - l)) + b * (j - l))| ≤ 1 / 256)
    (hba : 1 ≤ b - a) (hgap : 1 / 25 - 2 / 2 ^ 53 ≤ j - i) : FP ≤ FQ := by
  have eP2 := abs_le.1 eP
  have eQ2 := abs_le.1 eQ
  have hprod : 1 * (1 / 25 - 2 / 2 ^ 53) ≤ (b - a) * (j - i) :=
    mul_le_mul hba hgap (by norm_num) (by linarith)
  norm_num at eP2 eQ2 hprod
  linarith [eP2.1, eP2.2, eQ2.1, eQ2.2, hprod]

theorem getD_abs_le (values : List Int) (hV : ∀ v ∈ values, |v| ≤ 2 ^ 40) (i : Nat)
    (hi : i < values.length) : |values.getD i 0| ≤ 2 ^ 40 := by
  rw [List.getD_eq_getElem _ _ hi]
  exact hV _ (List.getElem_mem _)

/-- On an ascending list of whole numbers of at most 2^40 in absolute value, the formula
in double-precision arithmetic does not decrease from `P` to `Q` when the fractions
computed for them are at least 1/25 apart and at most 24/25. -/
theorem Double.percentileSpec_le (values : List Int) (hne : values ≠ [])
    (hs : values.Sorted (· ≤ ·)) (hV : ∀ v ∈ values, |v| ≤ 2 ^ 40) (P Q : ℚ)
    (hp0 : 0 ≤ toDouble (P / 100)) (hpq : toDouble (P / 100) + 1 / 25 ≤ toDouble (Q / 100))
    (hq1 : toDouble (Q / 100) ≤ 24 / 25) :
    Double.percentileSpec values P ≤ Double.percentileSpec values Q := by
  have hpos : 0 < values.length := List.length_pos.2 hne
  have hN : (0 : ℚ) ≤ (values.length : ℚ) - 1 := by
    have : (1 : ℚ) ≤ (values.length : ℚ) := by exact_mod_cast hpos
    linarith
  have hp1 : toDouble (P / 100) ≤ 24 / 25 := by linarith
  have hq0 : 0 ≤ toDouble (Q / 100) := by linarith
  obtain ⟨hi0, hi1, hie⟩ := toDouble_index_bounds _ _ hp0 hp1 hN
  obtain ⟨hj0, hj1, hje⟩ := toDouble_index_bounds _ _ hq0 hq1 hN
  simp only [Double.percentileSpec]
  generalize toDouble (P / 100) = p at *
  generalize toDouble (Q / 100) = q at *
  generalize hi : toDouble (p * ((values.length : ℚ) - 1)) = i at *
  generalize hj : toDouble (q * ((values.length : ℚ) - 1)) = j at *
  -- the two indices
  have hie2 := abs_le.1 hie
  have hje2 := abs_le.1 hje
  have hgap : ((values.length : ℚ) - 1) * (1 / 25 - 2 / 2 ^ 53) ≤ j - i := by
    have : p * ((values.length : ℚ) - 1) + 1 / 25 * ((values.length : ℚ) - 1)
        ≤ q * ((values.length : ℚ) - 1) := by nlinarith
    linarith [hie2.2, hje2.1]
  have hij : i ≤ j := by
    have : 0 ≤ ((values.length : ℚ) - 1) * (1 / 25 - 2 / 2 ^ 53) :=
      mul_nonneg hN (by norm_num)
    linarith
  have hfi0 : 0 ≤ ⌊i⌋ := Int.floor_nonneg.2 hi0
  have hfj0 : 0 ≤ ⌊j⌋ := Int.floor_nonneg.2 hj0
  have hfci := Int.floor_le_ceil i
  have hfcj := Int.floor_le_ceil j
  have hci : ⌈i⌉ ≤ (values.length : Int) - 1 := by rw [Int.ceil_le]; push_cast; exact hi1
  have hcj : ⌈j⌉ ≤ (values.length : Int) - 1 := by rw [Int.ceil_le]; push_cast; exact hj1
  have hwi0 : 0 ≤ i - ⌊i⌋ := by linarith [Int.floor_le i]
  have hwi1 : i - ⌊i⌋ ≤ 1 := by linarith [Int.lt_floor_add_one i]
  have hwj0 : 0 ≤ j - ⌊j⌋ := by linarith [Int.floor_le j]
  have hwj1 : j - ⌊j⌋ ≤ 1 := by linarith [Int.lt_floor_add_one j]
  -- the rounded sums are near the exact interpolations
  have eP := toDouble_interpolation_sub_le (values.getD ⌊i⌋.toNat 0) (values.getD ⌈i⌉.toNat 0)
    (i - ⌊i⌋) (getD_abs_le values hV _ (by omega)) (getD_abs_le values hV _ (by omega)) hwi0 hwi1
  have eQ := toDouble_interpolation_sub_le (values.getD ⌊j⌋.toNat 0) (values.getD ⌈j⌉.toNat 0)
    (j - ⌊j⌋) (getD_abs_le values hV _ (by omega)) (getD_abs_le values hV _ (by omega)) hwj0 hwj1
  have bP := interpolation_between values hs i hi0 hi1
  have bQ := interpolation_between values hs j hj0 hj1
  have rP := Math.round_near_between _ _ _ _ bP.1 bP.2 eP
  have rQ := Math.round_near_between _ _ _ _ bQ.1 bQ.2 eQ
  by_cases hcase : ⌈i⌉ ≤ ⌊j⌋
  · have hmid : values.getD ⌈i⌉.toNat 0 ≤ values.getD ⌊j⌋.toNat 0 :=
      sorted_getD_mono values hs _ _ (by omega) (by omega)
    exact le_trans rP.2 (le_trans hmid rQ.1)
  · have hcase2 : ⌊j⌋ < ⌈i⌉ := not_le.1 hcase
    have hfl : ⌊i⌋ ≤ ⌊j⌋ := Int.floor_mono hij
    have hcl : ⌈i⌉ ≤ ⌈j⌉ := Int.ceil_mono hij
    have hci1 : ⌈i⌉ ≤ ⌊i⌋ + 1 := Int.ceil_le_floor_add_one i
    have hcj1 : ⌈j⌉ ≤ ⌊j⌋ + 1 := Int.ceil_le_floor_add_one j
    have hfeq : ⌊j⌋ = ⌊i⌋ := by omega
    have hceq : ⌈j⌉ = ⌈i⌉ := by omega
    have hlen : 2 ≤ values.length := by omega
    have hN1 : (1 : ℚ) ≤ (values.length : ℚ) - 1 := by
      have : (2 : ℚ) ≤ (values.length : ℚ) := by exact_mod_cast hlen
      linarith
    have hgap1 : 1 / 25 - 2 / 2 ^ 53 ≤ j - i := by
      have : 1 * (1 / 25 - 2 / 2 ^ 53) ≤ ((values.length : ℚ) - 1) * (1 / 25 - 2 / 2 ^ 53) :=
        mul_le_mul_of_nonneg_right hN1 (by norm_num)
      linarith
    have hab : values.getD ⌊i⌋.toNat 0 ≤ values.getD ⌈i⌉.toNat 0 :=
      sorted_getD_mono values hs _ _ (by omega) (by omega)
    rw [hfeq, hceq] at rQ eQ ⊢
    rcases eq_or_lt_of_le hab with heq | hlt
    · have h1 := rP.2
      have h2 := rQ.1
      linarith
    · apply Math.round_mono
      have hba : (1 : ℚ) ≤ (values.getD ⌈i⌉.toNat 0 : ℚ) - (values.getD ⌊i⌋.toNat 0 : ℚ) := by
        have : values.getD ⌊i⌋.toNat 0 + 1 ≤ values.getD ⌈i⌉.toNat 0 := hlt
        have : ((values.getD ⌊i⌋.toNat 0 + 1 : Int) : ℚ) ≤ (values.getD ⌈i⌉.toNat 0 : Int) := by
          exact_mod_cast this
        push_cast at this
        linarith
      exact interpolation_gap _ _ _ _ _ _ _ eP eQ hba hgap1

/-- Counterexample to C29: 2.499999999999999 and 2.4999999999999996 are doubles, the
first below the second, and on the ascending list [1, 11, 18] `Lead._getPercentile`
returns 2 for the first and 1 for the second. -/
theorem Double.Lead.getPercentile_not_monotone :
    toDouble (2814749767106559 / 1125899906842624) = 2814749767106559 / 1125899906842624
      ∧ toDouble (5629499534213119 / 2251799813685248) = 5629499534213119 / 2251799813685248
      ∧ (0 : ℚ) ≤ 2814749767106559 / 1125899906842624
      ∧ (2814749767106559 / 1125899906842624 : ℚ) < 5629499534213119 / 2251799813685248
      ∧ (5629499534213119 / 2251799813685248 : ℚ) ≤ 100
      ∧ [(1 : Int), 11, 18].Sorted (· ≤ ·)
      ∧ Double.Lead.getPercentile [1, 11, 18] (2814749767106559 / 1125899906842624) = .num 2
      ∧ Double.Lead.getPercentile [1, 11, 18] (5629499534213119 / 2251799813685248) = .num 1 := by
  decide!

/-- C29, amended: when some lead has elapsed minutes and every stored value is at most
2^40 in absolute value, the percentiles that `Lead.getPercentiles` reports, computed in
double-precision arithmetic, are whole numbers with p50 ≤ p75 ≤ p90 ≤ p95. -/
theorem Double.Lead.getPercentiles_ordered (db : Db)
    (hex : ∃ l ∈ db.leads, ∃ v : Int, l.speed_to_lead_minutes = some v)
    (hV : ∀ l ∈ db.leads, ∀ v : Int, l.speed_to_lead_minutes = some v → |v| ≤ 2 ^ 40) :
    ∃ a b c d : Int,
      Double.Lead.getPercentiles db
          = { p50 := some (.num a), p75 := some (.num b), p90 := some (.num c),
              p95 := some (.num d) }
        ∧ a ≤ b ∧ b ≤ c ∧ c ≤ d := by
  have hsorted : (SpeedToLead.Lead.selectSpeeds db).Sorted (· ≤ ·) :=
    List.sorted_insertionSort (· ≤ ·) _
  have hperm : (SpeedToLead.Lead.selectSpeeds db).Perm
      (db.leads.filterMap (·.speed_to_lead_minutes)) :=
    List.perm_insertionSort (· ≤ ·) _
  have hne : SpeedToLead.Lead.selectSpeeds db ≠ [] := by
    obtain ⟨l, hl, v, hv⟩ := hex
    have hmem : v ∈ db.leads.filterMap (·.speed_to_lead_minutes) :=
      List.mem_filterMap.2 ⟨l, hl, hv⟩
    have := hperm.symm.subset hmem
    exact List.ne_nil_of_mem this
  have hbound : ∀ v ∈ SpeedToLead.Lead.selectSpeeds db, |v| ≤ 2 ^ 40 := by
    intro v hv
    obtain ⟨l, hl, hlv⟩ := List.mem_filterMap.1 (hperm.subset hv)
    exact hV l hl v hlv
  have hget := Double.Lead.getPercentiles_selected db hne
  refine ⟨_, _, _, _, hget, ?_, ?_, ?_⟩
  · exact Double.percentileSpec_le _ hne hsorted hbound 50 75
      (by rw [toDouble_fraction_50]; norm_num)
      (by rw [toDouble_fraction_50, toDouble_fraction_75]; norm_num)
      (by rw [toDouble_fraction_75]; norm_num)
  · exact Double.percentileSpec_le _ hne hsorted hbound 75 90
      (by rw [toDouble_fraction_75]; norm_num)
      (by rw [toDouble_fraction_75, toDouble_fraction_90]; norm_num)
      (by rw [toDouble_fraction_90]; norm_num)
  · exact Double.percentileSpec_le _ hne hsorted hbound 90 95
      (by rw [toDouble_fraction_90]; norm_num)
      (by rw [toDouble_fraction_90, toDouble_fraction_95]; norm_num)
      (by rw [toDouble_fraction_95]; norm_num)

/-- Witness of C29, amended: the store with elapsed minutes 12 and 2 reports ordered
percentiles. -/
theorem Double.Lead.getPercentiles_ordered_witness :
    ∃ a b c d : Int,
      Double.Lead.getPercentiles twoSpeedsDb
          = { p50 := some (.num a), p75 := some (.num b), p90 := some (.num c),
              p95 := some (.num d) }
        ∧ a ≤ b ∧ b ≤ c ∧ c ≤ d :=
  Double.Lead.getPercentiles_ordered twoSpeedsDb
    ⟨_, List.mem_cons_self _ _, 12, rfl⟩
    (by
      intro l hl v hv
      simp only [twoSpeedsDb, List.mem_cons, List.mem_singleton, List.not_mem_nil,
        or_false] at hl
      rcases hl with h | h <;> subst h <;> simp at hv <;> subst hv <;> decide)

/-! ### The average time of day -/

theorem formatted_time_clock :
    ∀ h : Nat, h < 24 → ∀ m : Nat, m < 60 →
      numberToString (if jsRem (h : Int) 12 = 0 then 12 else jsRem (h : Int) 12) ++ ":"
          ++ padStart (numberToString (m : Int)) 2 '0' ++ " "
          ++ (if (h : Int) ≥ 12 then "PM" else "AM") = clock12 h m
        ∧ clockTo24Hour (clock12 h m) = some (h, m) := by
  decide!

theorem sum_between (xs : List Int) (a b : Int) (h : ∀ x ∈ xs, a ≤ x ∧ x ≤ b) :
    (xs.length : Int) * a ≤ xs.sum ∧ xs.sum ≤ (xs.length : Int) * b := by
  induction xs with
  | nil => simp
  | cons x rest ih =>
    have hx := h x (List.mem_cons_self _ _)
    have hrest := ih fun y hy => h y (List.mem_cons_of_mem _ hy)
    simp only [List.length_cons, List.sum_cons, Nat.cast_add, Nat.cast_one]
    constructor <;> nlinarith

theorem roundAggregate_between (xs : List Int) (b : Int) (hb : 0 ≤ b)
    (h : ∀ x ∈ xs, 0 ≤ x ∧ x ≤ b) :
    0 ≤ roundAggregate (sqlAvg xs) ∧ roundAggregate (sqlAvg xs) ≤ b := by
  by_cases hxs : xs = []
  · simp [sqlAvg, hxs, roundAggregate, hb]
  · have hlen : (0 : ℚ) < (xs.length : ℚ) := by
      exact_mod_cast List.length_pos.2 hxs
    obtain ⟨h1, h2⟩ := sum_between xs 0 b h
    have h1q : (0 : ℚ) ≤ (xs.sum : ℚ) := by
      have : (0 : Int) ≤ xs.sum := by simpa using h1
      exact_mod_cast this
    have h2q : (xs.sum : ℚ) ≤ (xs.length : ℚ) * (b : ℚ) := by exact_mod_cast h2
    simp only [sqlAvg, hxs, if_false, roundAggregate]
    have := Math.round_between 0 b ((xs.sum : ℚ) / (xs.length : ℚ))
      (by rw [Int.cast_zero]; exact div_nonneg h1q hlen.le)
      (by rw [div_le_iff₀ hlen]; linarith)
    exact this

/-- C24: for a store with at least one lead, `Lead.getAverageTimeOfDay` reports an
`average_hour` h in 0..23 and an `average_minute` m in 0..59, each the rounded mean of the
hours, respectively of the minutes, of the creation timestamps (rounded separately), and
`formatted_time` is the 12-hour clock rendering of h:m: the hour is shown as 1 to 12 (0 as
12 with AM, 12 as 12 with PM, 13 to 23 as 1 to 11 with PM), the minute with two digits,
and reading `formatted_time` back into 24-hour time gives h and m again. -/
theorem Lead.getAverageTimeOfDay_clock (zone : Int → Int) (db : Db) (hne : db.leads ≠ []) :
    ∃ h m : Nat, h ≤ 23 ∧ m ≤ 59
      ∧ (Lead.getAverageTimeOfDay zone db).average_hour = some (h : Int)
      ∧ (Lead.getAverageTimeOfDay zone db).average_minute = some (m : Int)
      ∧ (∀ hours, hours = db.leads.filterMap (fun l => sqlHour zone l.created_at) →
          hours ≠ [] → (h : Int) = Math.round ((hours.sum : ℚ) / (hours.length : ℚ)))
      ∧ (∀ minutes, minutes = db.leads.filterMap (fun l => sqlMinute zone l.created_at) →
          minutes ≠ [] → (m : Int) = Math.round ((minutes.sum : ℚ) / (minutes.length : ℚ)))
      ∧ (Lead.getAverageTimeOfDay zone db).formatted_time = clock12 h m
      ∧ clockTo24Hour (Lead.getAverageTimeOfDay zone db).formatted_time = some (h, m)
      ∧ (Lead.getAverageTimeOfDay zone db).total_leads = db.leads.length := by
  have hlen : ¬ db.leads.length = 0 := fun h => hne (List.length_eq_zero.1 h)
  have hh : ∀ x ∈ db.leads.filterMap (fun l => sqlHour zone l.created_at),
      0 ≤ x ∧ x ≤ 23 := by
    intro x hx
    simp only [List.mem_filterMap, sqlHour, Option.map_eq_some'] at hx
    obtain ⟨l, -, t, -, rfl⟩ := hx
    constructor
    · exact Int.emod_nonneg _ (by norm_num)
    · have := Int.emod_lt_of_pos ((t + zone t) / 3600000) (by norm_num : (0 : Int) < 24)
      omega
  have hm : ∀ x ∈ db.leads.filterMap (fun l => sqlMinute zone l.created_at),
      0 ≤ x ∧ x ≤ 59 := by
    intro x hx
    simp only [List.mem_filterMap, sqlMinute, Option.map_eq_some'] at hx
    obtain ⟨l, -, t, -, rfl⟩ := hx
    constructor
    · exact Int.emod_nonneg _ (by norm_num)
    · have := Int.emod_lt_of_pos ((t + zone t) / 60000) (by norm_num : (0 : Int) < 60)
      omega
  obtain ⟨hh0, hh1⟩ := roundAggregate_between _ 23 (by norm_num) hh
  obtain ⟨hm0, hm1⟩ := roundAggregate_between _ 59 (by norm_num) hm
  generalize hH : roundAggregate
    (sqlAvg (db.leads.filterMap fun l => sqlHour zone l.created_at)) = H at hh0 hh1
  generalize hM : roundAggregate
    (sqlAvg (db.leads.filterMap fun l => sqlMinute zone l.created_at)) = M at hm0 hm1
  have hHn : ((H.toNat : Nat) : Int) = H := Int.toNat_of_nonneg hh0
  have hMn : ((M.toNat : Nat) : Int) = M := Int.toNat_of_nonneg hm0
  have hclock := formatted_time_clock H.toNat (by omega) M.toNat (by omega)
  rw [hHn, hMn] at hclock
  refine ⟨H.toNat, M.toNat, by omega, by omega, ?_, ?_, ?_, ?_, ?_, ?_, ?_⟩
  · simp only [Lead.getAverageTimeOfDay, if_neg hlen, hH, hHn]
  · simp only [Lead.getAverageTimeOfDay, if_neg hlen, hM, hMn]
  · intro hours hdef hnonempty
    subst hdef
    rw [hHn, ← hH]
    simp only [sqlAvg, if_neg hnonempty, roundAggregate]
  · intro minutes hdef hnonempty
    subst hdef
    rw [hMn, ← hM]
    simp only [sqlAvg, if_neg hnonempty, roundAggregate]
  · simp only [Lead.getAverageTimeOfDay, if_neg hlen, hH, hM]
    exact hclock.1
  · simp only [Lead.getAverageTimeOfDay, if_neg hlen, hH, hM]
    rw [hclock.1]
    exact hclock.2
  · simp only [Lead.getAverageTimeOfDay, if_neg hlen]

/-- Witness of C24: two leads created at 13:45 and 14:30 give the hour 14 (the mean 13.5
rounded) and the minute 38 (the mean 37.5 rounded), shown as "2:38 PM". -/
theorem Lead.getAverageTimeOfDay_clock_witness :
    (∃ h m : Nat, h ≤ 23 ∧ m ≤ 59
      ∧ (Lead.getAverageTimeOfDay (fun _ => 0) timeOfDayDb).formatted_time = clock12 h m
      ∧ clockTo24Hour (Lead.getAverageTimeOfDay (fun _ => 0) timeOfDayDb).formatted_time
          = some (h, m))
      ∧ (Lead.getAverageTimeOfDay (fun _ => 0) timeOfDayDb).formatted_time = "2:38 PM" := by
  obtain ⟨h, m, h1, h2, -, -, -, -, h3, h4, -⟩ :=
    Lead.getAverageTimeOfDay_clock (fun _ => 0) timeOfDayDb (by decide)
  exact ⟨⟨h, m, h1, h2, h3, h4⟩, by decide!⟩

/-! ### The first contact of a lead -/

theorem eq_of_mem_of_ghl_eq (leads : List LeadRow) (hu : (leads.map (·.ghl_lead_id)).Nodup)
    (a b : LeadRow) (ha : a ∈ leads) (hb : b ∈ leads) (h : a.ghl_lead_id = b.ghl_lead_id) :
    a = b :=
  List.inj_on_of_nodup_map hu ha hb h

theorem Lead.updateContact_of_mem (db : Db) (lead : LeadRow) (hu : db.leadIdsUnique)
    (hl : lead ∈ db.leads) (contactedAt : JsDate) (speed : Option Int) :
    (Lead.updateContact lead.ghl_lead_id contactedAt speed db).1
        = some { lead with first_contacted_at := some contactedAt,
                           speed_to_lead_minutes := speed, status := "contacted" }
      ∧ (Lead.updateContact lead.ghl_lead_id contactedAt speed db).2.leads
        = db.leads.map fun l =>
            if l = lead then
              { lead with first_contacted_at := some contactedAt,
                          speed_to_lead_minutes := speed, status := "contacted" }
            else l := by
  have hmap : (db.leads.map fun l =>
        if l.ghl_lead_id = lead.ghl_lead_id then
          { l with first_contacted_at := some contactedAt,
                   speed_to_lead_minutes := speed, status := "contacted" }
        else l)
      = db.leads.map fun l =>
        if l = lead then
          { lead with first_contacted_at := some contactedAt,
                      speed_to_lead_minutes := speed, status := "contacted" }
        else l := by
    apply List.map_congr_left
    intro l hmem
    by_cases h : l = lead
    · subst h; simp
    · have : ¬ l.ghl_lead_id = lead.ghl_lead_id :=
        fun e => h (eq_of_mem_of_ghl_eq db.leads hu l lead hmem hl e)
      simp [h, this]
  constructor
  · have hu1 : Db.leadIdsUnique
        { db with leads := db.leads.map fun l =>
            if l.ghl_lead_id = lead.ghl_lead_id then
              { l with first_contacted_at := some contactedAt,
                       speed_to_lead_minutes := speed, status := "contacted" }
            else l } := by
      unfold Db.leadIdsUnique at hu ⊢
      have : ((db.leads.map fun l =>
            if l.ghl_lead_id = lead.ghl_lead_id then
              { l with first_contacted_at := some contactedAt,
                       speed_to_lead_minutes := speed, status := "contacted" }
            else l).map (·.ghl_lead_id)) = db.leads.map (·.ghl_lead_id) := by
        rw [List.map_map]
        apply List.map_congr_left
        intro l _
        by_cases h : l.ghl_lead_id = lead.ghl_lead_id <;> simp [h]
      simpa only [this] using hu
    have hmem1 : ({ lead with first_contacted_at := some contactedAt,
                              speed_to_lead_minutes := speed, status := "contacted" } : LeadRow)
        ∈ db.leads.map fun l =>
            if l.ghl_lead_id = lead.ghl_lead_id then
              { l with first_contacted_at := some contactedAt,
                       speed_to_lead_minutes := speed, status := "contacted" }
            else l := by
      rw [List.mem_map]
      exact ⟨lead, hl, by simp⟩
    exact Lead.findByGhlLeadId_of_mem _ _ hu1 hmem1
  · simp only [Lead.updateContact]
    exact hmap

/-- A lead-contacted request for a stored lead without first contact, in a store whose
lead identifiers are distinct, with a contact timestamp that is a valid date: the answer,
the leads and the setters afterwards. -/
theorem Webhooks.leadContacted_records_contact (rt : Runtime) (t : Int) (payload : Payload)
    (db : Db) (lead : LeadRow) (k : Int) (hu : db.leadIdsUnique) (hl : lead ∈ db.leads)
    (hid : payload.leadIdOf = lead.ghl_lead_id) (hidt : lead.ghl_lead_id.truthy = true)
    (hfc : lead.first_contacted_at = none)
    (hk : (if payload.contactedAtOf.truthy = true then newDate rt.parse payload.contactedAtOf
            else ⟨some t⟩) = ⟨some k⟩) :
    (Webhooks.leadContacted rt t payload db).1
        = ⟨200, .contact "Lead contact recorded successfully"
            (some { lead with
                first_contacted_at := some ⟨some k⟩,
                speed_to_lead_minutes :=
                  calculateSpeedToLead rt.parse (.date lead.created_at) (.date ⟨some k⟩),
                status := "contacted" })
            (calculateSpeedToLead rt.parse (.date lead.created_at) (.date ⟨some k⟩))⟩
      ∧ (Webhooks.leadContacted rt t payload db).2.leads
        = (db.leads.map fun l =>
            if l = lead then
              { lead with
                  first_contacted_at := some ⟨some k⟩,
                  speed_to_lead_minutes :=
                    calculateSpeedToLead rt.parse (.date lead.created_at) (.date ⟨some k⟩),
                  status := "contacted" }
            else l)
      ∧ (Webhooks.leadContacted rt t payload db).2.appointment_setters
          = db.appointment_setters := by
  have hfind : Lead.findByGhlLeadId payload.leadIdOf db = some lead := by
    rw [hid]; exact Lead.findByGhlLeadId_of_mem db lead hu hl
  have hidt2 : payload.leadIdOf.truthy = true := by rw [hid]; exact hidt
  have hupd := Lead.updateContact_of_mem
    (WebhookLog.create "/webhook/lead-contacted" payload db).2 lead hu hl ⟨some k⟩
    (calculateSpeedToLead rt.parse (.date lead.created_at) (.date ⟨some k⟩))
  refine ⟨?_, ?_, ?_⟩
  · unfold Webhooks.leadContacted Webhooks.leadContactedTry
    simp only [hidt2, Bool.not_true, Bool.false_eq_true, if_false,
      Lead.findByGhlLeadId_create_log, hfind, hfc, Option.isSome_none, hk, Option.isNone_some]
    rw [hid, hupd.1]
  · unfold Webhooks.leadContacted Webhooks.leadContactedTry
    simp only [hidt2, Bool.not_true, Bool.false_eq_true, if_false,
      Lead.findByGhlLeadId_create_log, hfind, hfc, Option.isSome_none, hk, Option.isNone_some]
    rw [hid]
    exact hupd.2
  · unfold Webhooks.leadContacted Webhooks.leadContactedTry
    simp only [hidt2, Bool.not_true, Bool.false_eq_true, if_false,
      Lead.findByGhlLeadId_create_log, hfind, hfc, Option.isSome_none, hk, Option.isNone_some]
    rfl

/-- Counterexample to C25: after the lead `L1` was created it is stored without first
contact, and a lead-contacted request for it whose `contactedAt` is the text "not a date"
is answered 400; afterwards the lead is as it was: no first-contact timestamp, no elapsed
minutes, status 'created'. -/
theorem Webhooks.leadContacted_unparseable_stores_nothing :
    (Webhooks.run sampleRuntime firstContactEvents {}).leads = [storedLeadL1]
      ∧ storedLeadL1.first_contacted_at = none
      ∧ (Webhooks.leadContacted sampleRuntime 5000
          { id := .str "L1", contactedAt := .str "not a date" }
          (Webhooks.run sampleRuntime firstContactEvents {})).1.status = 400
      ∧ (Webhooks.leadContacted sampleRuntime 5000
          { id := .str "L1", contactedAt := .str "not a date" }
          (Webhooks.run sampleRuntime firstContactEvents {})).2.leads = [storedLeadL1] := by
  decide!

/-- C25, amended: in every store reached from the empty store by lead-created and
lead-contacted requests, a lead-contacted request for a stored lead without first-contact
timestamp, whose reconciled contact timestamp is a valid date, rewrites that lead in one
update: `first_contacted_at` is the reconciled timestamp, `speed_to_lead_minutes` is
`calculateSpeedToLead(lead.created_at, timestamp)` and `status` is 'contacted'. The answer
is 200 with the updated lead and that same speed value, and every other lead is stored as
it was. -/
theorem Webhooks.leadContacted_first_contact (rt : Runtime) (events : List Event) (t : Int)
    (payload : Payload) (lead : LeadRow) (k : Int)
    (hl : lead ∈ (Webhooks.run rt events {}).leads)
    (hid : payload.leadIdOf = lead.ghl_lead_id) (hfc : lead.first_contacted_at = none)
    (hk : (if payload.contactedAtOf.truthy = true then newDate rt.parse payload.contactedAtOf
            else ⟨some t⟩) = ⟨some k⟩) :
    (Webhooks.leadContacted rt t payload (Webhooks.run rt events {})).1
        = ⟨200, .contact "Lead contact recorded successfully"
            (some { lead with
                first_contacted_at := some ⟨some k⟩,
                speed_to_lead_minutes :=
                  calculateSpeedToLead rt.parse (.date lead.created_at) (.date ⟨some k⟩),
                status := "contacted" })
            (calculateSpeedToLead rt.parse (.date lead.created_at) (.date ⟨some k⟩))⟩
      ∧ (Webhooks.leadContacted rt t payload (Webhooks.run rt events {})).2.leads
        = ((Webhooks.run rt events {}).leads.map fun l =>
            if l = lead then
              { lead with
                  first_contacted_at := some ⟨some k⟩,
                  speed_to_lead_minutes :=
                    calculateSpeedToLead rt.parse (.date lead.created_at) (.date ⟨some k⟩),
                  status := "contacted" }
            else l)
      ∧ (∀ l ∈ (Webhooks.run rt events {}).leads, l ≠ lead →
          l ∈ (Webhooks.leadContacted rt t payload (Webhooks.run rt events {})).2.leads) := by
  obtain ⟨hu, ht⟩ := Webhooks.run_reachable rt events {} (by decide) (by decide)
  obtain ⟨h1, h2, -⟩ := Webhooks.leadContacted_records_contact rt t payload
    (Webhooks.run rt events {}) lead k hu hl hid (ht lead hl) hfc hk
  refine ⟨h1, h2, ?_⟩
  intro l hmem hne
  rw [h2, List.mem_map]
  exact ⟨l, hmem, by simp [hne]⟩

/-- Witness of C25, amended: the lead `L1`, created at the time value 0, is contacted with
the timestamp 480000: eight elapsed minutes are stored and returned. -/
theorem Webhooks.leadContacted_first_contact_witness :
    (Webhooks.leadContacted sampleRuntime 5000 { id := .str "L1", timestamp := .num 480000 }
        (Webhooks.run sampleRuntime firstContactEvents {})).1
        = ⟨200, .contact "Lead contact recorded successfully" (some storedLeadL1Contacted)
            (some 8)⟩
      ∧ (Webhooks.leadContacted sampleRuntime 5000
          { id := .str "L1", timestamp := .num 480000 }
          (Webhooks.run sampleRuntime firstContactEvents {})).2.leads
        = [storedLeadL1Contacted] := by
  have h := Webhooks.leadContacted_first_contact sampleRuntime firstContactEvents 5000
    { id := .str "L1", timestamp := .num 480000 } storedLeadL1 480000
    (by decide!) (by decide) (by decide) (by decide)
  have hs : calculateSpeedToLead sampleRuntime.parse (.date storedLeadL1.created_at)
      (.date ⟨some 480000⟩) = some 8 := by decide!
  have hrun : (Webhooks.run sampleRuntime firstContactEvents {}).leads = [storedLeadL1] := by
    decide!
  rw [hs, hrun] at h
  exact ⟨h.1, h.2.1⟩

/-! ### The total of the overall report -/

/-- C26, at the input that breaks it: after `speedEvents` two leads are stored, neither
with a setter, and `GET /api/reports/overall` reports `total_leads = 0`: the join of
`Lead.findAll` keeps no lead whose setter is null. After `contactRateEvents` three leads
are stored, one of them with a setter, and `total_leads` is 1. -/
theorem Reports.overall_total_leads_drops_unassigned :
    (Webhooks.run sampleRuntime speedEvents {}).leads.length = 2
      ∧ (Reports.overall sampleRuntime
          (Webhooks.run sampleRuntime speedEvents {})).stats.total_leads = 0
      ∧ (Webhooks.run sampleRuntime contactRateEvents {}).leads.length = 3
      ∧ ((Webhooks.run sampleRuntime contactRateEvents {}).leads.filter
          fun l => l.appointment_setter_id.isSome).length = 1
      ∧ (Reports.overall sampleRuntime
          (Webhooks.run sampleRuntime contactRateEvents {})).stats.total_leads = 1 := by
  decide!

/-! ### The name of a stored setter -/

/-- C27: a lead-created request with a lead identifier and a setter email but no setter
name (none of `appointmentSetter.name`, `setter.name`, `name` is truthy) resolves the name
to the email. When the first setter stored under that email has a name different from the
email, the request rewrites the name of that setter (of the rows with its id) to the
email and leaves every other setter as it was. -/
theorem Webhooks.leadCreated_renames_setter (rt : Runtime) (t : Int) (payload : Payload)
    (db : Db) (existing0 : SetterRow) (rest : List SetterRow)
    (hid : payload.leadIdOf.truthy = true) (he : payload.setterEmailOf.truthy = true)
    (hn1 : payload.appointmentSetter_name.truthy = false)
    (hn2 : payload.setter_name.truthy = false) (hn3 : payload.name.truthy = false)
    (hfound : db.appointment_setters.filter (fun a => a.email = payload.setterEmailOf)
        = existing0 :: rest)
    (hname : existing0.name ≠ payload.setterEmailOf) :
    payload.setterNameOf = payload.setterEmailOf
      ∧ (Webhooks.leadCreated rt t payload db).2.appointment_setters
        = (db.appointment_setters.map fun a =>
            if a.id = existing0.id then { a with name := payload.setterEmailOf } else a)
      ∧ ({ existing0 with name := payload.setterEmailOf } : SetterRow)
          ∈ (Webhooks.leadCreated rt t payload db).2.appointment_setters
      ∧ (∀ a ∈ (Webhooks.leadCreated rt t payload db).2.appointment_setters,
          a.id = existing0.id → a.name = payload.setterEmailOf) := by
  have hnameOf : payload.setterNameOf = payload.setterEmailOf := by
    simp [Payload.setterNameOf, JsVal.or, hn1, hn2, hn3]
  have hmem : existing0 ∈ db.appointment_setters := by
    have : existing0 ∈ db.appointment_setters.filter
        (fun a => a.email = payload.setterEmailOf) := by
      rw [hfound]; exact List.mem_cons_self _ _
    exact (List.mem_filter.1 this).1
  have hfoc : (AppointmentSetter.findOrCreate payload.setterEmailOf payload.setterNameOf
      db).2.appointment_setters
      = (db.appointment_setters.map fun a =>
          if a.id = existing0.id then { a with name := payload.setterEmailOf } else a) := by
    rw [hnameOf]
    unfold AppointmentSetter.findOrCreate
    rw [hfound]
    simp only []
    rw [if_pos ⟨he, hname⟩]
  have hset : (Webhooks.leadCreated rt t payload db).2.appointment_setters
      = (db.appointment_setters.map fun a =>
          if a.id = existing0.id then { a with name := payload.setterEmailOf } else a) := by
    cases hfind : Lead.findByGhlLeadId payload.leadIdOf db with
    | some existing =>
      rw [(Webhooks.leadCreated_existing rt t payload db existing hid hfind).2.2, if_pos he,
        hfoc]
    | none =>
      rw [(Webhooks.leadCreated_new_explicit rt t payload db hid hfind).2.2, if_pos he, hfoc]
  refine ⟨hnameOf, hset, ?_, ?_⟩
  · rw [hset, List.mem_map]
    exact ⟨existing0, hmem, by simp⟩
  · intro a ha hida
    rw [hset, List.mem_map] at ha
    obtain ⟨b, -, hb⟩ := ha
    by_cases hbid : b.id = existing0.id
    · rw [if_pos hbid] at hb
      rw [← hb]
    · rw [if_neg hbid] at hb
      rw [hb] at hbid
      exact absurd hida hbid

/-- Witness of C27: Alice is stored under `alice@x.com`; a request for a new lead that
carries her email and no name leaves her stored with the email as her name. -/
theorem Webhooks.leadCreated_renames_setter_witness :
    (Webhooks.leadCreated sampleRuntime 1000 { id := .str "L9", email := .str "alice@x.com" }
        sampleSetterDb).2.appointment_setters
      = [{ id := 1, email := .str "alice@x.com", name := .str "alice@x.com" }] :=
  (Webhooks.leadCreated_renames_setter sampleRuntime 1000
    { id := .str "L9", email := .str "alice@x.com" } sampleSetterDb
    { id := 1, email := .str "alice@x.com", name := .str "Alice" } []
    (by decide) (by decide) (by decide) (by decide) (by decide) (by decide) (by decide)).2.1

/-! ### The log row of a request -/

theorem AppointmentSetter.findOrCreate_logs (email name : JsVal) (db : Db) :
    (AppointmentSetter.findOrCreate email name db).2.webhook_logs = db.webhook_logs := by
  unfold AppointmentSetter.findOrCreate
  split
  · split <;> rfl
  · rfl

/-- The `try` block of lead-created either answers 200 or 201 after `markProcessed` ran
for the log row, or throws and leaves the log as it was. -/
theorem Webhooks.leadCreatedTry_logs (rt : Runtime) (d : JsDate) (payload : Payload)
    (log : LogRow) (db : Db) :
    (∃ res, (Webhooks.leadCreatedTry rt d payload log db).1 = .ok res
        ∧ (res.status = 200 ∨ res.status = 201)
        ∧ (Webhooks.leadCreatedTry rt d payload log db).2.webhook_logs
            = (WebhookLog.markProcessed log.id db).webhook_logs)
      ∨ (∃ msg, (Webhooks.leadCreatedTry rt d payload log db).1 = .error msg
        ∧ (Webhooks.leadCreatedTry rt d payload log db).2.webhook_logs = db.webhook_logs) := by
  unfold Webhooks.leadCreatedTry
  by_cases hid : payload.leadIdOf.truthy = true
  · left
    by_cases he : payload.setterEmailOf.truthy = true
    · cases hfind : Lead.findByGhlLeadId payload.leadIdOf
          (AppointmentSetter.findOrCreate payload.setterEmailOf payload.setterNameOf db).2 with
      | some existing =>
        simp [hid, he, hfind, WebhookLog.markProcessed, AppointmentSetter.findOrCreate_logs]
      | none =>
        simp [hid, he, hfind, WebhookLog.markProcessed, Lead.create,
          AppointmentSetter.findOrCreate_logs]
    · cases hfind : Lead.findByGhlLeadId payload.leadIdOf db with
      | some existing => simp [hid, he, hfind, WebhookLog.markProcessed]
      | none => simp [hid, he, hfind, WebhookLog.markProcessed, Lead.create]
  · right
    simp [hid]

/-- The `try` block of lead-contacted either answers 200 after `markProcessed` ran for the
log row, or throws and leaves the log as it was. -/
theorem Webhooks.leadContactedTry_logs (rt : Runtime) (d : JsDate) (payload : Payload)
    (log : LogRow) (db : Db) :
    (∃ res, (Webhooks.leadContactedTry rt d payload log db).1 = .ok res
        ∧ (res.status = 200 ∨ res.status = 201)
        ∧ (Webhooks.leadContactedTry rt d payload log db).2.webhook_logs
            = (WebhookLog.markProcessed log.id db).webhook_logs)
      ∨ (∃ msg, (Webhooks.leadContactedTry rt d payload log db).1 = .error msg
        ∧ (Webhooks.leadContactedTry rt d payload log db).2.webhook_logs
            = db.webhook_logs) := by
  unfold Webhooks.leadContactedTry
  simp only []
  generalize (if payload.contactedAtOf.truthy = true then newDate rt.parse payload.contactedAtOf
    else d) = contactedAt
  by_cases hid : payload.leadIdOf.truthy = true
  · cases hfind : Lead.findByGhlLeadId payload.leadIdOf db with
    | none => right; simp [hid, hfind]
    | some lead =>
      by_cases hfc : lead.first_contacted_at.isSome = true
      · left; simp [hid, hfind, hfc, WebhookLog.markProcessed]
      · by_cases hk : contactedAt.time.isNone = true
        · right; simp [hid, hfind, hfc, hk]
        · left; simp [hid, hfind, hfc, hk, WebhookLog.markProcessed, Lead.updateContact]
  · right
    simp [hid]

/-- The end of both webhook handlers, after the `try` block returned `r`: the log row of
the request is the last row of the log, processed, and it carries an error exactly when
the answer is the 400 of the `catch` block, whose details are that error. -/
theorem Webhooks.handler_logs (endpoint : String) (payload : Payload) (db : Db)
    (r : Except String Response × Db)
    (h : (∃ res, r.1 = .ok res ∧ (res.status = 200 ∨ res.status = 201)
            ∧ r.2.webhook_logs
                = (WebhookLog.markProcessed (WebhookLog.create endpoint payload db).1.id
                    (WebhookLog.create endpoint payload db).2).webhook_logs)
          ∨ (∃ msg, r.1 = .error msg
            ∧ r.2.webhook_logs = (WebhookLog.create endpoint payload db).2.webhook_logs)) :
    ∃ err : Option String,
      (match r with
        | (.ok res, db1) => (res, db1)
        | (.error message, db1) =>
          ((⟨400, .error "Failed to process webhook" message⟩ : Response),
           WebhookLog.markFailed (WebhookLog.create endpoint payload db).1.id message
             db1)).2.webhook_logs
          = db.webhook_logs ++
              [{ id := insertId (db.webhook_logs.map (·.id)), endpoint := endpoint,
                 payload := payload, processed := true, error := err }]
        ∧ (err = none ↔
            ((match r with
              | (.ok res, db1) => (res, db1)
              | (.error message, db1) =>
                ((⟨400, .error "Failed to process webhook" message⟩ : Response),
                 WebhookLog.markFailed (WebhookLog.create endpoint payload db).1.id message
                   db1)).1.status = 200
              ∨ (match r with
              | (.ok res, db1) => (res, db1)
              | (.error message, db1) =>
                ((⟨400, .error "Failed to process webhook" message⟩ : Response),
                 WebhookLog.markFailed (WebhookLog.create endpoint payload db).1.id message
                   db1)).1.status = 201))
        ∧ (∀ msg, err = some msg ↔
            (match r with
              | (.ok res, db1) => (res, db1)
              | (.error message, db1) =>
                ((⟨400, .error "Failed to process webhook" message⟩ : Response),
                 WebhookLog.markFailed (WebhookLog.create endpoint payload db).1.id message
                   db1)).1 = ⟨400, .error "Failed to process webhook" msg⟩) := by
  obtain ⟨r1, db1⟩ := r
  rcases h with ⟨res, hres, hst, hlogs⟩ | ⟨msg, hres, hlogs⟩
  · simp only at hres hlogs
    subst hres
    refine ⟨none, ?_, ?_, ?_⟩
    · simp only [hlogs, WebhookLog.markProcessed_create]
    · simp only [true_iff]
      exact hst
    · intro msg
      simp only [reduceCtorEq, false_iff]
      intro hc
      rw [hc] at hst
      simp at hst
  · simp only at hres hlogs
    subst hres
    refine ⟨some msg, ?_, ?_, ?_⟩
    · have : (WebhookLog.markFailed (WebhookLog.create endpoint payload db).1.id msg
          db1).webhook_logs
          = (WebhookLog.markFailed (WebhookLog.create endpoint payload db).1.id msg
              (WebhookLog.create endpoint payload db).2).webhook_logs := by
        simp only [WebhookLog.markFailed, hlogs]
      simp only [this, WebhookLog.markFailed_create]
    · simp
    · intro m
      simp

/-- C21: every lead-created and lead-contacted request appends one row to the webhook
log, with the payload received, and when the handler has answered that row is marked
processed; it carries an error reason exactly when the answer is the 400 of a failure
(the reason being the details of the answer), and none when the answer is 200 or 201. The
row is written before any lead or setter is read or written: the `INSERT` of the row is
the first statement the handler issues, so when it is rejected no other statement is
issued and the store is as before, and when it succeeds and the next statement is
rejected the store holds the new row and nothing else has changed. -/
theorem Webhooks.handle_logs_request (rt : Runtime) (e : Event) (db : Db)
    (fault : FaultPlan) :
    (∃ err : Option String,
        (Webhooks.handle rt e db).2.webhook_logs
            = db.webhook_logs ++
                [{ id := insertId (db.webhook_logs.map (·.id)), endpoint := e.endpoint,
                   payload := e.payload, processed := true, error := err }]
          ∧ (err = none ↔ ((Webhooks.handle rt e db).1.status = 200
              ∨ (Webhooks.handle rt e db).1.status = 201))
          ∧ (∀ msg, err = some msg ↔
              (Webhooks.handle rt e db).1 = ⟨400, .error "Failed to process webhook" msg⟩))
      ∧ (∀ e0, fault 0 = some e0 →
          (Faulty.handle rt fault e { db := db }).2 = { db := db, issued := 1 })
      ∧ (∀ e1, fault 0 = none → fault 1 = some e1 →
          (Faulty.handle rt fault e { db := db }).2
            = { db := (WebhookLog.create e.endpoint e.payload db).2, issued := 2 }) := by
  refine ⟨?_, ?_, ?_⟩
  · cases e with
    | leadCreated t payload =>
      exact Webhooks.handler_logs "/webhook/lead-created" payload db _
        (Webhooks.leadCreatedTry_logs rt ⟨some t⟩ payload _ _)
    | leadContacted t payload =>
      exact Webhooks.handler_logs "/webhook/lead-contacted" payload db _
        (Webhooks.leadContactedTry_logs rt ⟨some t⟩ payload _ _)
  · intro e0 h0
    cases e with
    | leadCreated t payload =>
      simp [Faulty.handle, Faulty.leadCreated, Faulty.WebhookLog.create, Storage.bind_apply,
        Storage.execute, h0, Faulty.catchBlock]
    | leadContacted t payload =>
      simp [Faulty.handle, Faulty.leadContacted, Faulty.WebhookLog.create,
        Storage.bind_apply, Storage.execute, h0, Faulty.catchBlock]
  · intro e1 h0 h1
    cases e with
    | leadCreated t payload =>
      simp [Faulty.handle, Faulty.leadCreated, Faulty.WebhookLog.create, Storage.bind_apply,
        Storage.execute, h0, h1, Faulty.catchBlock, Event.endpoint, Event.payload]
    | leadContacted t payload =>
      simp [Faulty.handle, Faulty.leadContacted, Faulty.WebhookLog.create,
        Storage.bind_apply, Storage.execute, h0, h1, Faulty.catchBlock, Event.endpoint,
        Event.payload]

end SpeedToLead
